import Mathlib

/-!
# Kafka consumer and producer, gRPC interceptors of go-common: model and properties

A shallow embedding of `pkg/kafka/consumer/consumer.go` (namespace `Consumer`), of
`pkg/kafka/producer/producer.go` (namespace `Producer`), of the interceptors and
`ParseFullMethod` of `pkg/grpc` (namespace `Grpc`) and of `utils/errorutils` (namespace
`Errorutils`).

* `NewKafkaConsumer` is the constructor, with Go's 64-bit `int` arithmetic made explicit.
* `stepAny` is the interleaving semantics of the goroutines of one consumer instance: the
  caller of `Start`, the consume loop, one `ConsumeClaim` reader per claimed partition, the
  workers and the caller of `Close`.  An `Action` names the goroutine that moves and, at a
  `select`, the case that is taken; `none` means that the action is blocked (or not
  applicable) in the state.
* `step` is `stepAny` for a caller that calls `Close` on a started consumer only; `Reachable`
  and the invariant `Inv` are about this system.
* The broker client (sarama) and the handler are outside the repository.  They appear as
  scheduler choices: a session is set up, ends, `Consume` returns, the handler returns or panics.
  Of sarama only its documented contract is used: `Setup` runs before the `ConsumeClaim`
  goroutines of a session are started, and `Consume` returns only after all of them have exited.
* Fields such as `enq`, `started`, `handled`, `marked` record history; no step reads them.
* The producer is modelled by the records its broker client has accepted; the tracer and the
  propagator of OpenTelemetry are parameters (namespace `Tracing`), and each collector of
  delivery outcomes is a step function over its result stream.
* An interceptor is a function from the context, the request, the method and the handler to
  the way the call ends and the calls of the handler it has made; errors are values of the
  package `status` or other errors, strings are byte strings.
-/

namespace Consumer

/-! ## Machine integers and runtime faults -/

/-- Reasons for which the process stops: `logger.L().Fatal` (log, then exit) or a runtime panic
that nothing recovers. -/
inductive Fault where
  | fatal (msg : String)
  | closeOfClosedChannel
  | sendOnClosedChannel
  | nilDereference
  | makechanSizeOutOfRange
  | negativeWaitGroupCounter
  | handlerPanic
deriving DecidableEq, Repr

/-- Smallest value of Go's `int` on a 64-bit target. -/
def minInt : Int := -9223372036854775808

/-- Largest value of Go's `int` on a 64-bit target. -/
def maxInt : Int := 9223372036854775807

/-- Two's complement wrap-around of a mathematical integer into Go's `int`. -/
def wrapInt (x : Int) : Int := (x + 9223372036854775808) % 18446744073709551616 - 9223372036854775808

/-- Go's `a * b` on `int`. -/
def mulInt (a b : Int) : Int := wrapInt (a * b)

/-! ## Channels, wait groups -/

/-- A buffered channel: the buffered elements (oldest first), the capacity, the closed flag. -/
structure Chan (α : Type) where
  buf : List α
  cap : Nat
  closed : Bool
deriving DecidableEq, Repr

/-- The expression `make(chan T, n)`.  A negative size panics, and so does a size above
`limit`, the largest buffer the host runtime allocates (a constant of the runtime, not of the
repository). -/
def makeChan {α : Type} (limit : Nat) (n : Int) : Except Fault (Chan α) :=
  if n < 0 ∨ (limit : Int) < n then .error .makechanSizeOutOfRange
  else .ok { buf := [], cap := n.toNat, closed := false }

/-- The builtin `len(ch)`. -/
def Chan.len {α : Type} (ch : Chan α) : Nat := ch.buf.length

/-- An unbuffered `chan bool` that is only ever closed (`quitConsume`, `quitWorker`). -/
structure Signal where
  closed : Bool
deriving DecidableEq, Repr

/-! ## Data model -/

/-- The fields of `sarama.ConsumerMessage` that the consumer touches. -/
structure ConsumerMessage where
  Topic : String
  Partition : Int
  Offset : Int
  Key : List Nat
  Value : List Nat
  Headers : List (List Nat × List Nat)
deriving DecidableEq, Repr

/-- The broker client handle `sarama.ConsumerGroup`, reduced to whether it was closed. -/
structure Client where
  closed : Bool
deriving DecidableEq, Repr

/-- The struct `KafkaConsumer`.  `ready` refers to a channel object (an index into
`State.readyChans`), because `Start` replaces the channel while another goroutine may still
hold the old one.  The wait groups are their counters. -/
structure KafkaConsumer (H : Type) where
  Brokers : List String
  GroupId : String
  Topics : List String
  ready : Nat
  Handler : H
  client : Option Client
  quitConsume : Signal
  quitWorker : Signal
  waitConsume : Nat
  waitWorker : Nat
  messages : Chan ConsumerMessage
  numWorker : Int

/-- The constructor `NewKafkaConsumer` (consumer.go, lines 31 to 49).  `limit` is the bound of
`makeChan`; the product `8*numWorker` is computed in Go's `int`. -/
def NewKafkaConsumer {H : Type} (limit : Nat) (brokers : List String) (groupId : String)
    (topics : List String) (handler : H) (numWorker : Int) : Except Fault (KafkaConsumer H) :=
  if numWorker < 1 then .error (.fatal "Number of workers invalid")
  else
    match makeChan limit (mulInt 8 numWorker) with
    | .error f => .error f
    | .ok q =>
      .ok { Brokers := brokers, GroupId := groupId, Topics := topics, Handler := handler,
            ready := 0, quitConsume := { closed := false }, quitWorker := { closed := false },
            waitConsume := 0, waitWorker := 0, messages := q, numWorker := numWorker,
            client := none }

/-! ## Goroutines -/

/-- Program counter of a worker goroutine (consumer.go, lines 69 to 86). -/
inductive WorkerPc where
  /-- At the `select` of line 75. -/
  | select
  /-- Inside `c.Handler(msg)`, line 78. -/
  | handling (msg : ConsumerMessage)
  /-- The case `<-c.quitWorker` was taken; about to evaluate `len(c.messages) < 1`, line 81. -/
  | quitSeen
  /-- Returned (line 82); the deferred `waitWorker.Done()` has run. -/
  | exited
deriving DecidableEq, Repr

/-- What a `ConsumeClaim` call has done so far, in program order. -/
inductive ReaderEffect where
  | recv (msg : ConsumerMessage)
  | enqueue (msg : ConsumerMessage)
  | mark (msg : ConsumerMessage)
deriving DecidableEq, Repr

/-- Program counter of a `ConsumeClaim` call (consumer.go, lines 140 to 162). -/
inductive ReaderPc where
  /-- At the `select` of line 142. -/
  | select
  /-- Holding a record, at `c.messages <- message`, line 156. -/
  | send (msg : ConsumerMessage)
  /-- At `session.MarkMessage(message, "")`, line 157. -/
  | mark (msg : ConsumerMessage)
  /-- Returned with the given error (line 159 returns `nil`). -/
  | returned (err : Option String)
deriving DecidableEq, Repr

/-- One `ConsumeClaim` call with its partition claim: the records the broker delivers on the
claim channel, in order (`claim`), those not yet read (`pending`), whether the channel is closed
once they are exhausted (`closes`), the records read so far (`consumed`) and the effects so
far. -/
structure Reader where
  pc : ReaderPc
  claim : List ConsumerMessage
  pending : List ConsumerMessage
  closes : Bool
  consumed : List ConsumerMessage
  effects : List ReaderEffect
deriving DecidableEq, Repr

/-- A reader at the start of `ConsumeClaim`. -/
def Reader.new (claim : List ConsumerMessage × Bool) : Reader :=
  { pc := .select, claim := claim.1, pending := claim.1, closes := claim.2, consumed := [],
    effects := [] }

/-- Program counter of the goroutine that calls `Start` (consumer.go, lines 51 to 112). -/
inductive StartPc where
  | notCalled
  /-- At `sarama.NewConsumerGroup`, line 61. -/
  | newGroup
  /-- In the loop of line 67 with loop variable `i`. -/
  | launchWorkers (i : Nat)
  /-- At line 90. -/
  | launchConsume
  /-- About to evaluate `c.ready` in line 105. -/
  | readReady
  /-- Blocked in `<-c.ready` on the channel object `ch`. -/
  | awaitReady (ch : Nat)
  /-- At the `select` of line 107. -/
  | awaitStop
  /-- At `cancel()`, line 111. -/
  | cancelPending
  | returned
deriving DecidableEq, Repr

/-- Program counter of the consume loop goroutine (consumer.go, lines 91 to 103). -/
inductive ConsumePc where
  | notStarted
  /-- Inside `c.client.Consume`, no session set up by this call yet. -/
  | joining
  /-- Inside `c.client.Consume`, with a session whose `ConsumeClaim` goroutines run. -/
  | inSession
  /-- At `ctx.Err() != nil`, line 98. -/
  | check
  /-- At `c.ready = make(chan bool)`, line 101. -/
  | realloc
  /-- Returned; the deferred `waitConsume.Done()` has run. -/
  | done
deriving DecidableEq, Repr

/-- Program counter of the goroutine that calls `Close` (consumer.go, lines 114 to 125); the
constructor names are the line about to be executed. -/
inductive ClosePc where
  | notCalled
  | l116
  | l117
  | l118
  | l121
  | l122
  | l123
  | returned
deriving DecidableEq, Repr

/-- The shutdown effects of `Close`, in the vocabulary of the specification. -/
inductive CloseEffect where
  | closeQuitConsume
  | waitConsume
  | clientClose (failed : Bool)
  | closeQuitWorker
  | waitWorker
  | closeMessages
deriving DecidableEq, Repr

/-- The state of one consumer instance and of the goroutines that use it. -/
structure State (H : Type) where
  c : KafkaConsumer H
  /-- Every `ready` channel allocated so far: `true` once closed. -/
  readyChans : List Bool
  /-- The context `ctx` of `Start` has been cancelled. -/
  ctxCancelled : Bool
  /-- The context of the current session is done for a reason of the broker (rebalance). -/
  sessDone : Bool
  startPc : StartPc
  consumePc : ConsumePc
  readers : List Reader
  workers : List WorkerPc
  closePc : ClosePc
  crashed : Option Fault
  /-- History: records received from claim channels. -/
  received : List ConsumerMessage
  /-- History: records sent into `c.messages`. -/
  enq : List ConsumerMessage
  /-- History: records passed to `session.MarkMessage`. -/
  marked : List ConsumerMessage
  /-- History: handler invocations begun. -/
  started : List ConsumerMessage
  /-- History: handler invocations that returned. -/
  handled : List ConsumerMessage
  /-- History: effects of `Close`. -/
  closeLog : List CloseEffect
  /-- History: messages passed to `logger.L().Error`. -/
  errors : List String

/-- The state right after `NewKafkaConsumer` returned `c`: no goroutine runs yet and the one
`ready` channel allocated by the constructor is open. -/
def init {H : Type} (c : KafkaConsumer H) : State H :=
  { c := c, readyChans := [false], ctxCancelled := false, sessDone := false,
    startPc := .notCalled, consumePc := .notStarted, readers := [], workers := [],
    closePc := .notCalled, crashed := none, received := [], enq := [], marked := [],
    started := [], handled := [], closeLog := [], errors := [] }

/-- Scheduler choices. -/
inductive Action where
  | startCall
  /-- Line 61; `ok = false` is an error from `sarama.NewConsumerGroup`. -/
  | startNewGroup (ok : Bool)
  /-- One evaluation of the loop condition of line 67, and the loop body if it holds. -/
  | startLaunchWorker
  | startLaunchConsume
  | startReadReady
  | startAwaitReady
  | startAwaitStop
  | startCancel
  /-- Broker client: `Consume` returns an error without having set up a session. -/
  | consumeFail
  /-- Broker client: a session starts; `Setup` is called, then one `ConsumeClaim` per claim. -/
  | sessionSetup (claims : List (List ConsumerMessage × Bool))
  /-- Broker: the session context is cancelled (rebalance, lost heartbeat). -/
  | sessionEnd
  /-- Broker client: the session is over and all its `ConsumeClaim` calls have returned;
  `Cleanup` is called and `Consume` returns (`failed`: with an error). -/
  | consumeReturn (failed : Bool)
  | consumeCheck
  | consumeRealloc
  /-- Reader `i` takes the case `message := <-claim.Messages()`. -/
  | readerRecv (i : Nat)
  /-- Reader `i` takes the case `<-session.Context().Done()`. -/
  | readerDone (i : Nat)
  /-- Reader `i` completes `c.messages <- message` into the buffer. -/
  | readerSend (i : Nat)
  /-- Reader `i` completes `c.messages <- message` by handing the record directly to worker
  `j`, which waits in its `select` on the empty queue. -/
  | readerHandoff (i j : Nat)
  | readerMark (i : Nat)
  /-- Worker `j` takes the case `msg, ok := <-c.messages`. -/
  | workerRecv (j : Nat)
  /-- Worker `j` takes the case `<-c.quitWorker`. -/
  | workerQuit (j : Nat)
  | workerCheckLen (j : Nat)
  | workerHandlerReturn (j : Nat)
  | workerHandlerPanic (j : Nat)
  | closeCall
  /-- The next statement of `Close`; `clientFails` is the outcome of `c.client.Close()`. -/
  | closeStep (clientFails : Bool)
deriving DecidableEq, Repr

/-! ## The step function -/

/-- The consumer was started: `Start` has created the broker client and has launched the
workers and the consume loop (it is at or after line 105). -/
def StartPc.launched : StartPc → Bool
  | .readReady => true
  | .awaitReady _ => true
  | .awaitStop => true
  | .cancelPending => true
  | .returned => true
  | _ => false

/-- The steps of the goroutine that calls `Start` (consumer.go, lines 51 to 112).  An error from
`sarama.NewConsumerGroup` ends the process through `logger.L().Fatal`. -/
def startStep {H : Type} (s : State H) : Action → Option (State H)
  | .startCall =>
    match s.startPc with
    | .notCalled => some { s with startPc := .newGroup }
    | _ => none
  | .startNewGroup ok =>
    match s.startPc with
    | .newGroup =>
      if ok then
        some { s with c := { s.c with client := some { closed := false } },
                      startPc := .launchWorkers 0 }
      else some { s with crashed := some (.fatal "Error creating consumer group client") }
    | _ => none
  | .startLaunchWorker =>
    match s.startPc with
    | .launchWorkers i =>
      if (i : Int) < s.c.numWorker then
        some { s with c := { s.c with waitWorker := s.c.waitWorker + 1 },
                      workers := s.workers ++ [.select],
                      startPc := .launchWorkers (i + 1) }
      else some { s with startPc := .launchConsume }
    | _ => none
  | .startLaunchConsume =>
    match s.startPc with
    | .launchConsume =>
      some { s with c := { s.c with waitConsume := s.c.waitConsume + 1 },
                    consumePc := .joining, startPc := .readReady }
    | _ => none
  | .startReadReady =>
    match s.startPc with
    | .readReady => some { s with startPc := .awaitReady s.c.ready }
    | _ => none
  | .startAwaitReady =>
    match s.startPc with
    | .awaitReady ch =>
      if s.readyChans[ch]? = some true then some { s with startPc := .awaitStop } else none
    | _ => none
  | .startAwaitStop =>
    match s.startPc with
    | .awaitStop =>
      if s.ctxCancelled ∨ s.c.quitConsume.closed then some { s with startPc := .cancelPending }
      else none
    | _ => none
  | .startCancel =>
    match s.startPc with
    | .cancelPending => some { s with ctxCancelled := true, startPc := .returned }
    | _ => none
  | _ => none

/-- The steps of the consume loop (consumer.go, lines 91 to 103), of the broker client inside
`Consume`, and `Setup` (lines 128 to 132). -/
def consumeStep {H : Type} (s : State H) : Action → Option (State H)
  | .consumeFail =>
    match s.consumePc with
    | .joining => some { s with consumePc := .check, errors := s.errors ++ ["Error from consumer"] }
    | _ => none
  | .sessionSetup claims =>
    match s.consumePc with
    | .joining =>
      match s.readyChans[s.c.ready]? with
      | some false =>
        some { s with readyChans := s.readyChans.set s.c.ready true,
                      readers := claims.map Reader.new,
                      sessDone := false, consumePc := .inSession }
      | some true => some { s with crashed := some .closeOfClosedChannel }
      | none => none
    | _ => none
  | .sessionEnd =>
    match s.consumePc with
    | .inSession => some { s with sessDone := true }
    | _ => none
  | .consumeReturn failed =>
    match s.consumePc with
    | .inSession =>
      if (s.sessDone ∨ s.ctxCancelled) ∧ s.readers.all (fun r => r.pc = .returned none) then
        some { s with consumePc := .check,
                      errors := if failed then s.errors ++ ["Error from consumer"] else s.errors }
      else none
    | _ => none
  | .consumeCheck =>
    match s.consumePc with
    | .check =>
      if s.ctxCancelled then
        if s.c.waitConsume = 0 then some { s with crashed := some .negativeWaitGroupCounter }
        else some { s with c := { s.c with waitConsume := s.c.waitConsume - 1 },
                           consumePc := .done }
      else some { s with consumePc := .realloc }
    | _ => none
  | .consumeRealloc =>
    match s.consumePc with
    | .realloc =>
      some { s with c := { s.c with ready := s.readyChans.length },
                    readyChans := s.readyChans ++ [false], consumePc := .joining }
    | _ => none
  | _ => none

/-- The steps of a `ConsumeClaim` call (consumer.go, lines 140 to 162).  The receive of line
143 does not test whether the claim channel is closed: on a closed and exhausted channel it
yields `nil`, and reading the headers and fields of `nil` (lines 145 to 153) panics.  The log
entry of line 148 and the extracted span context have no effect on the state.  A send on a
closed channel panics. -/
def readerStep {H : Type} (s : State H) : Action → Option (State H)
  | .readerRecv i =>
    match s.readers[i]? with
    | some r =>
      match r.pc, r.pending with
      | .select, m :: rest =>
        some { s with readers := s.readers.set i
                        { r with pc := .send m, pending := rest,
                                 consumed := r.consumed ++ [m],
                                 effects := r.effects ++ [.recv m] },
                      received := s.received ++ [m] }
      | .select, [] =>
        if r.closes then some { s with crashed := some .nilDereference } else none
      | _, _ => none
    | none => none
  | .readerDone i =>
    match s.readers[i]? with
    | some r =>
      match r.pc with
      | .select =>
        if s.sessDone ∨ s.ctxCancelled then
          some { s with readers := s.readers.set i { r with pc := .returned none } }
        else none
      | _ => none
    | none => none
  | .readerSend i =>
    match s.readers[i]? with
    | some r =>
      match r.pc with
      | .send m =>
        if s.c.messages.closed then some { s with crashed := some .sendOnClosedChannel }
        else if s.c.messages.len < s.c.messages.cap then
          some { s with c := { s.c with messages :=
                                 { s.c.messages with buf := s.c.messages.buf ++ [m] } },
                        readers := s.readers.set i
                          { r with pc := .mark m, effects := r.effects ++ [.enqueue m] },
                        enq := s.enq ++ [m] }
        else none
      | _ => none
    | none => none
  | .readerHandoff i j =>
    match s.readers[i]?, s.workers[j]? with
    | some r, some .select =>
      match r.pc with
      | .send m =>
        if s.c.messages.closed = false ∧ s.c.messages.buf = [] then
          some { s with readers := s.readers.set i
                          { r with pc := .mark m, effects := r.effects ++ [.enqueue m] },
                        workers := s.workers.set j (.handling m),
                        enq := s.enq ++ [m], started := s.started ++ [m] }
        else none
      | _ => none
    | _, _ => none
  | .readerMark i =>
    match s.readers[i]? with
    | some r =>
      match r.pc with
      | .mark m =>
        some { s with readers := s.readers.set i
                        { r with pc := .select, effects := r.effects ++ [.mark m] },
                      marked := s.marked ++ [m] }
      | _ => none
    | none => none
  | _ => none

/-- The steps of a worker (consumer.go, lines 69 to 86).  A receive on the closed and empty
queue yields `ok = false` and the handler is skipped.  A handler that panics is not recovered
anywhere, so the process stops; the deferred `waitWorker.Done()` of the dying worker is not
modelled, as no goroutine takes a step afterwards. -/
def workerStep {H : Type} (s : State H) : Action → Option (State H)
  | .workerRecv j =>
    match s.workers[j]? with
    | some .select =>
      match s.c.messages.buf with
      | m :: rest =>
        some { s with c := { s.c with messages := { s.c.messages with buf := rest } },
                      workers := s.workers.set j (.handling m),
                      started := s.started ++ [m] }
      | [] => if s.c.messages.closed then some s else none
    | _ => none
  | .workerQuit j =>
    match s.workers[j]? with
    | some .select =>
      if s.c.quitWorker.closed then some { s with workers := s.workers.set j .quitSeen }
      else none
    | _ => none
  | .workerCheckLen j =>
    match s.workers[j]? with
    | some .quitSeen =>
      if s.c.messages.len < 1 then
        if s.c.waitWorker = 0 then some { s with crashed := some .negativeWaitGroupCounter }
        else some { s with c := { s.c with waitWorker := s.c.waitWorker - 1 },
                           workers := s.workers.set j .exited }
      else some { s with workers := s.workers.set j .select }
    | _ => none
  | .workerHandlerReturn j =>
    match s.workers[j]? with
    | some (.handling m) =>
      some { s with workers := s.workers.set j .select, handled := s.handled ++ [m] }
    | _ => none
  | .workerHandlerPanic j =>
    match s.workers[j]? with
    | some (.handling _) => some { s with crashed := some .handlerPanic }
    | _ => none
  | _ => none

/-- The steps of the goroutine that calls `Close` (consumer.go, lines 114 to 125).  `Close`
tests nothing before line 116, so it can be called in every state in which no call of it is in
progress, also on a consumer that was never started.  The builtin `close` panics on a channel
that is closed already, and `c.client.Close()` panics while `c.client` is `nil`. -/
def closeStep {H : Type} (s : State H) : Action → Option (State H)
  | .closeCall =>
    match s.closePc with
    | .notCalled => some { s with closePc := .l116 }
    | .returned => some { s with closePc := .l116 }
    | _ => none
  | .closeStep clientFails =>
    match s.closePc with
    | .l116 =>
      if s.c.quitConsume.closed then some { s with crashed := some .closeOfClosedChannel }
      else some { s with c := { s.c with quitConsume := { closed := true } }, closePc := .l117,
                         closeLog := s.closeLog ++ [.closeQuitConsume] }
    | .l117 =>
      if s.c.waitConsume = 0 then
        some { s with closePc := .l118, closeLog := s.closeLog ++ [.waitConsume] }
      else none
    | .l118 =>
      match s.c.client with
      | some _ =>
        some { s with c := { s.c with client := some { closed := true } }, closePc := .l121,
                      closeLog := s.closeLog ++ [.clientClose clientFails],
                      errors := if clientFails then s.errors ++ ["Error closing client"]
                                else s.errors }
      | none => some { s with crashed := some .nilDereference }
    | .l121 =>
      if s.c.quitWorker.closed then some { s with crashed := some .closeOfClosedChannel }
      else some { s with c := { s.c with quitWorker := { closed := true } }, closePc := .l122,
                         closeLog := s.closeLog ++ [.closeQuitWorker] }
    | .l122 =>
      if s.c.waitWorker = 0 then
        some { s with closePc := .l123, closeLog := s.closeLog ++ [.waitWorker] }
      else none
    | .l123 =>
      if s.c.messages.closed then some { s with crashed := some .closeOfClosedChannel }
      else some { s with c := { s.c with messages := { s.c.messages with closed := true } },
                         closePc := .returned,
                         closeLog := s.closeLog ++ [.closeMessages] }
    | _ => none
  | _ => none

/-- One step of the system, with no assumption on its caller: `Close` may be called at any
time.  A crashed process takes no step. -/
def stepAny {H : Type} (s : State H) (a : Action) : Option (State H) :=
  if s.crashed.isSome then none
  else
    match a with
    | .startCall | .startNewGroup _ | .startLaunchWorker | .startLaunchConsume
    | .startReadReady | .startAwaitReady | .startAwaitStop | .startCancel => startStep s a
    | .consumeFail | .sessionSetup _ | .sessionEnd | .consumeReturn _ | .consumeCheck
    | .consumeRealloc => consumeStep s a
    | .readerRecv _ | .readerDone _ | .readerSend _ | .readerHandoff _ _ | .readerMark _ =>
      readerStep s a
    | .workerRecv _ | .workerQuit _ | .workerCheckLen _ | .workerHandlerReturn _
    | .workerHandlerPanic _ => workerStep s a
    | .closeCall | .closeStep _ => closeStep s a

/-- Run a schedule of the system with no assumption on its caller. -/
def runAny {H : Type} (s : State H) : List Action → Option (State H)
  | [] => some s
  | a :: rest => (stepAny s a).bind fun t => runAny t rest

/-- Along the schedule from `s`, every call of `Close` is made on a started consumer: `Start`
has launched the workers and the consume loop when `Close` is called. -/
def closeOnStarted {H : Type} (s : State H) : List Action → Bool
  | [] => true
  | a :: rest =>
    (a != .closeCall || s.startPc.launched) &&
      match stepAny s a with
      | some t => closeOnStarted t rest
      | none => true

/-- One step of the system whose caller calls `Close` on a started consumer only: the step of
`stepAny`, except that the call of `Close` is a step only when `Start` has launched the workers
and the consume loop.  A crashed process takes no step. -/
def step {H : Type} (s : State H) (a : Action) : Option (State H) :=
  if s.crashed.isSome then none
  else
    match a with
    | .startCall | .startNewGroup _ | .startLaunchWorker | .startLaunchConsume
    | .startReadReady | .startAwaitReady | .startAwaitStop | .startCancel => startStep s a
    | .consumeFail | .sessionSetup _ | .sessionEnd | .consumeReturn _ | .consumeCheck
    | .consumeRealloc => consumeStep s a
    | .readerRecv _ | .readerDone _ | .readerSend _ | .readerHandoff _ _ | .readerMark _ =>
      readerStep s a
    | .workerRecv _ | .workerQuit _ | .workerCheckLen _ | .workerHandlerReturn _
    | .workerHandlerPanic _ => workerStep s a
    | .closeCall => if s.startPc.launched then closeStep s a else none
    | .closeStep _ => closeStep s a

/-- Run a schedule of the system whose caller calls `Close` on a started consumer only: `none`
as soon as one of its actions is not enabled. -/
def run {H : Type} (s : State H) : List Action → Option (State H)
  | [] => some s
  | a :: rest => (step s a).bind fun t => run t rest

/-- States the consumer `c` can reach from `init c` when `Close` is called on a started consumer
only. -/
def Reachable {H : Type} (c : KafkaConsumer H) (s : State H) : Prop :=
  ∃ acts, run (init c) acts = some s

/-! ## Vocabulary of the properties -/

/-- The order of the shutdown effects of `Close`, as the specification lists them. -/
def closeOrder (failed : Bool) : List CloseEffect :=
  [.closeQuitConsume, .waitConsume, .clientClose failed, .closeQuitWorker, .waitWorker,
   .closeMessages]

/-- The effect log of `Close` at each program point of `Close`.  At line 116 the log is empty in
a first call and complete in a later one. -/
def closeLogAt : ClosePc → List CloseEffect → Prop
  | .notCalled, log => log = []
  | .l116, log => log = [] ∨ ∃ e, log = closeOrder e
  | .l117, log => log = [.closeQuitConsume]
  | .l118, log => log = [.closeQuitConsume, .waitConsume]
  | .l121, log => ∃ e, log = [.closeQuitConsume, .waitConsume, .clientClose e]
  | .l122, log => ∃ e, log = [.closeQuitConsume, .waitConsume, .clientClose e, .closeQuitWorker]
  | .l123, log =>
    ∃ e, log = [.closeQuitConsume, .waitConsume, .clientClose e, .closeQuitWorker, .waitWorker]
  | .returned, log => ∃ e, log = closeOrder e

/-- The effects of a `ConsumeClaim` call that has fully processed the records `ms`: each record
is received, enqueued, marked, in this order, before the next one is received. -/
def claimTrace : List ConsumerMessage → List ReaderEffect
  | [] => []
  | m :: ms => .recv m :: .enqueue m :: .mark m :: claimTrace ms

/-- The trace `enqueue(m1), mark(m1), ..., enqueue(mn), mark(mn)` of the specification. -/
def enqueueMarkTrace : List ConsumerMessage → List ReaderEffect
  | [] => []
  | m :: ms => .enqueue m :: .mark m :: enqueueMarkTrace ms

/-- Drop the reads from an effect trace. -/
def withoutRecv (es : List ReaderEffect) : List ReaderEffect :=
  es.filter fun e => match e with
    | .recv _ => false
    | _ => true

/-- The records a `ConsumeClaim` call has handed to the dispatch queue, in order. -/
def enqueuedBy (es : List ReaderEffect) : List ConsumerMessage :=
  es.filterMap fun e => match e with
    | .enqueue m => some m
    | _ => none

/-- The records a `ConsumeClaim` call has marked committed, in order. -/
def markedBy (es : List ReaderEffect) : List ConsumerMessage :=
  es.filterMap fun e => match e with
    | .mark m => some m
    | _ => none

/-- The effect trace of a reader agrees with its program point. -/
def ReaderOk (r : Reader) : Prop :=
  r.consumed ++ r.pending = r.claim ∧
  match r.pc with
  | .select => r.effects = claimTrace r.consumed
  | .returned e => e = none ∧ r.effects = claimTrace r.consumed
  | .send m => ∃ pre, r.consumed = pre ++ [m] ∧ r.effects = claimTrace pre ++ [.recv m]
  | .mark m =>
    ∃ pre, r.consumed = pre ++ [m] ∧ r.effects = claimTrace pre ++ [.recv m, .enqueue m]

/-- What `NewKafkaConsumer` establishes about the consumer it returns. -/
structure Fresh {H : Type} (c : KafkaConsumer H) : Prop where
  buf : c.messages.buf = []
  notClosed : c.messages.closed = false
  quitConsume : c.quitConsume.closed = false
  quitWorker : c.quitWorker.closed = false
  waitConsume : c.waitConsume = 0
  waitWorker : c.waitWorker = 0
  client : c.client = none
  ready : c.ready = 0
  numWorker : 1 ≤ c.numWorker

/-- The invariant of the reachable states. -/
structure Inv {H : Type} (s : State H) : Prop where
  numWorker : 1 ≤ s.c.numWorker
  bound : s.c.messages.buf.length ≤ s.c.messages.cap
  cons : ∀ m, s.enq.count m = s.started.count m + s.c.messages.buf.count m
  infl : ∀ m, s.started.count m = s.handled.count m + s.workers.count (.handling m)
  live : s.c.waitWorker + s.workers.count .exited = s.workers.length
  launch : match s.startPc with
    | .notCalled => s.workers = []
    | .newGroup => s.workers = []
    | .launchWorkers i => s.workers.length = i ∧ (i : Int) ≤ s.c.numWorker
    | _ => (s.workers.length : Int) = s.c.numWorker
  client : s.startPc ≠ .notCalled → s.startPc ≠ .newGroup → s.c.client ≠ none
  closeStart : s.closePc ≠ .notCalled → s.startPc.launched = true
  consumeStart : s.startPc.launched = true ↔ s.consumePc ≠ .notStarted
  wgConsume : s.c.waitConsume = 0 ↔ (s.consumePc = .notStarted ∨ s.consumePc = .done)
  wgBound : s.c.waitConsume ≤ 1
  log : closeLogAt s.closePc s.closeLog
  qc : s.c.quitConsume.closed = decide (1 ≤ s.closeLog.length)
  qw : s.c.quitWorker.closed = decide (4 ≤ s.closeLog.length)
  mc : s.c.messages.closed = decide (6 ≤ s.closeLog.length)
  errLog : CloseEffect.clientClose true ∈ s.closeLog → "Error closing client" ∈ s.errors
  flagsStart : s.c.quitWorker.closed = true ∨ s.c.messages.closed = true → s.closePc ≠ .notCalled
  consumeDone : s.closePc = .l118 ∨ s.closePc = .l121 ∨ s.c.quitWorker.closed = true →
    s.consumePc = .done
  readersIdle : s.consumePc ≠ .inSession → ∀ r ∈ s.readers, r.pc = .returned none
  quitSeen : .quitSeen ∈ s.workers ∨ .exited ∈ s.workers → s.c.quitWorker.closed = true
  drained : .exited ∈ s.workers → s.c.messages.buf = []
  allExited : s.closePc = .l123 ∨ s.c.messages.closed = true → ∀ p ∈ s.workers, p = .exited
  readerOk : ∀ r ∈ s.readers, ReaderOk r
  fresh : ∀ m, s.enq.count m + s.readers.countP (fun r => r.pc = .send m) = s.received.count m
  committed : ∀ m, s.marked.count m + s.readers.countP (fun r => r.pc = .mark m) = s.enq.count m

/-! ## Scenarios -/

/-- Records of the scenarios: topic `orders`, partition 0, the id as offset. -/
def scenarioMsg (id : Int) : ConsumerMessage :=
  { Topic := "orders", Partition := 0, Offset := id, Key := [], Value := [], Headers := [] }

/-- The consumer `NewKafkaConsumer` returns for two workers. -/
def scenarioConsumer : KafkaConsumer Unit :=
  { Brokers := ["broker:9092"], GroupId := "group", Topics := ["orders"], ready := 0,
    Handler := (), client := none, quitConsume := { closed := false },
    quitWorker := { closed := false }, waitConsume := 0, waitWorker := 0,
    messages := { buf := [], cap := 16, closed := false }, numWorker := 2 }

/-- Scenario of the specification, up to the call of `Close`: two workers are started, one
partition delivers the records 1 to 5 and all five are buffered. -/
def scenarioBefore : List Action :=
  [.startCall, .startNewGroup true, .startLaunchWorker, .startLaunchWorker, .startLaunchWorker,
   .startLaunchConsume, .startReadReady,
   .sessionSetup [([scenarioMsg 1, scenarioMsg 2, scenarioMsg 3, scenarioMsg 4, scenarioMsg 5],
     false)],
   .startAwaitReady,
   .readerRecv 0, .readerSend 0, .readerMark 0, .readerRecv 0, .readerSend 0, .readerMark 0,
   .readerRecv 0, .readerSend 0, .readerMark 0, .readerRecv 0, .readerSend 0, .readerMark 0,
   .readerRecv 0, .readerSend 0, .readerMark 0]

/-- Scenario of the specification, from the call of `Close` to its return: the broker client
fails to close, both workers take part in the drain. -/
def scenarioClose : List Action :=
  [.closeCall, .closeStep false, .startAwaitStop, .startCancel, .readerDone 0,
   .consumeReturn false, .consumeCheck, .closeStep false, .closeStep true, .closeStep false,
   .workerRecv 0, .workerRecv 1, .workerHandlerReturn 1, .workerQuit 1, .workerCheckLen 1,
   .workerRecv 1, .workerHandlerReturn 0, .workerHandlerReturn 1, .workerRecv 0, .workerRecv 1,
   .workerHandlerReturn 1, .workerHandlerReturn 0, .workerQuit 0, .workerCheckLen 0,
   .workerQuit 1, .workerCheckLen 1, .closeStep false, .closeStep false]

/-- Scenario: from the call of `Close` to the stop signal for the workers (line 121). -/
def scenarioStop : List Action :=
  [.closeCall, .closeStep false, .startAwaitStop, .startCancel, .readerDone 0,
   .consumeReturn false, .consumeCheck, .closeStep false, .closeStep true, .closeStep false]

/-- Scenario: two workers, one buffered record, `Close` has run up to line 121 (the stop signal
for the workers is the next step). -/
def raceBefore : List Action :=
  [.startCall, .startNewGroup true, .startLaunchWorker, .startLaunchWorker, .startLaunchWorker,
   .startLaunchConsume, .startReadReady, .sessionSetup [([scenarioMsg 1], false)],
   .startAwaitReady, .readerRecv 0, .readerSend 0, .readerMark 0,
   .closeCall, .closeStep false, .startAwaitStop, .startCancel, .readerDone 0,
   .consumeReturn false, .consumeCheck, .closeStep false, .closeStep false]

/-- Scenario: after the stop signal worker 0 dequeues the record and is inside the handler,
worker 1 observes the stop signal, finds the queue empty and exits. -/
def raceAfter : List Action :=
  [.workerRecv 0, .workerQuit 1, .workerCheckLen 1]

/-- The consumer `NewKafkaConsumer` returns for one worker. -/
def blockedConsumer : KafkaConsumer Unit :=
  { Brokers := ["broker:9092"], GroupId := "group", Topics := ["orders"], ready := 0,
    Handler := (), client := none, quitConsume := { closed := false },
    quitWorker := { closed := false }, waitConsume := 0, waitWorker := 0,
    messages := { buf := [], cap := 8, closed := false }, numWorker := 1 }

/-- Scenario: one worker that does not take part yet; the reader fills the queue with the
records 1 to 8 and holds record 9 at `c.messages <- message`. -/
def blockedBefore : List Action :=
  [.startCall, .startNewGroup true, .startLaunchWorker, .startLaunchWorker,
   .startLaunchConsume, .startReadReady,
   .sessionSetup [([scenarioMsg 1, scenarioMsg 2, scenarioMsg 3, scenarioMsg 4, scenarioMsg 5,
     scenarioMsg 6, scenarioMsg 7, scenarioMsg 8, scenarioMsg 9], false)],
   .readerRecv 0, .readerSend 0, .readerMark 0, .readerRecv 0, .readerSend 0, .readerMark 0,
   .readerRecv 0, .readerSend 0, .readerMark 0, .readerRecv 0, .readerSend 0, .readerMark 0,
   .readerRecv 0, .readerSend 0, .readerMark 0, .readerRecv 0, .readerSend 0, .readerMark 0,
   .readerRecv 0, .readerSend 0, .readerMark 0, .readerRecv 0, .readerSend 0, .readerMark 0,
   .readerRecv 0]

/-- Scenario: after the five records are buffered and marked, worker 0 dequeues record 1 and
the handler panics on it. -/
def scenarioPanic : List Action :=
  [.workerRecv 0, .workerHandlerPanic 0]

/-- Scenario: two workers are started, one partition delivers record 1, which is buffered and
marked, and the broker client then closes the channel of the claim while the session goes on
(the claim ends). -/
def closedClaimBefore : List Action :=
  [.startCall, .startNewGroup true, .startLaunchWorker, .startLaunchWorker, .startLaunchWorker,
   .startLaunchConsume, .startReadReady, .sessionSetup [([scenarioMsg 1], true)],
   .startAwaitReady, .readerRecv 0, .readerSend 0, .readerMark 0]

/-- Scenario: the consumer is started and the first `Consume` call returns an error before a
session is set up; the loop checks the context, allocates a new ready channel and calls
`Consume` again. -/
def consumeRetry : List Action :=
  [.startCall, .startNewGroup true, .startLaunchWorker, .startLaunchWorker, .startLaunchWorker,
   .startLaunchConsume, .consumeFail, .consumeCheck, .consumeRealloc]

/-- Scenario: `Close` is called while `Start` is still in its launch loop, after the first of
two workers has been launched.  `Close` runs to its end (worker 0 observes the stop signal and
exits), then `Start` launches the second worker and the consume loop. -/
def closeWhileLaunching : List Action :=
  [.startCall, .startNewGroup true, .startLaunchWorker,
   .closeCall, .closeStep false, .closeStep false, .closeStep false, .closeStep false,
   .workerQuit 0, .workerCheckLen 0, .closeStep false, .closeStep false,
   .startLaunchWorker, .startLaunchWorker, .startLaunchConsume]

/-- What the program point of `Start` tells about the signals `Start` has waited for: past line
105 a ready channel is closed, past the select of line 107 the stop channel is closed, and the
consume context is cancelled exactly when `Start` has returned. -/
structure StartInv {H : Type} (s : State H) : Prop where
  ready : s.startPc = .awaitStop ∨ s.startPc = .cancelPending ∨ s.startPc = .returned →
    ∃ ch : Nat, s.readyChans[ch]? = some true
  stop : (s.startPc = .cancelPending ∨ s.startPc = .returned → s.c.quitConsume.closed = true) ∧
    (s.ctxCancelled = true ↔ s.startPc = .returned)

end Consumer

/-! ## Tracing

The process-wide OpenTelemetry objects the Kafka packages call: the text-map propagator returned
by `otel.GetTextMapPropagator()` and the tracers returned by `otel.Tracer(name)`.  They are set
by the tracing initialisation (`otel.SetTextMapPropagator`, `otel.SetTracerProvider`) and are
parameters of the functions below. -/

namespace Tracing

/-- The type `trace.SpanContext`: the identifiers are numbers, zero is the invalid one. -/
structure SpanContext where
  TraceID : Nat
  SpanID : Nat
  Sampled : Bool
deriving DecidableEq, Repr

/-- The method `SpanContext.IsValid`: both identifiers are non-zero. -/
def SpanContext.IsValid (sc : SpanContext) : Bool :=
  sc.TraceID != 0 && sc.SpanID != 0

/-- A `context.Context` as far as tracing reads it: the span context of the span it carries.
`none` is a context without a span, such as `context.Background()`. -/
abbrev Context := Option SpanContext

/-- The function `trace.SpanContextFromContext`: the empty span context if the context carries
no span. -/
def SpanContextFromContext : Context → SpanContext
  | some sc => sc
  | none => { TraceID := 0, SpanID := 0, Sampled := false }

/-- Record headers, each a key and a value, both byte strings. -/
abbrev Headers := List (List Nat × List Nat)

/-- The process-wide tracing objects.  `Inject ctx hs` are the headers of a record after the
propagator has written the span context of `ctx` through the record's carrier, `Extract ctx hs`
is the context the propagator builds from the headers `hs`, and `Start tracer parent name` is
the span context of the span a tracer starts under `parent`. -/
structure Otel where
  Inject : Context → Headers → Headers
  Extract : Context → Headers → Context
  Start : String → Context → String → SpanContext

/-- The contracts of the tracer and of the propagator: a span started under a valid span is
valid and belongs to the same trace, and from the headers written for a valid span context the
propagator extracts a valid span context of the same trace. -/
structure Otel.Lawful (o : Otel) : Prop where
  start_child : ∀ tracer parent name, (SpanContextFromContext parent).IsValid = true →
    (o.Start tracer parent name).TraceID = (SpanContextFromContext parent).TraceID ∧
    (o.Start tracer parent name).IsValid = true
  round_trip : ∀ sc hs, sc.IsValid = true →
    (SpanContextFromContext (o.Extract none (o.Inject (some sc) hs))).TraceID = sc.TraceID ∧
    (SpanContextFromContext (o.Extract none (o.Inject (some sc) hs))).IsValid = true

/-- The bytes of an ASCII string. -/
def bytes (s : String) : List Nat :=
  s.toList.map Char.toNat

/-- The method `Get` of the carriers of `otelsarama`: the value of the first header with the key,
the empty string if there is none. -/
def carrierGet (hs : Headers) (key : List Nat) : List Nat :=
  match hs.find? (fun h => h.1 = key) with
  | some h => h.2
  | none => []

/-- The method `Set` of the carriers of `otelsarama`: the headers with the key are removed and the
new header is appended. -/
def carrierSet (hs : Headers) (key val : List Nat) : Headers :=
  hs.filter (fun h => h.1 ≠ key) ++ [(key, val)]

/-- The lower-case hexadecimal digit of `d < 16`, as an ASCII code. -/
def hexDigit (d : Nat) : Nat :=
  if d < 10 then 48 + d else 87 + d

/-- The value of a hexadecimal digit given as an ASCII code. -/
def unhex (c : Nat) : Nat :=
  if c < 58 then c - 48 else c - 87

/-- Whether an ASCII code is a lower-case hexadecimal digit. -/
def isHex (c : Nat) : Bool :=
  (48 ≤ c && c ≤ 57) || (97 ≤ c && c ≤ 102)

/-- The text of an identifier (`TraceID.String`, `SpanID.String`): hexadecimal, most significant
digit first, padded with zeros to `width` digits. -/
def hexEncode (width n : Nat) : List Nat :=
  List.replicate (width - (Nat.digits 16 n).length) 48 ++
    ((Nat.digits 16 n).map hexDigit).reverse

/-- The identifier of a hexadecimal text (`TraceIDFromHex`, `SpanIDFromHex`); `none` is the
error for an empty text or a character that is no hexadecimal digit. -/
def hexDecode (bs : List Nat) : Option Nat :=
  if bs ≠ [] ∧ bs.all isHex = true then some (Nat.ofDigits 16 (bs.reverse.map unhex)) else none

/-- The method `Inject` of the B3 propagator with multiple-header encoding, which the tracing
initialisation of the repository installs: the identifiers of a valid span context and the
sampling decision are written as three headers. -/
def b3Inject (ctx : Context) (hs : Headers) : Headers :=
  let sc := SpanContextFromContext ctx
  let hs := if sc.IsValid then
      carrierSet (carrierSet hs (bytes "x-b3-traceid") (hexEncode 32 sc.TraceID))
        (bytes "x-b3-spanid") (hexEncode 16 sc.SpanID)
    else hs
  carrierSet hs (bytes "x-b3-sampled") (bytes (if sc.Sampled then "1" else "0"))

/-- The method `Extract` of the B3 propagator: the context with the span context read from the
headers if both identifiers parse and are valid, the given context otherwise. -/
def b3Extract (ctx : Context) (hs : Headers) : Context :=
  match hexDecode (carrierGet hs (bytes "x-b3-traceid")),
      hexDecode (carrierGet hs (bytes "x-b3-spanid")) with
  | some t, some s =>
    let sc : SpanContext :=
      { TraceID := t, SpanID := s,
        Sampled := decide (carrierGet hs (bytes "x-b3-sampled") = bytes "1") }
    if sc.IsValid then some sc else ctx
  | _, _ => ctx

/-- A tracer of the SDK, with a deterministic stand-in for its identifier generator: under a
valid parent the new span continues the trace of the parent, otherwise it starts a trace. -/
def sdkStart (_tracer : String) (parent : Context) (_name : String) : SpanContext :=
  let p := SpanContextFromContext parent
  if p.IsValid then { TraceID := p.TraceID, SpanID := p.SpanID + 1, Sampled := p.Sampled }
  else { TraceID := 1, SpanID := 1, Sampled := true }

/-- The tracing objects after the tracing initialisation of the repository. -/
def b3Otel : Otel :=
  { Inject := b3Inject, Extract := b3Extract, Start := sdkStart }

/-- The tracer in force while no tracer provider is installed: `Start` returns a span that
records nothing and carries the span context of the parent. -/
def noopStart (_tracer : String) (parent : Context) (_name : String) : SpanContext :=
  SpanContextFromContext parent

/-- The tracing objects while none is installed, as when the tracing initialisation was not run
or has returned early (`InitTracing`, tracing.go, lines 26 to 30): the propagator writes no
header and extracts nothing. -/
def noopOtel : Otel :=
  { Inject := fun _ hs => hs, Extract := fun ctx _ => ctx, Start := noopStart }

end Tracing

namespace Consumer

/-- The span and context a handler continues a record's trace with (consumer.go, lines 164 to
169): the context extracted from the headers of the record, and a span started under it. -/
def ExtractSpanAndTracingContext (o : Tracing.Otel) (message : ConsumerMessage) :
    Tracing.Context × Tracing.SpanContext :=
  let nCtx := o.Extract none message.Headers
  let span := o.Start ("kafka:" ++ message.Topic) nCtx ("consume:kafka:" ++ message.Topic)
  (some span, span)

end Consumer

/-! ## The producer -/

namespace Producer

open Tracing

/-- The `sarama.Encoder` values in use. -/
inductive Encoder where
  | StringEncoder (s : List Nat)
  | ByteEncoder (b : List Nat)
deriving DecidableEq, Repr

/-- The method `Encode` of both encoders: the bytes of the string, without an error. -/
def Encoder.Encode : Encoder → List Nat
  | .StringEncoder s => s
  | .ByteEncoder b => b

/-- The type `sarama.ProducerMessage`.  `Key` and `Value` are interfaces, `none` is `nil`; the
broker client fills in `Partition` and `Offset` before it reports the outcome. -/
structure ProducerMessage where
  Topic : String
  Key : Option Encoder
  Value : Option Encoder
  Headers : Headers
  Timestamp : Nat
  Partition : Int
  Offset : Int
deriving DecidableEq, Repr

/-- The type `sarama.ProducerError`: a record that was not delivered, and the cause. -/
structure ProducerError where
  Msg : ProducerMessage
  Err : String
deriving DecidableEq, Repr

/-- The client `sarama.AsyncProducer` as `Produce` sees it: the records accepted on `Input()`,
oldest first, and whether the client has been shut down, which closes the input channel. -/
structure AsyncProducer where
  input : List ProducerMessage
  closed : Bool
deriving DecidableEq, Repr

structure kafkaProducerImpl where
  producer : AsyncProducer
deriving DecidableEq, Repr

/-- The send `p.Input() <- m`, completed: a send on the closed channel panics. -/
def send (p : AsyncProducer) (m : ProducerMessage) : Except Consumer.Fault AsyncProducer :=
  if p.closed then .error .sendOnClosedChannel else .ok { p with input := p.input ++ [m] }

/-- The record both produce functions build (producer.go, lines 94 to 99 and 103 to 108);
`now` is the value of `time.Now()`. -/
def newMessage (now : Nat) (topic : String) (key value : List Nat) : ProducerMessage :=
  { Topic := topic, Key := some (.StringEncoder key), Value := some (.StringEncoder value),
    Headers := [], Timestamp := now, Partition := 0, Offset := 0 }

/-- The method `Produce` (producer.go, lines 93 to 100).  It has no result; the model returns
the producer after the call. -/
def Produce (now : Nat) (p : kafkaProducerImpl) (topic : String) (key value : List Nat) :
    Except Consumer.Fault kafkaProducerImpl :=
  match send p.producer (newMessage now topic key value) with
  | .ok q => .ok { producer := q }
  | .error f => .error f

/-- The effects of `ProduceCtx` on the tracer, the propagator and the broker client. -/
inductive Effect where
  | startSpan (tracer : String) (parent : Context) (name : String)
  | inject (sc : SpanContext)
  | submit (m : ProducerMessage)
  | endSpan (sc : SpanContext)
deriving DecidableEq, Repr

/-- The method `ProduceCtx` (producer.go, lines 102 to 116): the producer after the call and the
effects in the order of their execution.  The deferred `span.End()` runs when the function
returns, also when the send panics. -/
def ProduceCtx (o : Otel) (now : Nat) (p : kafkaProducerImpl) (ctx : Context) (topic : String)
    (key value : List Nat) : Except Consumer.Fault kafkaProducerImpl × List Effect :=
  let msg := newMessage now topic key value
  let span := o.Start ("kafka:" ++ topic) ctx ("produce:kafka:" ++ topic)
  let nCtx : Context := some span
  let msg := { msg with Headers := o.Inject nCtx msg.Headers }
  match send p.producer msg with
  | .ok q =>
    (.ok { producer := q },
      [.startSpan ("kafka:" ++ topic) ctx ("produce:kafka:" ++ topic), .inject span,
       .submit msg, .endSpan span])
  | .error f =>
    (.error f,
      [.startSpan ("kafka:" ++ topic) ctx ("produce:kafka:" ++ topic), .inject span,
       .endSpan span])

/-- The record of the broker as a consumer receives it: key and value are the encoded bytes,
the headers are those of the record produced. -/
def consumed (m : ProducerMessage) (partition offset : Int) : Consumer.ConsumerMessage :=
  { Topic := m.Topic, Partition := partition, Offset := offset,
    Key := (m.Key.map Encoder.Encode).getD [], Value := (m.Value.map Encoder.Encode).getD [],
    Headers := m.Headers }

inductive RequiredAcks where
  | NoResponse
  | WaitForLocal
  | WaitForAll
deriving DecidableEq, Repr

inductive CompressionCodec where
  | CompressionNone
  | CompressionGZIP
  | CompressionSnappy
  | CompressionLZ4
  | CompressionZSTD
deriving DecidableEq, Repr

/-- The partitioner constructors of sarama. -/
inductive PartitionerConstructor where
  | NewManualPartitioner
  | NewRandomPartitioner
  | NewRoundRobinPartitioner
  | NewHashPartitioner
deriving DecidableEq, Repr

/-- The fields of `sarama.Config` that `NewKafkaProducer` sets, and `ChannelBufferSize` for the
fields it leaves as they are; `MetadataTimeout` is a `time.Duration`, in nanoseconds. -/
structure Config where
  ChannelBufferSize : Int
  Version : String
  RequiredAcks : RequiredAcks
  Compression : CompressionCodec
  ReturnSuccesses : Bool
  ReturnErrors : Bool
  Partitioner : PartitionerConstructor
  MetadataTimeout : Int
deriving DecidableEq, Repr

/-- The duration `time.Second`, in nanoseconds. -/
def Second : Int := 1000000000

/-- The configuration `NewKafkaProducer` builds (producer.go, lines 27 to 34) from the one
`sarama.NewConfig()` returns. -/
def producerConfig (NewConfig : Config) : Config :=
  { NewConfig with
    Version := "2.3.0.0"
    RequiredAcks := .WaitForAll
    Compression := .CompressionSnappy
    ReturnSuccesses := true
    ReturnErrors := true
    Partitioner := .NewRoundRobinPartitioner
    MetadataTimeout := Second * 3 }

/-- The constructor `NewKafkaProducer` (producer.go, lines 25 to 44), with `sarama.NewConfig()` and
`sarama.NewAsyncProducer` as parameters.  An error of the latter ends the process through
`logger.L().Fatal`; otherwise the two collectors are started and the producer is returned. -/
def NewKafkaProducer (NewConfig : Config)
    (NewAsyncProducer : List String → Config → Except String AsyncProducer)
    (brokers : List String) : Except Consumer.Fault kafkaProducerImpl :=
  match NewAsyncProducer brokers (producerConfig NewConfig) with
  | .error _ => .error (.fatal "Error creating kafka producer")
  | .ok producer => .ok { producer := producer }

/-- A field of a log entry. -/
inductive Field where
  | String (s : List Nat)
  | Text (s : String)
  | Int32 (n : Int)
  | Int64 (n : Int)
  | TraceID (id : Nat)
  | Error (e : String)
deriving DecidableEq, Repr

/-- An entry passed to `logger.L().Info`. -/
structure LogEntry where
  msg : String
  fields : List (String × Field)
deriving DecidableEq, Repr

/-- The body of the loop over `producer.Errors()` in `logResultMessage` (producer.go, lines 50
to 59).  `Encode` called on a `nil` key or value panics. -/
def logError (err : ProducerError) : Except Consumer.Fault LogEntry :=
  match err.Msg.Key, err.Msg.Value with
  | some key, some value =>
    .ok { msg := "Failed to push kafka message",
          fields := [("topic", .Text err.Msg.Topic), ("partition", .Int32 err.Msg.Partition),
            ("offset", .Int64 err.Msg.Offset), ("key", .String key.Encode),
            ("value", .String value.Encode), ("error", .Error err.Err)] }
  | _, _ => .error .nilDereference

/-- The body of the loop over `producer.Successes()` in `logResultMessage` (producer.go, lines
66 to 79). -/
def logSuccess (o : Otel) (result : ProducerMessage) : Except Consumer.Fault LogEntry :=
  let ctx := o.Extract none result.Headers
  let spanCtx := SpanContextFromContext ctx
  match result.Key, result.Value with
  | some key, some value =>
    .ok { msg := "Push kafka message successfully",
          fields := [("topic", .Text result.Topic), ("partition", .Int32 result.Partition),
            ("offset", .Int64 result.Offset), ("key", .String key.Encode),
            ("value", .String value.Encode), ("trace_id", .TraceID spanCtx.TraceID)] }
  | _, _ => .error .nilDereference

/-- A collector goroutine of `logResultMessage` and the result stream it ranges over. -/
structure Collector (α : Type) where
  /-- Results in the stream that the collector has not received yet, oldest first. -/
  pending : List α
  /-- The broker client has closed the stream. -/
  closed : Bool
  /-- History: every result the broker client has sent, oldest first. -/
  delivered : List α
  /-- The entries the collector has logged, oldest first. -/
  log : List LogEntry
  /-- The `for range` loop has ended and the goroutine has returned. -/
  exited : Bool
  crashed : Option Consumer.Fault

/-- The collector `logResultMessage` starts, on a stream that is open and empty. -/
def Collector.start (α : Type) : Collector α :=
  { pending := [], closed := false, delivered := [], log := [], exited := false,
    crashed := none }

/-- The broker client sends a result, the broker client closes the stream, the collector
takes one turn of its loop. -/
inductive CollectorAction (α : Type) where
  | deliver (x : α)
  | close
  | iterate

/-- One step of a collector with loop body `body`: the loop over the error stream is
`collectorStep logError`, the loop over the success stream `collectorStep (logSuccess o)`.
The broker client does not send on a stream it has closed.  A turn of the loop receives the
oldest result and logs it; on the empty stream it ends the loop if the stream is closed and
blocks otherwise. -/
def collectorStep {α : Type} (body : α → Except Consumer.Fault LogEntry) (s : Collector α) :
    CollectorAction α → Option (Collector α)
  | .deliver x =>
    if s.closed then none
    else some { s with pending := s.pending ++ [x], delivered := s.delivered ++ [x] }
  | .close => if s.closed then none else some { s with closed := true }
  | .iterate =>
    if s.exited ∨ s.crashed.isSome then none
    else
      match s.pending with
      | x :: rest =>
        match body x with
        | .ok e => some { s with pending := rest, log := s.log ++ [e] }
        | .error f => some { s with pending := rest, crashed := some f }
      | [] => if s.closed then some { s with exited := true } else none

/-- Run a schedule of a collector. -/
def collectorRun {α : Type} (body : α → Except Consumer.Fault LogEntry) (s : Collector α) :
    List (CollectorAction α) → Option (Collector α)
  | [] => some s
  | a :: rest => (collectorStep body s a).bind fun t => collectorRun body t rest

/-- The invariant of a collector: the results received so far are the results sent that are not
pending any more, the log holds the entries of the results received, in their order, and the
loop has ended only on the closed and empty stream. -/
structure Collector.Inv {α : Type} (body : α → Except Consumer.Fault LogEntry)
    (s : Collector α) : Prop where
  log : ∃ done, s.delivered = done ++ s.pending ∧
    (s.crashed = none → s.log.map Except.ok = done.map body)
  exited : s.exited = true → s.closed = true ∧ s.pending = []
  crashed : ∀ f, s.crashed = some f → ∃ x ∈ s.delivered, body x = .error f

/-- Scenario: the record of `ProduceCtx` for topic `orders`, key `k1` and value `v1` under a
span of the trace 255, as the broker client reports it after delivery at offset 42. -/
def scenarioSuccess : ProducerMessage :=
  { Topic := "orders", Key := some (.StringEncoder (bytes "k1")),
    Value := some (.StringEncoder (bytes "v1")),
    Headers := [(bytes "x-b3-traceid", bytes "000000000000000000000000000000ff"),
      (bytes "x-b3-spanid", bytes "0000000000000008"), (bytes "x-b3-sampled", bytes "1")],
    Timestamp := 7, Partition := 0, Offset := 42 }

/-- Scenario: the record of `Produce` for topic `orders`, key `k2` and value `v2`, reported
with a delivery error. -/
def scenarioFailure : ProducerError :=
  { Msg := { Topic := "orders", Key := some (.StringEncoder (bytes "k2")),
             Value := some (.StringEncoder (bytes "v2")), Headers := [], Timestamp := 8,
             Partition := 0, Offset := 0 },
    Err := "kafka: broker not available" }

end Producer

/-! ## gRPC

The interceptors of `pkg/grpc/interceptors.go`, `ParseFullMethod` of
`pkg/grpc/tracing_interceptor.go` and the error functions of `utils/errorutils`.  Go strings are
byte strings.  The functions of the Go library and of the gRPC library that the code calls are
modelled after their documentation, in the namespaces `strings`, `utf8`, `codes`, `status` and
`metadata`. -/

namespace Grpc

open Tracing

namespace strings

/-- The function `strings.HasPrefix`. -/
def HasPrefix (s pre : List Nat) : Bool :=
  pre.isPrefixOf s

/-- The function `strings.TrimLeft` for a cutset of one byte `c`: the leading bytes `c` are
removed. -/
def TrimLeft (s : List Nat) (c : Nat) : List Nat :=
  s.dropWhile (fun b => b == c)

/-- The parts of `s` before and after the first byte `sep`, `none` if `s` has no byte `sep`. -/
def cut (sep : Nat) : List Nat → Option (List Nat × List Nat)
  | [] => none
  | b :: rest =>
    if b = sep then some ([], rest) else (cut sep rest).map fun p => (b :: p.1, p.2)

/-- The function `strings.SplitN` for a separator of one byte and `n = 2`: `s` alone if it does
not contain the separator, otherwise the part before and the part after its first
occurrence. -/
def SplitN (s : List Nat) (sep : Nat) : List (List Nat) :=
  match cut sep s with
  | none => [s]
  | some (a, b) => [a, b]

/-- The function `strings.ToLower` on ASCII strings: the letters `A` to `Z` are replaced by `a`
to `z`. -/
def ToLowerASCII (s : List Nat) : List Nat :=
  s.map fun b => if 65 ≤ b ∧ b ≤ 90 then b + 32 else b

end strings

namespace utf8

/-- The state of a UTF-8 decoder between two bytes: the number of continuation bytes that
complete the current character, and the range of the next one. -/
structure DecoderState where
  need : Nat
  lo : Nat
  hi : Nat
deriving DecidableEq, Repr

/-- One byte of a UTF-8 string; `none` if the byte is not allowed at this place. -/
def next (st : Option DecoderState) (b : Nat) : Option DecoderState :=
  st.bind fun s =>
    if s.need = 0 then
      if b < 128 then some ⟨0, 128, 191⟩
      else if 194 ≤ b ∧ b ≤ 223 then some ⟨1, 128, 191⟩
      else if b = 224 then some ⟨2, 160, 191⟩
      else if (225 ≤ b ∧ b ≤ 236) ∨ b = 238 ∨ b = 239 then some ⟨2, 128, 191⟩
      else if b = 237 then some ⟨2, 128, 159⟩
      else if b = 240 then some ⟨3, 144, 191⟩
      else if 241 ≤ b ∧ b ≤ 243 then some ⟨3, 128, 191⟩
      else if b = 244 then some ⟨3, 128, 143⟩
      else none
    else if s.lo ≤ b ∧ b ≤ s.hi then some ⟨s.need - 1, 128, 191⟩
    else none

/-- The function `utf8.ValidString`: the bytes are a sequence of well-formed UTF-8
characters. -/
def ValidString (s : List Nat) : Bool :=
  match s.foldl next (some ⟨0, 128, 191⟩) with
  | some st => st.need = 0
  | none => false

end utf8

namespace codes

/-- The code `codes.OK`. -/
def OK : Nat := 0

/-- The code `codes.Unknown`. -/
def Unknown : Nat := 2

/-- The code `codes.Internal`. -/
def Internal : Nat := 13

/-- The code `codes.Unauthenticated`. -/
def Unauthenticated : Nat := 16

/-- The method `Code.String`: the name of the code, `Code(n)` for a number without a name. -/
def String (c : Nat) : List Nat :=
  match c with
  | 0 => bytes "OK"
  | 1 => bytes "Canceled"
  | 2 => bytes "Unknown"
  | 3 => bytes "InvalidArgument"
  | 4 => bytes "DeadlineExceeded"
  | 5 => bytes "NotFound"
  | 6 => bytes "AlreadyExists"
  | 7 => bytes "PermissionDenied"
  | 8 => bytes "ResourceExhausted"
  | 9 => bytes "FailedPrecondition"
  | 10 => bytes "Aborted"
  | 11 => bytes "OutOfRange"
  | 12 => bytes "Unimplemented"
  | 13 => bytes "Internal"
  | 14 => bytes "Unavailable"
  | 15 => bytes "DataLoss"
  | 16 => bytes "Unauthenticated"
  | n => bytes "Code(" ++ bytes (toString n) ++ bytes ")"

end codes

/-- The message `errdetails.ErrorInfo`; `Metadata` is a map, given by its entries. -/
structure ErrorInfo where
  Reason : List Nat
  Domain : List Nat
  Metadata : List (List Nat × List Nat)
deriving DecidableEq, Repr

/-- A detail of a status, as `Status.Details` returns it: an `ErrorInfo`, or any other value
(another message, or the error of a detail that does not decode). -/
inductive Detail where
  | ErrorInfo (info : ErrorInfo)
  | Other (typeUrl : List Nat)
deriving DecidableEq, Repr

/-- The type `status.Status`. -/
structure Status where
  Code : Nat
  Message : List Nat
  Details : List Detail
deriving DecidableEq, Repr

/-- A non-nil value of the Go interface `error`: an error of the package `status`, or any other
error, given by its text.  The `nil` error is `none` of `Option GoError`. -/
inductive GoError where
  | Status (s : Status)
  | Other (text : List Nat)
deriving DecidableEq, Repr

/-- The method `Error` of an error: for an error of the package `status` the text
`rpc error: code = <code> desc = <message>`. -/
def GoError.Error : GoError → List Nat
  | .Status s =>
    bytes "rpc error: code = " ++ codes.String s.Code ++ bytes " desc = " ++ s.Message
  | .Other text => text

/-- The call `err.Error()` on an error that may be `nil`: on `nil` it panics. -/
def errorText : Option GoError → Except Consumer.Fault (List Nat)
  | some e => .ok e.Error
  | none => .error .nilDereference

namespace status

/-- The function `status.New`. -/
def New (c : Nat) (msg : List Nat) : Status :=
  { Code := c, Message := msg, Details := [] }

/-- The method `Status.Err`: `nil` for the code `OK`. -/
def Err (s : Status) : Option GoError :=
  if s.Code = codes.OK then none else some (.Status s)

/-- The function `status.Error`. -/
def Error (c : Nat) (msg : List Nat) : Option GoError :=
  Err (New c msg)

/-- Whether the protobuf encoder accepts the message: every string field is valid UTF-8. -/
def marshals (info : ErrorInfo) : Bool :=
  utf8.ValidString info.Reason && utf8.ValidString info.Domain &&
    info.Metadata.all fun kv => utf8.ValidString kv.1 && utf8.ValidString kv.2

/-- The method `Status.WithDetails` for one detail: an error for the code `OK` and if the
detail cannot be encoded, otherwise the status with the detail appended. -/
def WithDetails (s : Status) (info : ErrorInfo) : Except (List Nat) Status :=
  if s.Code = codes.OK then .error (bytes "no error details for status with code OK")
  else if marshals info then .ok { s with Details := s.Details ++ [.ErrorInfo info] }
  else .error (bytes "proto: string field contains invalid UTF-8")

/-- The function `status.FromError`: the status of an error of the package, with `true`; a
`nil` status with `true` for the `nil` error; a status with code `Unknown` and `false` for any
other error. -/
def FromError : Option GoError → Option Status × Bool
  | none => (none, true)
  | some (.Status s) => (some s, true)
  | some (.Other text) => (some { Code := codes.Unknown, Message := text, Details := [] }, false)

/-- The method `Status.Code`, which returns `OK` on a `nil` status. -/
def Code : Option Status → Nat
  | some s => s.Code
  | none => codes.OK

/-- The method `Status.Details`, which returns no detail on a `nil` status. -/
def Details : Option Status → List Detail
  | some s => s.Details
  | none => []

end status

/-- The function `ExtractCodeAndReasonFromError` (interceptors.go, lines 109 to 122). -/
def ExtractCodeAndReasonFromError (err : Option GoError) : Except Consumer.Fault (Nat × List Nat) :=
  match status.FromError err with
  | (_, false) => (errorText err).map fun text => (codes.Internal, text)
  | (st, true) =>
    match status.Details st with
    | [] => (errorText err).map fun text => (status.Code st, text)
    | .ErrorInfo errInfo :: _ => .ok (status.Code st, errInfo.Reason)
    | _ :: _ => (errorText err).map fun text => (status.Code st, text)

/-- The span attribute `attribute.KeyValue` with a string value. -/
structure KeyValue where
  Key : String
  Value : List Nat
deriving DecidableEq, Repr

/-- The function `ParseFullMethod` (tracing_interceptor.go, lines 149 to 165); 47 is the byte
of the slash, the keys are `semconv.RPCServiceKey` and `semconv.RPCMethodKey`. -/
def ParseFullMethod (fullMethod : List Nat) : List Nat × List KeyValue :=
  let name := strings.TrimLeft fullMethod 47
  match strings.SplitN name 47 with
  | [service, method] =>
    let attrs : List KeyValue := []
    let attrs := if service ≠ [] then attrs ++ [{ Key := "rpc.service", Value := service }]
      else attrs
    let attrs := if method ≠ [] then attrs ++ [{ Key := "rpc.method", Value := method }]
      else attrs
    (name, attrs)
  | _ => (name, [])

/-- The type `grpc.UnaryServerInfo`. -/
structure UnaryServerInfo where
  FullMethod : List Nat
deriving DecidableEq, Repr

/-- The type `metadata.MD`, a map from keys to lists of values; no entry is the empty list. -/
abbrev MD := List Nat → List (List Nat)

/-- A `context.Context` as the interceptors read it: the incoming metadata, if any. -/
structure Context where
  incoming : Option MD

namespace metadata

/-- The function `metadata.FromIncomingContext`; the `nil` map has no entry. -/
def FromIncomingContext (ctx : Context) : MD :=
  match ctx.incoming with
  | some md => md
  | none => fun _ => []

/-- The method `MD.Get` for a key in lower case, as both keys of the interceptor are. -/
def Get (md : MD) (k : List Nat) : List (List Nat) :=
  md k

end metadata

/-- The value a panic carries, by its text under the format `%v`; `nil` is the value of
`panic(nil)`, for which `recover` returns `nil`. -/
inductive PanicValue where
  | nil
  | value (text : List Nat)
deriving DecidableEq, Repr

/-- The text of a panic value under the format `%v`. -/
def PanicValue.format : PanicValue → List Nat
  | .nil => bytes "<nil>"
  | .value text => text

/-- How a call of a handler or of an interceptor ends: it returns a response and an error, or
it panics. -/
inductive Outcome (Resp : Type) where
  | returned (resp : Option Resp) (err : Option GoError)
  | panicked (r : PanicValue)

/-- The type `grpc.UnaryHandler`. -/
abbrev UnaryHandler (Req Resp : Type) := Context → Req → Outcome Resp

/-- A call of an interceptor: how it ends, and the calls of the wrapped handler it has made,
with their arguments. -/
structure Result (Req Resp : Type) where
  outcome : Outcome Resp
  calls : List (Context × Req)

/-- The type `grpc.UnaryServerInterceptor`. -/
abbrev UnaryServerInterceptor (Req Resp : Type) :=
  Context → Req → UnaryServerInfo → UnaryHandler Req Resp → Result Req Resp

/-- The constant `ClientIdMetadataKey`. -/
def ClientIdMetadataKey : List Nat := bytes "client-id"

/-- The constant `ClientKeyMetadataKey`. -/
def ClientKeyMetadataKey : List Nat := bytes "client-key"

/-- The function `contains` (interceptors.go, lines 84 to 91). -/
def contains (s : List (List Nat)) (e : List Nat) : Bool :=
  match s with
  | [] => false
  | a :: rest => if a = e then true else contains rest e

/-- The statement `return nil, status.Error(codes.Unauthenticated, msg)` of the interceptor. -/
def unauthenticated {Req Resp : Type} (msg : String) : Result Req Resp :=
  { outcome := .returned none (status.Error codes.Unauthenticated (bytes msg)), calls := [] }

/-- The function `NewAuthenUnaryServerInterceptor` (interceptors.go, lines 19 to 50).  The
constant `HealthCheckPrefix` and the function `strings.ToLower` are parameters; the Go maps
`clients` and `methodClients` are given by their lookup. -/
def NewAuthenUnaryServerInterceptor {Req Resp : Type} (HealthCheckPrefix : List Nat)
    (ToLower : List Nat → List Nat) (clients : List Nat → Option (List Nat))
    (methodClients : List Nat → Option (List (List Nat))) : UnaryServerInterceptor Req Resp :=
  fun ctx req info handler =>
    if strings.HasPrefix info.FullMethod HealthCheckPrefix then
      { outcome := handler ctx req, calls := [(ctx, req)] }
    else
      let requestMetadata := metadata.FromIncomingContext ctx
      let clientId := metadata.Get requestMetadata ClientIdMetadataKey
      let clientKey := metadata.Get requestMetadata ClientKeyMetadataKey
      if clientId.length ≤ 0 ∨ clientKey.length ≤ 0 then
        unauthenticated "client-id or client-key not present in metadata"
      else
        match clients (clientId.headD []) with
        | none => unauthenticated "client-id not found"
        | some serverClientKey =>
          if serverClientKey ≠ clientKey.headD [] then unauthenticated "client-key mismatch"
          else
            let method := ToLower info.FullMethod
            match methodClients method with
            | some allowedClients =>
              if !contains allowedClients (clientId.headD []) then
                unauthenticated "client-id not allowed"
              else { outcome := handler ctx req, calls := [(ctx, req)] }
            | none => { outcome := handler ctx req, calls := [(ctx, req)] }

/-- The deferred function of the recover interceptor (interceptors.go, lines 96 to 101): `r` is
the value `recover()` returns, `resp` and `err` are the results set so far. -/
def recoverDeferred {Resp : Type} (r : PanicValue) (panicked : Bool) (resp : Option Resp)
    (err : Option GoError) : Outcome Resp :=
  if r ≠ .nil ∨ panicked then .returned resp (status.Error codes.Internal r.format)
  else .returned resp err

/-- The function `NewRecoverUnaryServerInterceptor` (interceptors.go, lines 93 to 107).  When
the handler returns, `panicked` is cleared, the results are set and `recover()` returns `nil`;
when it panics, the results are still `nil` and `recover()` returns the value of the panic. -/
def NewRecoverUnaryServerInterceptor {Req Resp : Type} : UnaryServerInterceptor Req Resp :=
  fun ctx req _info handler =>
    let panicked := true
    match handler ctx req with
    | .returned resp err =>
      let panicked := false
      { outcome := recoverDeferred .nil panicked resp err, calls := [(ctx, req)] }
    | .panicked r =>
      { outcome := recoverDeferred r panicked none none, calls := [(ctx, req)] }

/-- Scenario: the health-check methods of the server. -/
def scenarioHealthCheckPrefix : List Nat := bytes "/grpc.health.v1.Health/"

/-- Scenario: the clients `guest` and `admin` with their keys. -/
def scenarioClients (id : List Nat) : Option (List Nat) :=
  if id = bytes "guest" then some (bytes "secret")
  else if id = bytes "admin" then some (bytes "root")
  else none

/-- Scenario: an allow-list with one entry, under the full method name as the server registers
it: only `admin` may call `/pkg.Service/Get`. -/
def scenarioMethodClients (method : List Nat) : Option (List (List Nat)) :=
  if method = bytes "/pkg.Service/Get" then some [bytes "admin"] else none

/-- Scenario: the same allow-list with the method name in lower case. -/
def scenarioMethodClientsLower (method : List Nat) : Option (List (List Nat)) :=
  if method = bytes "/pkg.service/get" then some [bytes "admin"] else none

/-- Scenario: a context whose incoming metadata carry one client id and one client key. -/
def scenarioContext (id key : List Nat) : Context :=
  { incoming := some fun k =>
      if k = ClientIdMetadataKey then [id] else if k = ClientKeyMetadataKey then [key] else [] }

/-- Scenario: a handler that returns its request. -/
def scenarioHandler : UnaryHandler (List Nat) (List Nat) :=
  fun _ req => .returned (some req) none

/-- Scenario: a handler that panics with the text of its request. -/
def scenarioPanicHandler : UnaryHandler (List Nat) (List Nat) :=
  fun _ req => .panicked (.value req)

end Grpc

/-! ## Error utilities -/

namespace Errorutils

open Grpc

/-- The function `NewGrpcError` (error_utils.go, lines 9 to 20). -/
def NewGrpcError (code : Nat) (message reason domain : List Nat)
    (metadata : List (List Nat × List Nat)) : Option GoError :=
  let st := status.New code message
  match status.WithDetails st { Reason := reason, Domain := domain, Metadata := metadata } with
  | .error _ => status.Err st
  | .ok nst => status.Err nst

/-- The function `ExtractReasonAndDomainFromError` (error_utils.go, lines 21 to 34). -/
def ExtractReasonAndDomainFromError (err : Option GoError) (defaultDomain : List Nat) :
    Except Consumer.Fault (Nat × List Nat × List Nat) :=
  match status.FromError err with
  | (_, false) => (errorText err).map fun text => (codes.Internal, text, defaultDomain)
  | (st, true) =>
    match status.Details st with
    | [] => (errorText err).map fun text => (status.Code st, text, defaultDomain)
    | .ErrorInfo errInfo :: _ => .ok (status.Code st, errInfo.Reason, errInfo.Domain)
    | _ :: _ => (errorText err).map fun text => (status.Code st, text, defaultDomain)

end Errorutils

namespace Consumer

/-! ## Lists -/

theorem count_set_of_getElem? {α : Type} [DecidableEq α] {l : List α} {i : Nat} {x : α}
    (h : l[i]? = some x) (y a : α) :
    (l.set i y).count a = l.count a - (if x = a then 1 else 0) + (if y = a then 1 else 0) := by
  induction l generalizing i with
  | nil => simp at h
  | cons b l ih =>
    cases i with
    | zero =>
      simp at h
      subst h
      simp [List.count_cons]
    | succ i =>
      simp at h
      have := ih h
      have hx : 0 < l.count x := List.count_pos_iff.mpr (List.getElem?_mem h)
      simp [List.count_cons, this]
      split_ifs <;> simp_all

theorem count_pos_of_getElem? {α : Type} [DecidableEq α] {l : List α} {i : Nat} {x : α}
    (h : l[i]? = some x) : ∃ k, l.count x = k + 1 :=
  Nat.exists_eq_succ_of_ne_zero (Nat.pos_iff_ne_zero.mp
    (List.count_pos_iff.mpr (List.getElem?_mem h)))

theorem countP_set_of_getElem? {α : Type} {l : List α} {i : Nat} {x : α}
    (h : l[i]? = some x) (y : α) (p : α → Bool) :
    (l.set i y).countP p = l.countP p - (if p x then 1 else 0) + (if p y then 1 else 0) := by
  induction l generalizing i with
  | nil => simp at h
  | cons b l ih =>
    cases i with
    | zero =>
      simp at h
      subst h
      simp [List.countP_cons]
    | succ i =>
      simp at h
      have := ih h
      have hx : p x = true → 0 < l.countP p := fun hp =>
        List.countP_pos_iff.mpr ⟨x, List.getElem?_mem h, hp⟩
      simp [List.countP_cons, this]
      split_ifs <;> simp_all

theorem countP_le_of_getElem? {α : Type} {l : List α} {i : Nat} {x : α}
    (h : l[i]? = some x) (p : α → Bool) : (if p x then 1 else 0) ≤ l.countP p := by
  split_ifs with hp
  · exact List.countP_pos_iff.mpr ⟨x, List.getElem?_mem h, hp⟩
  · exact Nat.zero_le _

theorem claimTrace_append (xs ys : List ConsumerMessage) :
    claimTrace (xs ++ ys) = claimTrace xs ++ claimTrace ys := by
  induction xs with
  | nil => rfl
  | cons x xs ih => simp [claimTrace, ih]

theorem readerOk_new (claim : List ConsumerMessage × Bool) : ReaderOk (Reader.new claim) := by
  simp [ReaderOk, Reader.new, claimTrace]

theorem countP_new (claims : List (List ConsumerMessage × Bool)) (p : Reader → Bool)
    (hp : ∀ cl, p (Reader.new cl) = false) : (claims.map Reader.new).countP p = 0 := by
  induction claims with
  | nil => rfl
  | cons c cs ih => simp [List.countP_cons, hp, ih]

theorem countP_eq_zero_of_idle {rs : List Reader} (hl : ∀ r ∈ rs, r.pc = .returned none)
    (p : Reader → Bool) (hp : ∀ r, r.pc = .returned none → p r = false) : rs.countP p = 0 := by
  rw [List.countP_eq_zero]
  intro r hr
  simp [hp r (hl r hr)]

/-! ## The invariant is preserved by every step

Each lemma takes the parts of the invariant it needs, analyses the step that was taken, and
re-establishes one part. -/

section Preservation

variable {H : Type}

theorem step_config {s s' : State H} {a : Action} (h : step s a = some s') :
    s'.c.numWorker = s.c.numWorker ∧ s'.c.messages.cap = s.c.messages.cap ∧
    s'.c.Brokers = s.c.Brokers ∧ s'.c.GroupId = s.c.GroupId ∧ s'.c.Topics = s.c.Topics ∧
    s'.c.Handler = s.c.Handler := by
  unfold step at h
  split at h
  · simp at h
  · cases a <;>
      simp only [startStep, consumeStep, readerStep, workerStep, closeStep] at h <;>
      (repeat' split at h) <;> simp at h <;> subst h <;>
      exact ⟨rfl, rfl, rfl, rfl, rfl, rfl⟩

theorem step_bound {s s' : State H} {a : Action} (h : step s a = some s')
    (hb : s.c.messages.buf.length ≤ s.c.messages.cap) :
    s'.c.messages.buf.length ≤ s'.c.messages.cap := by
  unfold step at h
  split at h
  · simp at h
  · cases a <;>
      simp only [startStep, consumeStep, readerStep, workerStep, closeStep] at h <;>
      (repeat' split at h) <;> simp at h <;> subst h <;>
      first
      | exact hb
      | (simp_all [Chan.len] <;> omega)

theorem step_cons {s s' : State H} {a : Action} (h : step s a = some s')
    (hb : ∀ m, s.enq.count m = s.started.count m + s.c.messages.buf.count m) :
    ∀ m, s'.enq.count m = s'.started.count m + s'.c.messages.buf.count m := by
  intro m
  have hm := hb m
  unfold step at h
  split at h
  · simp at h
  · cases a <;>
      simp only [startStep, consumeStep, readerStep, workerStep, closeStep] at h <;>
      (repeat' split at h) <;> simp at h <;> subst h <;>
      first
      | exact hm
      | (simp_all [Chan.len, List.count_cons] <;> omega)

theorem step_infl {s s' : State H} {a : Action} (h : step s a = some s')
    (hb : ∀ m, s.started.count m = s.handled.count m + s.workers.count (.handling m)) :
    ∀ m, s'.started.count m = s'.handled.count m + s'.workers.count (.handling m) := by
  intro m
  have hm := hb m
  unfold step at h
  split at h
  · simp at h
  · cases a <;>
      simp only [startStep, consumeStep, readerStep, workerStep, closeStep] at h <;>
      (repeat' split at h) <;> simp at h <;> subst h <;>
      first
      | exact hm
      | (simp_all [List.count_cons]; done)
      | (have hc := fun y a => count_set_of_getElem? (l := s.workers) (by assumption) y a
         obtain ⟨k, hk⟩ := count_pos_of_getElem? (l := s.workers) (by assumption)
         simp only [hc, List.count_append, List.count_singleton]
         split_ifs <;> simp_all <;> omega)

theorem step_live {s s' : State H} {a : Action} (h : step s a = some s')
    (hb : s.c.waitWorker + s.workers.count .exited = s.workers.length) :
    s'.c.waitWorker + s'.workers.count .exited = s'.workers.length := by
  unfold step at h
  split at h
  · simp at h
  · cases a <;>
      simp only [startStep, consumeStep, readerStep, workerStep, closeStep] at h <;>
      (repeat' split at h) <;> simp at h <;> subst h <;>
      first
      | exact hb
      | (simp_all [List.count_cons]; omega)
      | (have hc := fun y a => count_set_of_getElem? (l := s.workers) (by assumption) y a
         obtain ⟨k, hk⟩ := count_pos_of_getElem? (l := s.workers) (by assumption)
         simp only [hc, List.count_append, List.count_singleton, List.length_set]
         split_ifs <;> simp_all <;> omega)

theorem step_launch {s s' : State H} {a : Action} (h : step s a = some s')
    (hn : 1 ≤ s.c.numWorker)
    (hl : match s.startPc with
      | .notCalled => s.workers = []
      | .newGroup => s.workers = []
      | .launchWorkers i => s.workers.length = i ∧ (i : Int) ≤ s.c.numWorker
      | _ => (s.workers.length : Int) = s.c.numWorker) :
    match s'.startPc with
      | .notCalled => s'.workers = []
      | .newGroup => s'.workers = []
      | .launchWorkers i => s'.workers.length = i ∧ (i : Int) ≤ s'.c.numWorker
      | _ => (s'.workers.length : Int) = s'.c.numWorker := by
  unfold step at h
  split at h
  · simp at h
  · cases a <;>
      simp only [startStep, consumeStep, readerStep, workerStep, closeStep] at h <;>
      (repeat' split at h) <;> simp at h <;> subst h <;>
      first
      | exact hl
      | (simp_all <;> omega)

theorem step_client {s s' : State H} {a : Action} (h : step s a = some s')
    (hl : s.startPc ≠ .notCalled → s.startPc ≠ .newGroup → s.c.client ≠ none) :
    s'.startPc ≠ .notCalled → s'.startPc ≠ .newGroup → s'.c.client ≠ none := by
  unfold step at h
  split at h
  · simp at h
  · cases a <;>
      simp only [startStep, consumeStep, readerStep, workerStep, closeStep] at h <;>
      (repeat' split at h) <;> simp at h <;> subst h <;>
      first
      | exact hl
      | simp_all [StartPc.launched]

theorem step_closeStart {s s' : State H} {a : Action} (h : step s a = some s')
    (hl : s.closePc ≠ .notCalled → s.startPc.launched = true) :
    s'.closePc ≠ .notCalled → s'.startPc.launched = true := by
  unfold step at h
  split at h
  · simp at h
  · cases a <;>
      simp only [startStep, consumeStep, readerStep, workerStep, closeStep] at h <;>
      (repeat' split at h) <;> simp at h <;> subst h <;>
      first
      | exact hl
      | simp_all [StartPc.launched]

theorem step_consumeStart {s s' : State H} {a : Action} (h : step s a = some s')
    (hl : s.startPc.launched = true ↔ s.consumePc ≠ .notStarted) :
    s'.startPc.launched = true ↔ s'.consumePc ≠ .notStarted := by
  unfold step at h
  split at h
  · simp at h
  · cases a <;>
      simp only [startStep, consumeStep, readerStep, workerStep, closeStep] at h <;>
      (repeat' split at h) <;> simp at h <;> subst h <;>
      first
      | exact hl
      | simp_all [StartPc.launched]

theorem step_wg {s s' : State H} {a : Action} (h : step s a = some s')
    (hc : s.startPc.launched = true ↔ s.consumePc ≠ .notStarted)
    (hl : s.c.waitConsume = 0 ↔ (s.consumePc = .notStarted ∨ s.consumePc = .done))
    (hb : s.c.waitConsume ≤ 1) :
    (s'.c.waitConsume = 0 ↔ (s'.consumePc = .notStarted ∨ s'.consumePc = .done)) ∧
    s'.c.waitConsume ≤ 1 := by
  unfold step at h
  split at h
  · simp at h
  · cases a <;>
      simp only [startStep, consumeStep, readerStep, workerStep, closeStep] at h <;>
      (repeat' split at h) <;> simp at h <;> subst h <;>
      first
      | exact ⟨hl, hb⟩
      | simp_all [StartPc.launched]

theorem step_log {s s' : State H} {a : Action} (h : step s a = some s')
    (hl : closeLogAt s.closePc s.closeLog)
    (hq : s.c.quitConsume.closed = decide (1 ≤ s.closeLog.length)) :
    closeLogAt s'.closePc s'.closeLog := by
  unfold step at h
  split at h
  · simp at h
  · cases a <;>
      simp only [startStep, consumeStep, readerStep, workerStep, closeStep] at h <;>
      (repeat' split at h) <;> simp at h <;> subst h <;>
      first
      | exact hl
      | (simp_all [closeLogAt, closeOrder] <;> rcases hl with h1 | h1 <;> simp_all)

theorem step_flags {s s' : State H} {a : Action} (h : step s a = some s')
    (hl : closeLogAt s.closePc s.closeLog)
    (hqc : s.c.quitConsume.closed = decide (1 ≤ s.closeLog.length))
    (hqw : s.c.quitWorker.closed = decide (4 ≤ s.closeLog.length))
    (hmc : s.c.messages.closed = decide (6 ≤ s.closeLog.length)) :
    s'.c.quitConsume.closed = decide (1 ≤ s'.closeLog.length) ∧
    s'.c.quitWorker.closed = decide (4 ≤ s'.closeLog.length) ∧
    s'.c.messages.closed = decide (6 ≤ s'.closeLog.length) := by
  unfold step at h
  split at h
  · simp at h
  · cases a <;>
      simp only [startStep, consumeStep, readerStep, workerStep, closeStep] at h <;>
      (repeat' split at h) <;> simp at h <;> subst h <;>
      first
      | exact ⟨hqc, hqw, hmc⟩
      | (simp_all [closeLogAt, closeOrder] <;> rcases hl with h1 | h1 <;> simp_all)

theorem step_errLog {s s' : State H} {a : Action} (h : step s a = some s')
    (hl : CloseEffect.clientClose true ∈ s.closeLog → "Error closing client" ∈ s.errors) :
    CloseEffect.clientClose true ∈ s'.closeLog → "Error closing client" ∈ s'.errors := by
  unfold step at h
  split at h
  · simp at h
  · cases a <;>
      simp only [startStep, consumeStep, readerStep, workerStep, closeStep] at h <;>
      (repeat' split at h) <;> simp at h <;> subst h <;>
      first
      | exact hl
      | simp_all

theorem step_flagsStart {s s' : State H} {a : Action} (h : step s a = some s')
    (hl : s.c.quitWorker.closed = true ∨ s.c.messages.closed = true → s.closePc ≠ .notCalled) :
    s'.c.quitWorker.closed = true ∨ s'.c.messages.closed = true → s'.closePc ≠ .notCalled := by
  unfold step at h
  split at h
  · simp at h
  · cases a <;>
      simp only [startStep, consumeStep, readerStep, workerStep, closeStep] at h <;>
      (repeat' split at h) <;> simp at h <;> subst h <;>
      first
      | exact hl
      | simp_all

theorem step_consumeDone {s s' : State H} {a : Action} (h : step s a = some s')
    (hfs : s.c.quitWorker.closed = true ∨ s.c.messages.closed = true → s.closePc ≠ .notCalled)
    (hcs : s.closePc ≠ .notCalled → s.startPc.launched = true)
    (hc : s.startPc.launched = true ↔ s.consumePc ≠ .notStarted)
    (hwg : s.c.waitConsume = 0 ↔ (s.consumePc = .notStarted ∨ s.consumePc = .done))
    (hl : s.closePc = .l118 ∨ s.closePc = .l121 ∨ s.c.quitWorker.closed = true →
      s.consumePc = .done) :
    s'.closePc = .l118 ∨ s'.closePc = .l121 ∨ s'.c.quitWorker.closed = true →
      s'.consumePc = .done := by
  unfold step at h
  split at h
  · simp at h
  · cases a <;>
      simp only [startStep, consumeStep, readerStep, workerStep, closeStep] at h <;>
      (repeat' split at h) <;> simp at h <;> subst h <;>
      first
      | exact hl
      | simp_all [StartPc.launched]

theorem step_readersIdle {s s' : State H} {a : Action} (h : step s a = some s')
    (hcs : s.startPc.launched = true ↔ s.consumePc ≠ .notStarted)
    (hl : s.consumePc ≠ .inSession → ∀ r ∈ s.readers, r.pc = .returned none) :
    s'.consumePc ≠ .inSession → ∀ r ∈ s'.readers, r.pc = .returned none := by
  unfold step at h
  split at h
  · simp at h
  · cases a <;>
      simp only [startStep, consumeStep, readerStep, workerStep, closeStep] at h <;>
      (repeat' split at h) <;> simp at h <;> subst h <;>
      first
      | exact hl
      | (simp_all [StartPc.launched]; done)
      | (intro hc r hr
         have hm := List.getElem?_mem (l := s.readers) (by assumption)
         have := hl hc _ hm
         simp_all)

theorem step_quitSeen {s s' : State H} {a : Action} (h : step s a = some s')
    (hl : .quitSeen ∈ s.workers ∨ .exited ∈ s.workers → s.c.quitWorker.closed = true) :
    .quitSeen ∈ s'.workers ∨ .exited ∈ s'.workers → s'.c.quitWorker.closed = true := by
  unfold step at h
  split at h
  · simp at h
  · cases a <;>
      simp only [startStep, consumeStep, readerStep, workerStep, closeStep] at h <;>
      (repeat' split at h) <;> simp at h <;> subst h <;>
      first
      | exact hl
      | (simp_all; done)
      | (intro hm
         have hw := List.getElem?_mem (l := s.workers) (by assumption)
         rcases hm with hm | hm <;>
         rcases List.mem_or_eq_of_mem_set hm with hm | hm <;> simp_all)

theorem step_drained {s s' : State H} {a : Action} (h : step s a = some s')
    (hri : s.consumePc ≠ .inSession → ∀ r ∈ s.readers, r.pc = .returned none)
    (hcd : s.closePc = .l118 ∨ s.closePc = .l121 ∨ s.c.quitWorker.closed = true →
      s.consumePc = .done)
    (hqs : .quitSeen ∈ s.workers ∨ .exited ∈ s.workers → s.c.quitWorker.closed = true)
    (hl : .exited ∈ s.workers → s.c.messages.buf = []) :
    .exited ∈ s'.workers → s'.c.messages.buf = [] := by
  unfold step at h
  split at h
  · simp at h
  · cases a <;>
      simp only [startStep, consumeStep, readerStep, workerStep, closeStep] at h <;>
      (repeat' split at h) <;> simp at h <;> subst h <;>
      first
      | exact hl
      | (simp_all; done)
      | (intro hm
         have hw := List.getElem?_mem (l := s.workers) (by assumption)
         rcases List.mem_or_eq_of_mem_set hm with hm | hm <;> simp_all [Chan.len])
      | (intro hm
         have hr := List.getElem?_mem (l := s.readers) (by assumption)
         have h1 := hqs (Or.inr hm)
         have h2 := hcd (Or.inr (Or.inr h1))
         have h3 := hri (by simp [h2]) _ hr
         simp_all)

theorem step_allExited {s s' : State H} {a : Action} (h : step s a = some s')
    (hfs : s.c.quitWorker.closed = true ∨ s.c.messages.closed = true → s.closePc ≠ .notCalled)
    (hcs : s.closePc ≠ .notCalled → s.startPc.launched = true)
    (hlive : s.c.waitWorker + s.workers.count .exited = s.workers.length)
    (hl : s.closePc = .l123 ∨ s.c.messages.closed = true → ∀ p ∈ s.workers, p = .exited) :
    s'.closePc = .l123 ∨ s'.c.messages.closed = true → ∀ p ∈ s'.workers, p = .exited := by
  unfold step at h
  split at h
  · simp at h
  · cases a <;>
      simp only [startStep, consumeStep, readerStep, workerStep, closeStep] at h <;>
      (repeat' split at h) <;> simp at h <;> subst h <;>
      first
      | exact hl
      | (simp_all [StartPc.launched] <;> assumption)
      | (intro hc p hp
         have hw := List.getElem?_mem (l := s.workers) (by assumption)
         have := hl hc _ hw
         simp_all)
      | (intro hc p hp
         have hw0 : s.c.waitWorker = 0 := by assumption
         simp at hlive hp
         have : s.workers.count .exited = s.workers.length := by omega
         exact (List.count_eq_length.mp this p hp).symm)

theorem step_readerOk {s s' : State H} {a : Action} (h : step s a = some s')
    (hl : ∀ r ∈ s.readers, ReaderOk r) : ∀ r ∈ s'.readers, ReaderOk r := by
  unfold step at h
  split at h
  · simp at h
  · cases a <;>
      simp only [startStep, consumeStep, readerStep, workerStep, closeStep] at h <;>
      (repeat' split at h) <;> simp at h <;> subst h <;>
      first
      | exact hl
      | (intro r hr
         simp only [List.mem_map] at hr
         obtain ⟨cl, _, rfl⟩ := hr
         exact readerOk_new cl)
      | (intro r hr
         have hm := List.getElem?_mem (l := s.readers) (by assumption)
         have hok := hl _ hm
         rcases List.mem_or_eq_of_mem_set hr with hr | hr
         · exact hl r hr
         · subst hr
           simp_all [ReaderOk, claimTrace_append, claimTrace] <;>
           (obtain ⟨pre, hp1, hp2⟩ := hok
            simp [hp1, hp2, claimTrace_append, claimTrace]))

theorem step_fresh {s s' : State H} {a : Action} (h : step s a = some s')
    (hri : s.consumePc ≠ .inSession → ∀ r ∈ s.readers, r.pc = .returned none)
    (hl : ∀ m, s.enq.count m + s.readers.countP (fun r => r.pc = .send m) = s.received.count m) :
    ∀ m, s'.enq.count m + s'.readers.countP (fun r => r.pc = .send m) = s'.received.count m := by
  intro m
  have hm := hl m
  unfold step at h
  split at h
  · simp at h
  · cases a <;>
      simp only [startStep, consumeStep, readerStep, workerStep, closeStep] at h <;>
      (repeat' split at h) <;> simp at h <;> subst h <;>
      first
      | exact hm
      | (have h0 := countP_eq_zero_of_idle (hri (by simp_all)) (fun r => decide (r.pc = .send m))
           (by intro r hr; simp [hr])
         have h1 := countP_new (by assumption) (fun r => decide (r.pc = .send m))
           (by intro cl; simp [Reader.new])
         simp_all)
      | (have hc := fun y p => countP_set_of_getElem? (l := s.readers) (by assumption) y p
         have hp := countP_le_of_getElem? (l := s.readers) (by assumption)
           (fun r => decide (r.pc = .send m))
         simp only [hc, List.count_append, List.count_singleton]
         split_ifs at hp ⊢ <;> first | omega | simp_all)

theorem step_committed {s s' : State H} {a : Action} (h : step s a = some s')
    (hri : s.consumePc ≠ .inSession → ∀ r ∈ s.readers, r.pc = .returned none)
    (hl : ∀ m, s.marked.count m + s.readers.countP (fun r => r.pc = .mark m) = s.enq.count m) :
    ∀ m, s'.marked.count m + s'.readers.countP (fun r => r.pc = .mark m) = s'.enq.count m := by
  intro m
  have hm := hl m
  unfold step at h
  split at h
  · simp at h
  · cases a <;>
      simp only [startStep, consumeStep, readerStep, workerStep, closeStep] at h <;>
      (repeat' split at h) <;> simp at h <;> subst h <;>
      first
      | exact hm
      | (have h0 := countP_eq_zero_of_idle (hri (by simp_all)) (fun r => decide (r.pc = .mark m))
           (by intro r hr; simp [hr])
         have h1 := countP_new (by assumption) (fun r => decide (r.pc = .mark m))
           (by intro cl; simp [Reader.new])
         simp_all)
      | (have hc := fun y p => countP_set_of_getElem? (l := s.readers) (by assumption) y p
         have hp := countP_le_of_getElem? (l := s.readers) (by assumption)
           (fun r => decide (r.pc = .mark m))
         simp only [hc, List.count_append, List.count_singleton]
         split_ifs at hp ⊢ <;> first | omega | simp_all)

end Preservation

/-! ## Reachable states satisfy the invariant -/

section Reachability

variable {H : Type}

theorem wrapInt_of_range {x : Int} (h0 : -9223372036854775808 ≤ x) (h1 : x ≤ 9223372036854775807) :
    wrapInt x = x := by
  unfold wrapInt
  omega

theorem wrapInt_le {x : Int} (h0 : 0 ≤ x) : wrapInt x ≤ x := by
  unfold wrapInt
  omega

theorem NewKafkaConsumer_ok {limit : Nat} {brokers : List String} {groupId : String}
    {topics : List String} {handler : H} {numWorker : Int} {c : KafkaConsumer H}
    (h : NewKafkaConsumer limit brokers groupId topics handler numWorker = .ok c) :
    Fresh c ∧ c.Brokers = brokers ∧ c.GroupId = groupId ∧ c.Topics = topics ∧
    c.Handler = handler ∧ c.numWorker = numWorker ∧
    (c.messages.cap : Int) = mulInt 8 numWorker ∧ (c.messages.cap : Int) ≤ 8 * numWorker ∧
    c.messages.cap ≤ limit := by
  unfold NewKafkaConsumer at h
  split at h
  · simp at h
  · rename_i hn
    unfold makeChan at h
    split at h
    · simp at h
    · rename_i q heq
      split at heq
      · simp at heq
      · rename_i hlim
        simp only [Except.ok.injEq] at heq h
        subst heq
        subst h
        have hw : mulInt 8 numWorker ≤ 8 * numWorker := wrapInt_le (by omega)
        refine ⟨⟨rfl, rfl, rfl, rfl, rfl, rfl, rfl, rfl, by simpa using hn⟩, rfl, rfl, rfl, rfl,
          rfl, ?_, ?_, ?_⟩ <;> simp only [] <;> omega

theorem inv_init {c : KafkaConsumer H} (hc : Fresh c) : Inv (init c) where
  numWorker := hc.numWorker
  bound := by simp [Consumer.init, hc.buf]
  cons := by simp [Consumer.init, hc.buf]
  infl := by simp [Consumer.init]
  live := by simp [Consumer.init, hc.waitWorker]
  launch := by simp [Consumer.init]
  client := by simp [Consumer.init]
  closeStart := by simp [Consumer.init]
  consumeStart := by simp [Consumer.init, StartPc.launched]
  wgConsume := by simp [Consumer.init, hc.waitConsume]
  wgBound := by simp [Consumer.init, hc.waitConsume]
  log := by simp [Consumer.init, closeLogAt]
  qc := by simp [Consumer.init, hc.quitConsume]
  qw := by simp [Consumer.init, hc.quitWorker]
  mc := by simp [Consumer.init, hc.notClosed]
  errLog := by simp [Consumer.init]
  flagsStart := by simp [Consumer.init, hc.quitWorker, hc.notClosed]
  consumeDone := by simp [Consumer.init, hc.quitWorker]
  readersIdle := by simp [Consumer.init]
  quitSeen := by simp [Consumer.init]
  drained := by simp [Consumer.init]
  allExited := by simp [Consumer.init]
  readerOk := by simp [Consumer.init]
  fresh := by simp [Consumer.init]
  committed := by simp [Consumer.init]

theorem inv_step {s s' : State H} {a : Action} (hinv : Inv s) (h : step s a = some s') :
    Inv s' where
  numWorker := by rw [(step_config h).1]; exact hinv.numWorker
  bound := step_bound h hinv.bound
  cons := step_cons h hinv.cons
  infl := step_infl h hinv.infl
  live := step_live h hinv.live
  launch := step_launch h hinv.numWorker hinv.launch
  client := step_client h hinv.client
  closeStart := step_closeStart h hinv.closeStart
  consumeStart := step_consumeStart h hinv.consumeStart
  wgConsume := (step_wg h hinv.consumeStart hinv.wgConsume hinv.wgBound).1
  wgBound := (step_wg h hinv.consumeStart hinv.wgConsume hinv.wgBound).2
  log := step_log h hinv.log hinv.qc
  qc := (step_flags h hinv.log hinv.qc hinv.qw hinv.mc).1
  qw := (step_flags h hinv.log hinv.qc hinv.qw hinv.mc).2.1
  mc := (step_flags h hinv.log hinv.qc hinv.qw hinv.mc).2.2
  errLog := step_errLog h hinv.errLog
  flagsStart := step_flagsStart h hinv.flagsStart
  consumeDone := step_consumeDone h hinv.flagsStart hinv.closeStart hinv.consumeStart
    hinv.wgConsume hinv.consumeDone
  readersIdle := step_readersIdle h hinv.consumeStart hinv.readersIdle
  quitSeen := step_quitSeen h hinv.quitSeen
  drained := step_drained h hinv.readersIdle hinv.consumeDone hinv.quitSeen hinv.drained
  allExited := step_allExited h hinv.flagsStart hinv.closeStart hinv.live hinv.allExited
  readerOk := step_readerOk h hinv.readerOk
  fresh := step_fresh h hinv.readersIdle hinv.fresh
  committed := step_committed h hinv.readersIdle hinv.committed

theorem inv_run {acts : List Action} :
    ∀ {s s' : State H}, Inv s → run s acts = some s' → Inv s' := by
  induction acts with
  | nil =>
    intro s s' hinv h
    simp [Consumer.run] at h
    exact h ▸ hinv
  | cons a rest ih =>
    intro s s' hinv h
    simp only [Consumer.run] at h
    cases hs : step s a with
    | none => simp [hs] at h
    | some t =>
      simp [hs] at h
      exact ih (inv_step hinv hs) h

theorem reachable_inv {c : KafkaConsumer H} {s : State H} (hc : Fresh c) (h : Reachable c s) :
    Inv s := by
  obtain ⟨acts, hr⟩ := h
  exact inv_run (inv_init hc) hr

theorem run_append {acts₁ acts₂ : List Action} {s : State H} :
    run s (acts₁ ++ acts₂) = (run s acts₁).bind fun t => run t acts₂ := by
  induction acts₁ generalizing s with
  | nil => simp [Consumer.run]
  | cons a rest ih =>
    simp only [List.cons_append, Consumer.run]
    cases step s a with
    | none => simp
    | some t => simp [ih]

theorem reachable_run {c : KafkaConsumer H} {s s' : State H} {acts : List Action}
    (h : Reachable c s) (hr : run s acts = some s') : Reachable c s' := by
  obtain ⟨acts0, h0⟩ := h
  exact ⟨acts0 ++ acts, by simp [run_append, h0, hr]⟩

end Reachability

/-! ## Runs -/

section Runs

variable {H : Type}

theorem run_split {H : Type} {acts₁ acts₂ : List Action} {s s₂ : State H}
    (h : run s (acts₁ ++ acts₂) = some s₂) :
    ∃ s₁, run s acts₁ = some s₁ ∧ run s₁ acts₂ = some s₂ := by
  rw [run_append] at h
  cases h₁ : run s acts₁ with
  | none => simp [h₁] at h
  | some s₁ => exact ⟨s₁, rfl, by simpa [h₁] using h⟩

theorem map_of_eq_some {α β : Type} {o : Option α} {x : α} {f : α → β} {v : β}
    (h : o = some x) (hv : o.map f = some v) : f x = v := by
  subst h
  simpa using hv

theorem run_config {acts : List Action} :
    ∀ {s s' : State H}, run s acts = some s' →
      s'.c.numWorker = s.c.numWorker ∧ s'.c.messages.cap = s.c.messages.cap ∧
      s'.c.Brokers = s.c.Brokers ∧ s'.c.GroupId = s.c.GroupId ∧ s'.c.Topics = s.c.Topics ∧
      s'.c.Handler = s.c.Handler := by
  induction acts with
  | nil =>
    intro s s' h
    simp [run] at h
    subst h
    exact ⟨rfl, rfl, rfl, rfl, rfl, rfl⟩
  | cons a rest ih =>
    intro s s' h
    simp only [run] at h
    cases hs : step s a with
    | none => simp [hs] at h
    | some t =>
      simp [hs] at h
      obtain ⟨a1, a2, a3, a4, a5, a6⟩ := step_config hs
      obtain ⟨b1, b2, b3, b4, b5, b6⟩ := ih h
      exact ⟨b1.trans a1, b2.trans a2, b3.trans a3, b4.trans a4, b5.trans a5, b6.trans a6⟩

theorem step_enq_frozen {s s' : State H} {a : Action} (h : step s a = some s')
    (hcs : s.startPc.launched = true ↔ s.consumePc ≠ .notStarted)
    (hri : s.consumePc ≠ .inSession → ∀ r ∈ s.readers, r.pc = .returned none)
    (hd : s.consumePc = .done) : s'.enq = s.enq ∧ s'.consumePc = .done := by
  unfold step at h
  split at h
  · simp at h
  · cases a <;>
      simp only [startStep, consumeStep, readerStep, workerStep, closeStep] at h <;>
      (repeat' split at h) <;> simp at h <;> subst h <;>
      first
      | exact ⟨rfl, hd⟩
      | (simp_all [StartPc.launched]; done)
      | (have hm := List.getElem?_mem (l := s.readers) (by assumption)
         have := hri (by simp [hd]) _ hm
         simp_all)

theorem run_enq_frozen {acts : List Action} :
    ∀ {s s' : State H}, Inv s → s.consumePc = .done → run s acts = some s' → s'.enq = s.enq := by
  induction acts with
  | nil =>
    intro s s' _ _ h
    simp [run] at h
    rw [h]
  | cons a rest ih =>
    intro s s' hinv hd h
    simp only [run] at h
    cases hs : step s a with
    | none => simp [hs] at h
    | some t =>
      simp [hs] at h
      have h1 := step_enq_frozen hs hinv.consumeStart hinv.readersIdle hd
      rw [ih (inv_step hinv hs) h1.2 h, h1.1]

theorem step_started_mono {s s' : State H} {a : Action} (h : step s a = some s') :
    ∃ new, s'.started = s.started ++ new := by
  unfold step at h
  split at h
  · simp at h
  · cases a <;>
      simp only [startStep, consumeStep, readerStep, workerStep, closeStep] at h <;>
      (repeat' split at h) <;> simp at h <;> subst h <;>
      first
      | (refine ⟨[], ?_⟩; simp; done)
      | exact ⟨[_], rfl⟩

theorem run_started_mono {acts : List Action} :
    ∀ {s s' : State H}, run s acts = some s' → ∃ new, s'.started = s.started ++ new := by
  induction acts with
  | nil =>
    intro s s' h
    simp [run] at h
    exact ⟨[], by simp [h]⟩
  | cons a rest ih =>
    intro s s' h
    simp only [run] at h
    cases hs : step s a with
    | none => simp [hs] at h
    | some t =>
      simp [hs] at h
      obtain ⟨n1, h1⟩ := step_started_mono hs
      obtain ⟨n2, h2⟩ := ih h
      exact ⟨n1 ++ n2, by rw [h2, h1, List.append_assoc]⟩

/-- In a state where `Close` has returned: the log is complete, every worker has exited, at
least one worker exists, so the queue is empty and no handler invocation is in flight. -/
theorem inv_returned {s : State H} (hinv : Inv s) (hret : s.closePc = .returned) :
    s.c.messages.closed = true ∧ s.c.quitWorker.closed = true ∧ s.consumePc = .done ∧
    (∀ p ∈ s.workers, p = .exited) ∧ (s.workers.length : Int) = s.c.numWorker ∧
    s.c.messages.buf = [] ∧ ∀ m, s.workers.count (.handling m) = 0 := by
  have hlog := hinv.log
  rw [hret] at hlog
  obtain ⟨e, he⟩ := hlog
  have hmc : s.c.messages.closed = true := by rw [hinv.mc, he]; simp [closeOrder]
  have hqw : s.c.quitWorker.closed = true := by rw [hinv.qw, he]; simp [closeOrder]
  have hall := hinv.allExited (Or.inr hmc)
  have hst := hinv.closeStart (by rw [hret]; simp)
  have hlen : (s.workers.length : Int) = s.c.numWorker := by
    have hl := hinv.launch
    revert hl hst
    cases s.startPc <;> simp [StartPc.launched]
  have hne : WorkerPc.exited ∈ s.workers := by
    have h1 := hinv.numWorker
    cases hw : s.workers with
    | nil => rw [hw] at hlen; simp at hlen; omega
    | cons p ps =>
      have := hall p (by rw [hw]; simp)
      rw [← this]; simp
  refine ⟨hmc, hqw, hinv.consumeDone (Or.inr (Or.inr hqw)), hall, hlen, hinv.drained hne, ?_⟩
  intro m
  rw [List.count_eq_zero]
  intro hm
  have := hall _ hm
  simp at this

theorem step_exit {s s' : State H} {a : Action} {j : Nat} (h : step s a = some s')
    (hpre : s.workers[j]? ≠ some .exited) (hpost : s'.workers[j]? = some .exited) :
    a = .workerCheckLen j ∧ s.workers[j]? = some .quitSeen ∧ s.c.messages.len = 0 := by
  unfold step at h
  split at h
  · simp at h
  · cases a <;>
      simp only [startStep, consumeStep, readerStep, workerStep, closeStep] at h <;>
      (repeat' split at h) <;> simp at h <;> subst h <;>
      first
      | exact absurd hpost hpre
      | (simp only [List.getElem?_set] at hpost
         split_ifs at hpost <;> simp_all)
      | (simp only [List.getElem?_append] at hpost
         split_ifs at hpost <;>
           first
           | (simp_all; done)
           | (have hm := List.getElem?_mem hpost; simp at hm))

theorem run_singleton {s s' : State H} {a : Action} (h : run s [a] = some s') :
    step s a = some s' := by
  simp only [run] at h
  cases hs : step s a with
  | none => simp [hs] at h
  | some t => simpa [hs] using h

theorem step_stop {s s' : State H} {a : Action} (h : step s a = some s')
    (hopen : s.c.quitWorker.closed = false) (hclosed : s'.c.quitWorker.closed = true) :
    s'.enq = s.enq ∧ s'.started = s.started ∧ s'.c.messages.buf = s.c.messages.buf := by
  unfold step at h
  split at h
  · simp at h
  · cases a <;>
      simp only [startStep, consumeStep, readerStep, workerStep, closeStep] at h <;>
      (repeat' split at h) <;> simp at h <;> subst h <;> simp_all

theorem inv_log_take {s : State H} (hinv : Inv s) :
    ∃ failed, s.closeLog = (closeOrder failed).take s.closeLog.length := by
  have hl := hinv.log
  revert hl
  cases s.closePc <;> simp only [closeLogAt]
  · intro h; exact ⟨false, by simp [h]⟩
  · rintro (h | ⟨e, h⟩)
    · exact ⟨false, by simp [h]⟩
    · exact ⟨e, by simp [h, closeOrder]⟩
  · intro h; exact ⟨false, by simp [h, closeOrder]⟩
  · intro h; exact ⟨false, by simp [h, closeOrder]⟩
  · rintro ⟨e, h⟩; exact ⟨e, by simp [h, closeOrder]⟩
  · rintro ⟨e, h⟩; exact ⟨e, by simp [h, closeOrder]⟩
  · rintro ⟨e, h⟩; exact ⟨e, by simp [h, closeOrder]⟩
  · rintro ⟨e, h⟩; exact ⟨e, by simp [h, closeOrder]⟩

theorem inv_waited_consume {s : State H} (hinv : Inv s)
    (h : CloseEffect.waitConsume ∈ s.closeLog) : s.consumePc = .done := by
  have hl := hinv.log
  have hqw := hinv.qw
  have hcd := hinv.consumeDone
  revert hl hcd
  cases hpc : s.closePc <;> simp only [closeLogAt] <;> intro hl hcd
  · simp [hl] at h
  · rcases hl with hl | ⟨e, hl⟩
    · simp [hl] at h
    · exact hcd (Or.inr (Or.inr (by rw [hqw, hl]; simp [closeOrder])))
  · simp [hl] at h
  · exact hcd (by simp)
  · exact hcd (by simp)
  · obtain ⟨e, hl⟩ := hl
    exact hcd (Or.inr (Or.inr (by rw [hqw, hl]; simp)))
  · obtain ⟨e, hl⟩ := hl
    exact hcd (Or.inr (Or.inr (by rw [hqw, hl]; simp)))
  · obtain ⟨e, hl⟩ := hl
    exact hcd (Or.inr (Or.inr (by rw [hqw, hl]; simp [closeOrder])))

theorem inv_waited_workers {s : State H} (hinv : Inv s)
    (h : CloseEffect.waitWorker ∈ s.closeLog) : ∀ p ∈ s.workers, p = .exited := by
  have hl := hinv.log
  have hmc := hinv.mc
  have hae := hinv.allExited
  revert hl hae
  cases hpc : s.closePc <;> simp only [closeLogAt] <;> intro hl hae
  · simp [hl] at h
  · rcases hl with hl | ⟨e, hl⟩
    · simp [hl] at h
    · exact hae (Or.inr (by rw [hmc, hl]; simp [closeOrder]))
  · simp [hl] at h
  · simp [hl] at h
  · obtain ⟨e, hl⟩ := hl
    simp [hl] at h
  · obtain ⟨e, hl⟩ := hl
    simp [hl] at h
  · exact hae (by simp)
  · obtain ⟨e, hl⟩ := hl
    exact hae (Or.inr (by rw [hmc, hl]; simp [closeOrder]))

theorem NewKafkaConsumer_in_range (limit : Nat) (brokers : List String) (groupId : String)
    (topics : List String) (handler : H) (w : Int)
    (h1 : 1 ≤ w) (h2 : 8 * w ≤ maxInt) (h3 : 8 * w ≤ limit) :
    ∃ c, NewKafkaConsumer limit brokers groupId topics handler w = .ok c ∧
      (c.messages.cap : Int) = 8 * w := by
  have hw : mulInt 8 w = 8 * w := by
    unfold mulInt
    unfold maxInt at h2
    exact wrapInt_of_range (by omega) h2
  have hn : ¬ w < 1 := by omega
  have hm : ¬ (mulInt 8 w < 0 ∨ (limit : Int) < mulInt 8 w) := by rw [hw]; omega
  unfold NewKafkaConsumer makeChan
  rw [if_neg hn, if_neg hm]
  refine ⟨_, rfl, ?_⟩
  show ((mulInt 8 w).toNat : Int) = 8 * w
  rw [hw]
  omega

theorem step_reader_frame {s s' : State H} {a : Action} {i : Nat} {r : Reader}
    {m : ConsumerMessage} (h : step s a = some s') (hr : s.readers[i]? = some r)
    (hpc : r.pc = .send m) (hin : s.consumePc = .inSession)
    (h1 : a ≠ .readerSend i) (h2 : ∀ j, a ≠ .readerHandoff i j) :
    s'.readers[i]? = some r := by
  unfold step at h
  split at h
  · simp at h
  · cases a <;>
      simp only [startStep, consumeStep, readerStep, workerStep, closeStep] at h <;>
      (repeat' split at h) <;> simp at h <;> subst h <;>
      first
      | exact hr
      | (simp_all; done)
      | (simp only [List.getElem?_set]
         split_ifs <;> simp_all)

theorem inv_reader_active {s : State H} (hinv : Inv s) {i : Nat} {r : Reader}
    (hr : s.readers[i]? = some r) (hpc : r.pc ≠ .returned none) :
    s.consumePc = .inSession ∧ s.c.quitWorker.closed = false ∧ s.c.messages.closed = false := by
  have hin : s.consumePc = .inSession := by
    by_contra hne
    exact hpc (hinv.readersIdle hne r (List.getElem?_mem hr))
  have hqw : s.c.quitWorker.closed = false := by
    cases hq : s.c.quitWorker.closed with
    | false => rfl
    | true =>
      have := hinv.consumeDone (Or.inr (Or.inr hq))
      rw [hin] at this
      simp at this
  refine ⟨hin, hqw, ?_⟩
  have h4 := hinv.qw
  have h6 := hinv.mc
  rw [hqw] at h4
  rw [h6]
  simp only [Bool.false_eq, decide_eq_false_iff_not] at h4
  simp only [decide_eq_false_iff_not]
  omega

theorem withoutRecv_claimTrace (ms : List ConsumerMessage) :
    withoutRecv (claimTrace ms) = enqueueMarkTrace ms := by
  induction ms with
  | nil => rfl
  | cons m ms ih =>
    simp only [claimTrace, enqueueMarkTrace]
    simp only [withoutRecv] at ih ⊢
    simp [List.filter_cons, ih]

theorem enqueuedBy_claimTrace (ms : List ConsumerMessage) : enqueuedBy (claimTrace ms) = ms := by
  induction ms with
  | nil => rfl
  | cons m ms ih =>
    simp only [claimTrace]
    simp only [enqueuedBy] at ih ⊢
    simp [List.filterMap_cons, ih]

theorem markedBy_claimTrace (ms : List ConsumerMessage) : markedBy (claimTrace ms) = ms := by
  induction ms with
  | nil => rfl
  | cons m ms ih =>
    simp only [claimTrace]
    simp only [markedBy] at ih ⊢
    simp [List.filterMap_cons, ih]

theorem enqueuedBy_append (xs ys : List ReaderEffect) :
    enqueuedBy (xs ++ ys) = enqueuedBy xs ++ enqueuedBy ys := by
  simp [enqueuedBy]

theorem step_enq_source {s s' : State H} {a : Action} (h : step s a = some s') :
    s'.enq = s.enq ∨
    ∃ i r m, s.readers[i]? = some r ∧ r.pc = .send m ∧ s'.enq = s.enq ++ [m] ∧
      (a = .readerSend i ∨ ∃ j, a = .readerHandoff i j) := by
  unfold step at h
  split at h
  · simp at h
  · cases a <;>
      simp only [startStep, consumeStep, readerStep, workerStep, closeStep] at h <;>
      (repeat' split at h) <;> simp at h <;> subst h <;>
      first
      | exact Or.inl rfl
      | exact Or.inr ⟨_, _, _, by assumption, by assumption, rfl, Or.inl rfl⟩
      | exact Or.inr ⟨_, _, _, by assumption, by assumption, rfl, Or.inr ⟨_, rfl⟩⟩

theorem step_crashed {s : State H} {f : Fault} (h : s.crashed = some f) (a : Action) :
    step s a = none := by
  simp [step, h]

theorem getElem?_set_true {l : List Bool} {i ch : Nat} (h : l[ch]? = some true) :
    (l.set i true)[ch]? = some true := by
  rw [List.getElem?_set]
  split_ifs with h1 h2
  · rfl
  · subst h1
    rw [List.getElem?_eq_none (by omega)] at h
    simp at h
  · exact h

theorem getElem?_append_false {l : List Bool} {ch : Nat} :
    (l ++ [false])[ch]? = some true ↔ l[ch]? = some true := by
  rcases Nat.lt_or_ge ch l.length with h1 | h1
  · rw [List.getElem?_append_left h1]
  · rw [List.getElem?_append_right h1, List.getElem?_eq_none h1]
    cases h2 : ch - l.length <;> simp

theorem step_passedReady {s s' : State H} {a : Action} (h : step s a = some s')
    (hl : s.startPc = .awaitStop ∨ s.startPc = .cancelPending ∨ s.startPc = .returned →
      ∃ ch : Nat, s.readyChans[ch]? = some true) :
    s'.startPc = .awaitStop ∨ s'.startPc = .cancelPending ∨ s'.startPc = .returned →
      ∃ ch : Nat, s'.readyChans[ch]? = some true := by
  unfold step at h
  split at h
  · simp at h
  · cases a <;>
      simp only [startStep, consumeStep, readerStep, workerStep, closeStep] at h <;>
      (repeat' split at h) <;> simp at h <;> subst h <;>
      first
      | exact hl
      | (intro hp
         obtain ⟨ch, hch⟩ := hl hp
         first
         | exact ⟨ch, getElem?_set_true hch⟩
         | exact ⟨ch, getElem?_append_false.mpr hch⟩)
      | (intro _
         exact ⟨_, by assumption⟩)
      | (simp_all)

theorem step_passedStop {s s' : State H} {a : Action} (h : step s a = some s')
    (hl : (s.startPc = .cancelPending ∨ s.startPc = .returned → s.c.quitConsume.closed = true) ∧
      (s.ctxCancelled = true ↔ s.startPc = .returned)) :
    (s'.startPc = .cancelPending ∨ s'.startPc = .returned → s'.c.quitConsume.closed = true) ∧
      (s'.ctxCancelled = true ↔ s'.startPc = .returned) := by
  unfold step at h
  split at h
  · simp at h
  · cases a <;>
      simp only [startStep, consumeStep, readerStep, workerStep, closeStep] at h <;>
      (repeat' split at h) <;> simp at h <;> subst h <;>
      first
      | exact hl
      | (simp_all)

theorem startInv_run {acts : List Action} :
    ∀ {s s' : State H}, StartInv s → run s acts = some s' → StartInv s' := by
  induction acts with
  | nil =>
    intro s s' hinv h
    simp [Consumer.run] at h
    exact h ▸ hinv
  | cons a rest ih =>
    intro s s' hinv h
    simp only [Consumer.run] at h
    cases hs : step s a with
    | none => simp [hs] at h
    | some t =>
      simp [hs] at h
      exact ih ⟨step_passedReady hs hinv.ready, step_passedStop hs hinv.stop⟩ h

theorem startInv_init (c : KafkaConsumer H) (hc : Fresh c) : StartInv (init c) :=
  ⟨by simp [init], by simp [init, hc.quitConsume]⟩

/-- Where the signals come from: a ready channel is closed by a session setup only, the stop
channel by a statement of `Close` only, and `Start` returns by its `cancel()` only. -/
theorem step_signal_source {s s' : State H} {a : Action} (h : step s a = some s') :
    (∀ ch : Nat, s'.readyChans[ch]? = some true →
      s.readyChans[ch]? = some true ∨ ∃ claims, a = .sessionSetup claims) ∧
    (s'.c.quitConsume.closed = true →
      s.c.quitConsume.closed = true ∨ ∃ f, a = .closeStep f) ∧
    (s'.startPc = .returned → s.startPc = .returned ∨
      (a = .startCancel ∧ s.startPc = .cancelPending ∧ s'.ctxCancelled = true)) := by
  unfold step at h
  split at h
  · simp at h
  · cases a <;>
      simp only [startStep, consumeStep, readerStep, workerStep, closeStep] at h <;>
      (repeat' split at h) <;> simp at h <;> subst h <;>
      first
      | (simp; done)
      | (simp [getElem?_append_false]; done)
      | (simp_all)

theorem run_signal_source {acts : List Action} :
    ∀ {s s' : State H}, run s acts = some s' →
      ((∃ ch : Nat, s'.readyChans[ch]? = some true) →
        (∃ ch : Nat, s.readyChans[ch]? = some true) ∨ ∃ claims, .sessionSetup claims ∈ acts) ∧
      (s'.c.quitConsume.closed = true →
        s.c.quitConsume.closed = true ∨ ∃ f, .closeStep f ∈ acts) ∧
      (s'.startPc = .returned → s.startPc = .returned ∨ .startCancel ∈ acts) := by
  induction acts with
  | nil =>
    intro s s' h
    simp [Consumer.run] at h
    subst h
    exact ⟨fun h => Or.inl h, fun h => Or.inl h, fun h => Or.inl h⟩
  | cons a rest ih =>
    intro s s' h
    simp only [Consumer.run] at h
    cases hs : step s a with
    | none => simp [hs] at h
    | some t =>
      simp [hs] at h
      have h1 := ih h
      have h2 := step_signal_source hs
      refine ⟨?_, ?_, ?_⟩
      · intro hx
        rcases h1.1 hx with ⟨ch, hch⟩ | ⟨claims, hm⟩
        · rcases h2.1 ch hch with h3 | ⟨claims, rfl⟩
          · exact Or.inl ⟨ch, h3⟩
          · exact Or.inr ⟨claims, by simp⟩
        · exact Or.inr ⟨claims, by simp [hm]⟩
      · intro hx
        rcases h1.2.1 hx with h3 | ⟨f, hm⟩
        · rcases h2.2.1 h3 with h4 | ⟨f, rfl⟩
          · exact Or.inl h4
          · exact Or.inr ⟨f, by simp⟩
        · exact Or.inr ⟨f, by simp [hm]⟩
      · intro hx
        rcases h1.2.2 hx with h3 | hm
        · rcases h2.2.2 h3 with h4 | ⟨rfl, _⟩
          · exact Or.inl h4
          · exact Or.inr (by simp)
        · exact Or.inr (by simp [hm])

/-- The number of workers changes only in the launch loop of `Start`. -/
theorem step_workers {s s' : State H} {a : Action} (h : step s a = some s') :
    (s'.workers.length = s.workers.length ∧ (a = .startLaunchWorker → s'.c = s.c)) ∨
    (a = .startLaunchWorker ∧ s'.workers = s.workers ++ [.select] ∧
      s'.c.waitWorker = s.c.waitWorker + 1 ∧
      ∃ i : Nat, s.startPc = .launchWorkers i ∧ (i : Int) < s.c.numWorker) := by
  unfold step at h
  split at h
  · simp at h
  · cases a <;>
      simp only [startStep, consumeStep, readerStep, workerStep, closeStep] at h <;>
      (repeat' split at h) <;> simp at h <;> subst h <;>
      first
      | (simp; done)
      | (simp_all)

/-- Where the program points of the consume loop are entered from. -/
theorem step_consume_source {s s' : State H} {a : Action} (h : step s a = some s') :
    (s'.consumePc = .done → s.consumePc = .done ∨
      (a = .consumeCheck ∧ s.consumePc = .check ∧ s.ctxCancelled = true)) ∧
    (s'.consumePc = .joining → s.consumePc = .joining ∨
      (a = .startLaunchConsume ∧ s.startPc = .launchConsume) ∨
      (a = .consumeRealloc ∧ s.consumePc = .realloc)) ∧
    (s'.consumePc = .realloc → s.consumePc = .realloc ∨
      (a = .consumeCheck ∧ s.consumePc = .check ∧ s.ctxCancelled = false)) := by
  unfold step at h
  split at h
  · simp at h
  · cases a <;>
      simp only [startStep, consumeStep, readerStep, workerStep, closeStep] at h <;>
      (repeat' split at h) <;> simp at h <;> subst h <;>
      first
      | (simp; done)
      | (simp_all)

/-- The ready channel of the consumer is open whenever a `Consume` call has not set up its
session yet. -/
theorem step_ready_unset {s s' : State H} {a : Action} (h : step s a = some s')
    (hcs : s.startPc.launched = true ↔ s.consumePc ≠ .notStarted)
    (hl : s.consumePc = .notStarted ∨ s.consumePc = .joining →
      s.readyChans[s.c.ready]? = some false) :
    s'.consumePc = .notStarted ∨ s'.consumePc = .joining →
      s'.readyChans[s'.c.ready]? = some false := by
  unfold step at h
  split at h
  · simp at h
  · cases a <;>
      simp only [startStep, consumeStep, readerStep, workerStep, closeStep] at h <;>
      (repeat' split at h) <;> simp at h <;> subst h <;>
      first
      | exact hl
      | (simp; done)
      | (simp_all [StartPc.launched])

theorem ready_unset_run {acts : List Action} :
    ∀ {s s' : State H}, Inv s →
      (s.consumePc = .notStarted ∨ s.consumePc = .joining →
        s.readyChans[s.c.ready]? = some false) →
      run s acts = some s' →
      (s'.consumePc = .notStarted ∨ s'.consumePc = .joining →
        s'.readyChans[s'.c.ready]? = some false) := by
  induction acts with
  | nil =>
    intro s s' _ hl h
    simp [Consumer.run] at h
    exact h ▸ hl
  | cons a rest ih =>
    intro s s' hinv hl h
    simp only [Consumer.run] at h
    cases hs : step s a with
    | none => simp [hs] at h
    | some t =>
      simp [hs] at h
      exact ih (inv_step hinv hs) (step_ready_unset hs hinv.consumeStart hl) h

/-- A step of the system whose caller calls `Close` on a started consumer only is a step of
the system without this assumption, and conversely unless it is a call of `Close` on a consumer
that is not started. -/
theorem step_eq_stepAny (s : State H) (a : Action)
    (h : a ≠ .closeCall ∨ s.startPc.launched = true) : step s a = stepAny s a := by
  unfold step stepAny
  cases a <;> simp_all

theorem run_of_runAny {acts : List Action} :
    ∀ {s s' : State H}, runAny s acts = some s' → closeOnStarted s acts = true →
      run s acts = some s' := by
  induction acts with
  | nil =>
    intro s s' h _
    simpa [runAny, Consumer.run] using h
  | cons a rest ih =>
    intro s s' h hc
    simp only [runAny] at h
    simp only [closeOnStarted, Bool.and_eq_true, Bool.or_eq_true, bne_iff_ne, ne_eq] at hc
    cases hs : stepAny s a with
    | none => simp [hs] at h
    | some t =>
      simp only [hs, Option.bind_some] at h
      have hc2 := hc.2
      simp only [hs] at hc2
      simp only [Consumer.run, step_eq_stepAny s a hc.1, hs, Option.bind_some]
      exact ih h hc2

end Runs

/-! ## C1: drain completeness -/

section Claims

variable {H : Type}

/-- C1 (drain completeness).  Let `c` be the consumer built for `w` workers, `s₀` a reachable
state (the state in which `Close` is invoked) and `s₂` a later state in which `Close` has
returned, nothing having been enqueued in between (the claim readers produce nothing further).
Then `w ≥ 1`, the queue of `s₀` held at most `8 * w` records, the handler invocations begun
since `s₀` are a permutation of the records buffered in `s₀` (each exactly once), every
invocation ever begun has completed, all `w` workers have exited, the queue is empty, and no
later step enqueues anything. -/
theorem drain_completeness (limit : Nat) (brokers : List String) (groupId : String)
    (topics : List String) (handler : H) (w : Int) (c : KafkaConsumer H)
    (hnew : NewKafkaConsumer limit brokers groupId topics handler w = .ok c)
    (acts₀ acts₁ : List Action) (s₀ s₂ : State H)
    (h₀ : run (init c) acts₀ = some s₀) (h₁ : run s₀ acts₁ = some s₂)
    (hret : s₂.closePc = .returned) (hquiet : s₂.enq = s₀.enq) :
    1 ≤ w ∧ (s₀.c.messages.buf.length : Int) ≤ 8 * w ∧
    (∃ new, s₂.started = s₀.started ++ new ∧ new.Perm s₀.c.messages.buf) ∧
    s₂.handled.Perm s₂.started ∧
    (∀ p ∈ s₂.workers, p = .exited) ∧ (s₂.workers.length : Int) = w ∧
    s₂.c.messages.buf = [] ∧
    ∀ acts₃ s₃, run s₂ acts₃ = some s₃ → s₃.enq = s₂.enq := by
  obtain ⟨hfresh, -, -, -, -, hnw, -, hcap, -⟩ := NewKafkaConsumer_ok hnew
  have hr₀ : Reachable c s₀ := ⟨acts₀, h₀⟩
  have inv₀ := reachable_inv hfresh hr₀
  have inv₂ := reachable_inv hfresh (reachable_run hr₀ h₁)
  obtain ⟨-, -, hdone, hall, hlen, hbuf, hinfl⟩ := inv_returned inv₂ hret
  have hcap₀ : s₀.c.messages.cap = c.messages.cap := (run_config h₀).2.1
  have hnw₂ : s₂.c.numWorker = c.numWorker := (run_config h₁).1.trans (run_config h₀).1
  obtain ⟨new, hnew'⟩ := run_started_mono h₁
  refine ⟨by rw [← hnw]; exact hfresh.numWorker, ?_, ⟨new, hnew', ?_⟩, ?_, hall, ?_, hbuf, ?_⟩
  · have := inv₀.bound
    omega
  · rw [List.perm_iff_count]
    intro m
    have e₀ := inv₀.cons m
    have e₂ := inv₂.cons m
    rw [hquiet, hbuf, hnew', List.count_append] at e₂
    simp at e₂
    omega
  · rw [List.perm_iff_count]
    intro m
    have := inv₂.infl m
    rw [hinfl m] at this
    omega
  · rw [hlen, hnw₂]
    exact hnw
  · intro acts₃ s₃ h₃
    exact run_enq_frozen inv₂ hdone h₃

/-- Witness of C1: the scenario of the specification (two workers, one partition, the records
1 to 5 buffered when `Close` is called). -/
theorem drain_completeness_witness :
    ∃ s₀ s₂ : State Unit,
      run (init scenarioConsumer) scenarioBefore = some s₀ ∧
      run s₀ scenarioClose = some s₂ ∧
      s₀.c.messages.buf =
        [scenarioMsg 1, scenarioMsg 2, scenarioMsg 3, scenarioMsg 4, scenarioMsg 5] ∧
      s₂.closePc = .returned ∧
      (∃ new, s₂.started = s₀.started ++ new ∧ new.Perm s₀.c.messages.buf) ∧
      s₂.handled.Perm s₂.started ∧ s₂.c.messages.buf = [] := by
  have hnew : NewKafkaConsumer 1000000 ["broker:9092"] "group" ["orders"] () 2 =
      .ok scenarioConsumer := rfl
  have e₀ : (run (init scenarioConsumer) scenarioBefore).map
      (fun s => (s.c.messages.buf, s.enq)) =
      some ([scenarioMsg 1, scenarioMsg 2, scenarioMsg 3, scenarioMsg 4, scenarioMsg 5],
        [scenarioMsg 1, scenarioMsg 2, scenarioMsg 3, scenarioMsg 4, scenarioMsg 5]) := rfl
  have e₂ : (run (init scenarioConsumer) (scenarioBefore ++ scenarioClose)).map
      (fun s => (s.closePc, s.enq)) =
      some (.returned,
        [scenarioMsg 1, scenarioMsg 2, scenarioMsg 3, scenarioMsg 4, scenarioMsg 5]) := rfl
  have i₂ : (run (init scenarioConsumer) (scenarioBefore ++ scenarioClose)).isSome = true := rfl
  obtain ⟨s₂, hfull⟩ := Option.isSome_iff_exists.mp i₂
  obtain ⟨s₀, h₀, h₁⟩ := run_split hfull
  have p₀ := map_of_eq_some h₀ e₀
  have p₂ := map_of_eq_some hfull e₂
  simp only [Prod.mk.injEq] at p₀ p₂
  have h := drain_completeness 1000000 ["broker:9092"] "group" ["orders"] () 2
    scenarioConsumer hnew scenarioBefore scenarioClose s₀ s₂ h₀ h₁ p₂.1 (p₂.2.trans p₀.2.symm)
  exact ⟨s₀, s₂, h₀, h₁, p₀.1, p₂.1, h.2.2.1, h.2.2.2.1, h.2.2.2.2.2.2.1⟩

/-! ## C2: a worker exits only on an empty queue -/

/-- C2.  In every reachable state, a step that makes worker `j` exit is the evaluation of
`len(c.messages) < 1` (line 81) by worker `j`, taken after it observed the stop signal
(`quitWorker` is closed) and in a state whose queue is empty; a worker that observed the stop
signal while the queue is not empty goes back to its `select` and leaves the queue as it is. -/
theorem worker_exits_only_on_empty_queue (limit : Nat) (brokers : List String)
    (groupId : String) (topics : List String) (handler : H) (w : Int) (c : KafkaConsumer H)
    (hnew : NewKafkaConsumer limit brokers groupId topics handler w = .ok c)
    (s : State H) (hs : Reachable c s) :
    (∀ a s' j, step s a = some s' → s.workers[j]? ≠ some .exited →
      s'.workers[j]? = some .exited →
      a = .workerCheckLen j ∧ s.workers[j]? = some .quitSeen ∧
      s.c.quitWorker.closed = true ∧ s.c.messages.len = 0) ∧
    (∀ j, s.workers[j]? = some .quitSeen → s.crashed = none → 1 ≤ s.c.messages.len →
      ∃ s', step s (.workerCheckLen j) = some s' ∧ s'.workers[j]? = some .select ∧
        s'.c.messages.buf = s.c.messages.buf) := by
  have hinv := reachable_inv (NewKafkaConsumer_ok hnew).1 hs
  constructor
  · intro a s' j h hpre hpost
    obtain ⟨h1, h2, h3⟩ := step_exit h hpre hpost
    exact ⟨h1, h2, hinv.quitSeen (Or.inl (List.getElem?_mem h2)), h3⟩
  · intro j hj hcr hlen
    have hlt : j < s.workers.length := by
      rcases Nat.lt_or_ge j s.workers.length with h | h
      · exact h
      · rw [List.getElem?_eq_none h] at hj
        simp at hj
    refine ⟨{ s with workers := s.workers.set j .select }, ?_, ?_, rfl⟩
    · have hnot : ¬ s.c.messages.len < 1 := by omega
      simp [step, workerStep, hcr, hj, hnot]
    · simp [List.getElem?_set, hlt]


/-- C2 witness: in the scenario, worker 1 observes the stop signal while the five records are
still buffered; it does not exit but returns to its `select`. -/
theorem worker_exits_only_on_empty_queue_witness :
    ∃ s : State Unit, Reachable scenarioConsumer s ∧ s.workers[1]? = some .quitSeen ∧
      s.c.messages.len = 5 ∧
      ∃ s', step s (.workerCheckLen 1) = some s' ∧ s'.workers[1]? = some .select ∧
        s'.c.messages.buf = s.c.messages.buf := by
  have hnew : NewKafkaConsumer 1000000 ["broker:9092"] "group" ["orders"] () 2 =
      .ok scenarioConsumer := rfl
  have e : (run (init scenarioConsumer) (scenarioBefore ++ scenarioStop ++ [.workerQuit 1])).map
      (fun s => (s.workers[1]?, s.crashed, s.c.messages.len)) =
      some (some .quitSeen, none, 5) := rfl
  have i : (run (init scenarioConsumer)
      (scenarioBefore ++ scenarioStop ++ [.workerQuit 1])).isSome = true := rfl
  obtain ⟨s, hs⟩ := Option.isSome_iff_exists.mp i
  have p := map_of_eq_some hs e
  simp only [Prod.mk.injEq] at p
  have h := (worker_exits_only_on_empty_queue 1000000 ["broker:9092"] "group" ["orders"] () 2
    scenarioConsumer hnew s ⟨_, hs⟩).2 1 p.1 p.2.1 (by rw [p.2.2]; decide)
  exact ⟨s, ⟨_, hs⟩, p.1, p.2.2, h⟩

/-! ## C3: what has happened when a worker exits -/

/-- C3, as amended.  Let the stop signal for the workers be raised by the step from `s₀` to
`s₁`, and let `s₂` be a later state in which some worker has exited.  Then the queue of `s₂` is
empty and the handler invocations begun since `s₀` are a permutation of the records that were
buffered in `s₀`: every such record has been dequeued and passed to the handler exactly once.
An invocation that was begun and has not returned is still running in a worker. -/
theorem buffered_records_dequeued_before_exit (limit : Nat) (brokers : List String)
    (groupId : String) (topics : List String) (handler : H) (w : Int) (c : KafkaConsumer H)
    (hnew : NewKafkaConsumer limit brokers groupId topics handler w = .ok c)
    (acts₀ acts₁ : List Action) (a : Action) (s₀ s₁ s₂ : State H)
    (h₀ : run (init c) acts₀ = some s₀) (hopen : s₀.c.quitWorker.closed = false)
    (hstop : step s₀ a = some s₁) (hclosed : s₁.c.quitWorker.closed = true)
    (h₁ : run s₁ acts₁ = some s₂) (j : Nat) (hexit : s₂.workers[j]? = some .exited) :
    (∃ new, s₂.started = s₀.started ++ new ∧ new.Perm s₀.c.messages.buf) ∧
    s₂.c.messages.buf = [] ∧
    ∀ m, s₂.started.count m = s₂.handled.count m + s₂.workers.count (.handling m) := by
  have hfresh := (NewKafkaConsumer_ok hnew).1
  have hr₀ : Reachable c s₀ := ⟨acts₀, h₀⟩
  have inv₀ := reachable_inv hfresh hr₀
  have inv₁ := inv_step inv₀ hstop
  have inv₂ := inv_run inv₁ h₁
  obtain ⟨e1, e2, e3⟩ := step_stop hstop hopen hclosed
  have hdone := inv₁.consumeDone (Or.inr (Or.inr hclosed))
  have hfrozen := run_enq_frozen inv₁ hdone h₁
  have hbuf := inv₂.drained (List.getElem?_mem hexit)
  obtain ⟨new, hnew'⟩ := run_started_mono h₁
  rw [e2] at hnew'
  refine ⟨⟨new, hnew', ?_⟩, hbuf, inv₂.infl⟩
  rw [List.perm_iff_count]
  intro m
  have c₀ := inv₀.cons m
  have c₂ := inv₂.cons m
  rw [hfrozen, e1, hbuf, hnew', List.count_append] at c₂
  simp at c₂
  omega

/-- C3 witness: the run in which worker 1 exits while worker 0 is inside the handler. -/
theorem buffered_records_dequeued_before_exit_witness :
    ∃ s₀ s₁ s₂ : State Unit,
      run (init scenarioConsumer) raceBefore = some s₀ ∧ step s₀ (.closeStep false) = some s₁ ∧
      run s₁ raceAfter = some s₂ ∧ s₀.c.messages.buf = [scenarioMsg 1] ∧
      s₂.workers[1]? = some .exited ∧
      (∃ new, s₂.started = s₀.started ++ new ∧ new.Perm s₀.c.messages.buf) ∧
      s₂.c.messages.buf = [] := by
  have hnew : NewKafkaConsumer 1000000 ["broker:9092"] "group" ["orders"] () 2 =
      .ok scenarioConsumer := rfl
  have e₀ : (run (init scenarioConsumer) raceBefore).map
      (fun s => (s.c.quitWorker.closed, s.c.messages.buf)) = some (false, [scenarioMsg 1]) := rfl
  have e₁ : (run (init scenarioConsumer) (raceBefore ++ [.closeStep false])).map
      (fun s => s.c.quitWorker.closed) = some true := rfl
  have e₂ : (run (init scenarioConsumer) ((raceBefore ++ [.closeStep false]) ++ raceAfter)).map
      (fun s => s.workers[1]?) = some (some .exited) := rfl
  have i : (run (init scenarioConsumer)
      ((raceBefore ++ [.closeStep false]) ++ raceAfter)).isSome = true := rfl
  obtain ⟨s₂, hfull⟩ := Option.isSome_iff_exists.mp i
  obtain ⟨s₁, h₀₁, h₁⟩ := run_split hfull
  obtain ⟨s₀, h₀, hstep⟩ := run_split h₀₁
  have p₀ := map_of_eq_some h₀ e₀
  have p₁ := map_of_eq_some h₀₁ e₁
  have p₂ := map_of_eq_some hfull e₂
  simp only [Prod.mk.injEq] at p₀
  have h := buffered_records_dequeued_before_exit 1000000 ["broker:9092"] "group" ["orders"] ()
    2 scenarioConsumer hnew raceBefore raceAfter (.closeStep false) s₀ s₁ s₂ h₀ p₀.1
    (run_singleton hstep) p₁ h₁ 1 p₂
  exact ⟨s₀, s₁, s₂, h₀, run_singleton hstep, h₁, p₀.2, p₂, h.1, h.2.1⟩

/-- C3, as stated, fails: with two workers and one buffered record, after the stop signal
worker 0 dequeues the record and is still inside the handler when worker 1 finds the queue
empty and exits.  A worker has terminated, yet the handler invocation on the record that was
buffered when the stop signal was raised has not completed. -/
theorem exit_before_handler_completes :
    ∃ s₀ s₁ s₂ : State Unit,
      run (init scenarioConsumer) raceBefore = some s₀ ∧
      s₀.c.quitWorker.closed = false ∧ s₀.c.messages.buf = [scenarioMsg 1] ∧
      step s₀ (.closeStep false) = some s₁ ∧ s₁.c.quitWorker.closed = true ∧
      run s₁ raceAfter = some s₂ ∧
      s₂.workers = [.handling (scenarioMsg 1), .exited] ∧ s₂.handled = [] ∧
      s₂.crashed = none := by
  have e₀ : (run (init scenarioConsumer) raceBefore).map
      (fun s => (s.c.quitWorker.closed, s.c.messages.buf)) = some (false, [scenarioMsg 1]) := rfl
  have e₁ : (run (init scenarioConsumer) (raceBefore ++ [.closeStep false])).map
      (fun s => s.c.quitWorker.closed) = some true := rfl
  have e₂ : (run (init scenarioConsumer) ((raceBefore ++ [.closeStep false]) ++ raceAfter)).map
      (fun s => (s.workers, s.handled, s.crashed)) =
      some ([.handling (scenarioMsg 1), .exited], [], none) := rfl
  have i : (run (init scenarioConsumer)
      ((raceBefore ++ [.closeStep false]) ++ raceAfter)).isSome = true := rfl
  obtain ⟨s₂, hfull⟩ := Option.isSome_iff_exists.mp i
  obtain ⟨s₁, h₀₁, h₁⟩ := run_split hfull
  obtain ⟨s₀, h₀, hstep⟩ := run_split h₀₁
  have p₀ := map_of_eq_some h₀ e₀
  have p₁ := map_of_eq_some h₀₁ e₁
  have p₂ := map_of_eq_some hfull e₂
  simp only [Prod.mk.injEq] at p₀ p₂
  exact ⟨s₀, s₁, s₂, h₀, p₀.1, p₀.2, run_singleton hstep, p₁, h₁, p₂.1, p₂.2.1, p₂.2.2⟩

/-! ## C4: the order of the shutdown effects -/

/-- C4, as the code has it (order of the shutdown effects on a started consumer).  Take any run
of the consumer, with no assumption on its caller but this: every call of `Close` is made on a
started consumer.  In every state of such a run the effects `Close` has performed so far are
an initial segment of: close `quitConsume`, wait for the consume loop, close the broker
client, close `quitWorker`, wait for the workers, close the queue; when `Close` has returned
they are the whole sequence.  The waits are real: once `waitConsume` is logged the consume
loop has finished, once `waitWorker` is logged every worker has exited.  A failing client
close is logged as an error and `Close` goes on to line 121, whatever the outcome. -/
theorem close_order (limit : Nat) (brokers : List String) (groupId : String)
    (topics : List String) (handler : H) (w : Int) (c : KafkaConsumer H)
    (hnew : NewKafkaConsumer limit brokers groupId topics handler w = .ok c)
    (acts : List Action) (s : State H) (hrun : runAny (init c) acts = some s)
    (hstarted : closeOnStarted (init c) acts = true) :
    closeLogAt s.closePc s.closeLog ∧
    (∃ failed, s.closeLog = (closeOrder failed).take s.closeLog.length) ∧
    (s.closePc = .returned → ∃ failed, s.closeLog = closeOrder failed) ∧
    s.c.quitConsume.closed = decide (1 ≤ s.closeLog.length) ∧
    s.c.quitWorker.closed = decide (4 ≤ s.closeLog.length) ∧
    s.c.messages.closed = decide (6 ≤ s.closeLog.length) ∧
    (CloseEffect.waitConsume ∈ s.closeLog → s.consumePc = .done) ∧
    (CloseEffect.waitWorker ∈ s.closeLog → ∀ p ∈ s.workers, p = .exited) ∧
    (CloseEffect.clientClose true ∈ s.closeLog → "Error closing client" ∈ s.errors) ∧
    (∀ failed, s.closePc = .l118 → s.crashed = none →
      ∃ s', stepAny s (.closeStep failed) = some s' ∧ s'.closePc = .l121 ∧ s'.crashed = none ∧
        s'.closeLog = s.closeLog ++ [.clientClose failed]) := by
  have hs : Reachable c s := ⟨acts, run_of_runAny hrun hstarted⟩
  have hinv := reachable_inv (NewKafkaConsumer_ok hnew).1 hs
  refine ⟨hinv.log, inv_log_take hinv, ?_, hinv.qc, hinv.qw, hinv.mc, inv_waited_consume hinv,
    inv_waited_workers hinv, hinv.errLog, ?_⟩
  · intro hret
    have hl := hinv.log
    rw [hret] at hl
    exact hl
  · intro failed hpc hcr
    have hst := hinv.closeStart (by rw [hpc]; simp)
    have hcl : s.c.client ≠ none := by
      apply hinv.client <;> intro h0 <;> rw [h0] at hst <;> simp [StartPc.launched] at hst
    cases hcv : s.c.client with
    | none => exact absurd hcv hcl
    | some cl =>
      refine ⟨{ s with
          c := { s.c with client := some { closed := true } }, closePc := .l121,
          closeLog := s.closeLog ++ [.clientClose failed],
          errors := if failed then s.errors ++ ["Error closing client"] else s.errors },
        ?_, rfl, hcr, rfl⟩
      simp [stepAny, closeStep, hcr, hpc, hcv]

/-- C4 witness: the scenario, in which `Close` is called after `Start` has launched everything
and the broker client fails to close. -/
theorem close_order_witness :
    ∃ s : State Unit, runAny (init scenarioConsumer) (scenarioBefore ++ scenarioClose) = some s ∧
      closeOnStarted (init scenarioConsumer) (scenarioBefore ++ scenarioClose) = true ∧
      s.closePc = .returned ∧ s.closeLog = closeOrder true ∧
      "Error closing client" ∈ s.errors ∧ s.consumePc = .done ∧
      ∀ p ∈ s.workers, p = .exited := by
  have hnew : NewKafkaConsumer 1000000 ["broker:9092"] "group" ["orders"] () 2 =
      .ok scenarioConsumer := rfl
  have e : (runAny (init scenarioConsumer) (scenarioBefore ++ scenarioClose)).map
      (fun s => (s.closePc, s.closeLog)) = some (.returned, closeOrder true) := rfl
  have i : (runAny (init scenarioConsumer) (scenarioBefore ++ scenarioClose)).isSome = true :=
    rfl
  have k : closeOnStarted (init scenarioConsumer) (scenarioBefore ++ scenarioClose) = true :=
    rfl
  obtain ⟨s, hs⟩ := Option.isSome_iff_exists.mp i
  have p := map_of_eq_some hs e
  simp only [Prod.mk.injEq] at p
  have h := close_order 1000000 ["broker:9092"] "group" ["orders"] () 2 scenarioConsumer hnew _ s
    hs k
  have hmem₁ : CloseEffect.waitConsume ∈ s.closeLog := by rw [p.2]; simp [closeOrder]
  have hmem₂ : CloseEffect.waitWorker ∈ s.closeLog := by rw [p.2]; simp [closeOrder]
  have hmem₃ : CloseEffect.clientClose true ∈ s.closeLog := by rw [p.2]; simp [closeOrder]
  exact ⟨s, hs, k, p.1, p.2, h.2.2.2.2.2.2.2.2.1 hmem₃, h.2.2.2.2.2.2.1 hmem₁,
    h.2.2.2.2.2.2.2.1 hmem₂⟩

/-- C4 as stated fails.  On a consumer that was never started, `Close` closes `quitConsume`,
passes the wait for the consume loop, which nothing has registered, and panics at
`c.client.Close()`, the broker client being `nil`: the effects from the close of the broker
client on never happen.  And when `Close` is called while `Start` is still launching, it
performs all six effects and returns, although the consume loop has not finished, for it is
started afterwards, and a worker launched afterwards has not exited. -/
theorem close_before_start_skips_steps :
    (∃ s : State Unit,
      runAny (init scenarioConsumer) [.closeCall, .closeStep false, .closeStep false,
        .closeStep false] = some s ∧
      s.startPc = .notCalled ∧ s.closePc = .l118 ∧ s.crashed = some .nilDereference ∧
      s.closeLog = [.closeQuitConsume, .waitConsume] ∧ ∀ a, stepAny s a = none) ∧
    (∃ s : State Unit, runAny (init scenarioConsumer) closeWhileLaunching = some s ∧
      s.crashed = none ∧ s.closePc = .returned ∧ s.closeLog = closeOrder false ∧
      CloseEffect.waitConsume ∈ s.closeLog ∧ s.consumePc = .joining ∧
      CloseEffect.waitWorker ∈ s.closeLog ∧ s.workers = [.exited, .select]) := by
  refine ⟨?_, ?_⟩
  · have e : (runAny (init scenarioConsumer) [.closeCall, .closeStep false, .closeStep false,
        .closeStep false]).map (fun s => (s.startPc, s.closePc, s.crashed, s.closeLog)) =
        some (.notCalled, .l118, some .nilDereference, [.closeQuitConsume, .waitConsume]) := rfl
    have i : (runAny (init scenarioConsumer) [.closeCall, .closeStep false, .closeStep false,
        .closeStep false]).isSome = true := rfl
    obtain ⟨s, hs⟩ := Option.isSome_iff_exists.mp i
    have p := map_of_eq_some hs e
    simp only [Prod.mk.injEq] at p
    refine ⟨s, hs, p.1, p.2.1, p.2.2.1, p.2.2.2, ?_⟩
    intro a
    simp [stepAny, p.2.2.1]
  · have e : (runAny (init scenarioConsumer) closeWhileLaunching).map
        (fun s => (s.crashed, s.closePc, s.closeLog, s.consumePc, s.workers)) =
        some (none, .returned, closeOrder false, .joining, [.exited, .select]) := rfl
    have i : (runAny (init scenarioConsumer) closeWhileLaunching).isSome = true := rfl
    obtain ⟨s, hs⟩ := Option.isSome_iff_exists.mp i
    have p := map_of_eq_some hs e
    simp only [Prod.mk.injEq] at p
    refine ⟨s, hs, p.1, p.2.1, p.2.2.1, ?_, p.2.2.2.1, ?_, p.2.2.2.2⟩
    · rw [p.2.2.1]
      simp [closeOrder]
    · rw [p.2.2.1]
      simp [closeOrder]

/-! ## C5 and C7: the constructor -/

/-- C5, as amended.  For every `numWorker ≥ 1` for which `8 * numWorker` neither overflows
Go's `int` nor exceeds the largest channel buffer of the runtime, `NewKafkaConsumer` returns a
consumer whose queue is empty, open and of capacity exactly `8 * numWorker`, whose `Brokers`,
`GroupId`, `Topics`, `Handler` and `numWorker` are the arguments; in every state the consumer
reaches, the capacity and these fields are unchanged. -/
theorem NewKafkaConsumer_capacity (limit : Nat) (brokers : List String) (groupId : String)
    (topics : List String) (handler : H) (w : Int)
    (h1 : 1 ≤ w) (h2 : 8 * w ≤ maxInt) (h3 : 8 * w ≤ limit) :
    ∃ c, NewKafkaConsumer limit brokers groupId topics handler w = .ok c ∧
      c.messages.buf = [] ∧ c.messages.closed = false ∧ (c.messages.cap : Int) = 8 * w ∧
      c.Brokers = brokers ∧ c.GroupId = groupId ∧ c.Topics = topics ∧ c.Handler = handler ∧
      c.numWorker = w ∧
      ∀ s, Reachable c s →
        s.c.messages.cap = c.messages.cap ∧ s.c.numWorker = w ∧ s.c.Brokers = brokers ∧
        s.c.GroupId = groupId ∧ s.c.Topics = topics ∧ s.c.Handler = handler := by
  obtain ⟨c, hc, hcap⟩ := NewKafkaConsumer_in_range limit brokers groupId topics handler w
    h1 h2 h3
  obtain ⟨hf, hb, hg, ht, hh, hn, -, -, -⟩ := NewKafkaConsumer_ok hc
  refine ⟨c, hc, hf.buf, hf.notClosed, hcap, hb, hg, ht, hh, hn, ?_⟩
  rintro s ⟨acts, hr⟩
  obtain ⟨a1, a2, a3, a4, a5, a6⟩ := run_config hr
  exact ⟨a2, a1.trans hn, a3.trans hb, a4.trans hg, a5.trans ht, a6.trans hh⟩

/-- C5 witness: two workers, capacity 16, also after the whole scenario has run. -/
theorem NewKafkaConsumer_capacity_witness :
    ∃ c : KafkaConsumer Unit,
      NewKafkaConsumer 1000000 ["broker:9092"] "group" ["orders"] () 2 = .ok c ∧
      c.messages.buf = [] ∧ (c.messages.cap : Int) = 8 * 2 ∧ c.numWorker = 2 ∧
      ∀ s, Reachable c s → s.c.messages.cap = c.messages.cap :=
  have h := NewKafkaConsumer_capacity 1000000 ["broker:9092"] "group" ["orders"] () 2
    (by decide) (by decide) (by decide)
  h.elim fun c hc =>
    ⟨c, hc.1, hc.2.1, hc.2.2.2.1, hc.2.2.2.2.2.2.2.2.1, fun s hs => (hc.2.2.2.2.2.2.2.2.2 s hs).1⟩

/-- C5, as stated, fails: for `numWorker = 2^61` the product `8 * numWorker` wraps around to
0 in Go's `int`, and the constructor returns a consumer whose queue has capacity 0. -/
theorem NewKafkaConsumer_capacity_wraps :
    (1 : Int) ≤ 2305843009213693952 ∧
    ∃ c : KafkaConsumer Unit,
      NewKafkaConsumer 1000000 ["broker:9092"] "group" ["orders"] () 2305843009213693952 =
        .ok c ∧
      c.numWorker = 2305843009213693952 ∧ c.messages.cap = 0 ∧
      (c.messages.cap : Int) ≠ 8 * 2305843009213693952 :=
  ⟨by decide, _, rfl, rfl, rfl, by decide⟩

/-- C7, as amended.  `NewKafkaConsumer` ends in the fatal configuration error exactly when
`numWorker < 1`, and it raises no other fatal error.  For `numWorker ≥ 1` it returns a consumer
provided `8 * numWorker` neither overflows Go's `int` nor exceeds the largest channel buffer of
the runtime; whenever it returns a consumer, `numWorker ≥ 1` and the consumer carries it. -/
theorem NewKafkaConsumer_fatal_iff (limit : Nat) (brokers : List String) (groupId : String)
    (topics : List String) (handler : H) (w : Int) :
    (NewKafkaConsumer limit brokers groupId topics handler w =
        .error (.fatal "Number of workers invalid") ↔ w < 1) ∧
    (∀ msg, NewKafkaConsumer limit brokers groupId topics handler w = .error (.fatal msg) →
      w < 1 ∧ msg = "Number of workers invalid") ∧
    (1 ≤ w → 8 * w ≤ maxInt → 8 * w ≤ limit →
      ∃ c, NewKafkaConsumer limit brokers groupId topics handler w = .ok c) ∧
    (∀ c, NewKafkaConsumer limit brokers groupId topics handler w = .ok c →
      1 ≤ w ∧ c.numWorker = w) := by
  have hfatal : ∀ msg, NewKafkaConsumer limit brokers groupId topics handler w =
      .error (.fatal msg) → w < 1 ∧ msg = "Number of workers invalid" := by
    intro msg h
    unfold NewKafkaConsumer makeChan at h
    split_ifs at h with hw hm
    · simp only [Except.error.injEq, Fault.fatal.injEq] at h
      exact ⟨hw, h.symm⟩
    · simp at h
  refine ⟨⟨fun h => (hfatal _ h).1, fun hw => by simp [NewKafkaConsumer, hw]⟩, hfatal, ?_, ?_⟩
  · intro h1 h2 h3
    obtain ⟨c, hc, -⟩ := NewKafkaConsumer_in_range limit brokers groupId topics handler w
      h1 h2 h3
    exact ⟨c, hc⟩
  · intro c hc
    obtain ⟨hf, -, -, -, -, hn, -, -, -⟩ := NewKafkaConsumer_ok hc
    exact ⟨hn ▸ hf.numWorker, hn⟩

/-- C7 witness: zero workers is the fatal error, two workers give a consumer. -/
theorem NewKafkaConsumer_fatal_iff_witness :
    NewKafkaConsumer 1000000 ["broker:9092"] "group" ["orders"] () 0 =
      .error (.fatal "Number of workers invalid") ∧
    ∃ c : KafkaConsumer Unit,
      NewKafkaConsumer 1000000 ["broker:9092"] "group" ["orders"] () 2 = .ok c :=
  ⟨(NewKafkaConsumer_fatal_iff 1000000 ["broker:9092"] "group" ["orders"] () 0).1.mpr
      (by decide),
   (NewKafkaConsumer_fatal_iff 1000000 ["broker:9092"] "group" ["orders"] () 2).2.2.1
      (by decide) (by decide) (by decide)⟩

/-- C7, as stated, fails: for `numWorker = 2^60` the product `8 * numWorker` wraps around to
`-2^63`, `make` panics on the negative size and no consumer is returned, even on a runtime that
would allocate any buffer size an `int` can hold. -/
theorem NewKafkaConsumer_panics_on_overflow :
    (1 : Int) ≤ 1152921504606846976 ∧
    NewKafkaConsumer 9223372036854775807 ["broker:9092"] "group" ["orders"] ()
      1152921504606846976 = .error .makechanSizeOutOfRange ∧
    ¬ ∃ c : KafkaConsumer Unit,
      NewKafkaConsumer 9223372036854775807 ["broker:9092"] "group" ["orders"] ()
        1152921504606846976 = .ok c :=
  ⟨by decide, rfl, fun ⟨_, h⟩ => by
    have h' : NewKafkaConsumer 9223372036854775807 ["broker:9092"] "group" ["orders"] ()
      1152921504606846976 = .error .makechanSizeOutOfRange := rfl
    rw [h'] at h
    exact absurd h (by simp)⟩

/-! ## C6: backpressure -/

/-- C6 (backpressure bound).  In every reachable state of a consumer built for `w` workers the
queue holds at most `cap ≤ 8 * w` records.  A claim reader that holds a record `m` at
`c.messages <- message` has no step that loses it: while the queue is full the send is not
enabled, every step of another goroutine leaves the reader as it is, and no reader ever
returns an error; as soon as there is room the send is enabled and appends `m`. -/
theorem backpressure_bound (limit : Nat) (brokers : List String) (groupId : String)
    (topics : List String) (handler : H) (w : Int) (c : KafkaConsumer H)
    (hnew : NewKafkaConsumer limit brokers groupId topics handler w = .ok c)
    (s : State H) (hs : Reachable c s) :
    1 ≤ w ∧ s.c.messages.buf.length ≤ s.c.messages.cap ∧ (s.c.messages.cap : Int) ≤ 8 * w ∧
    (s.c.messages.buf.length : Int) ≤ 8 * w ∧
    (∀ r ∈ s.readers, ∀ e, r.pc = .returned e → e = none) ∧
    ∀ i r m, s.readers[i]? = some r → r.pc = .send m → s.crashed = none →
      s.c.messages.closed = false ∧
      (s.c.messages.cap ≤ s.c.messages.len → step s (.readerSend i) = none) ∧
      (∀ j, 0 < s.c.messages.cap → s.c.messages.cap ≤ s.c.messages.len →
        step s (.readerHandoff i j) = none) ∧
      (s.c.messages.len < s.c.messages.cap →
        ∃ s', step s (.readerSend i) = some s' ∧ s'.crashed = none ∧
          s'.c.messages.buf = s.c.messages.buf ++ [m]) ∧
      (∀ a s', step s a = some s' → a ≠ .readerSend i → (∀ j, a ≠ .readerHandoff i j) →
        s'.readers[i]? = some r) := by
  obtain ⟨hfresh, -, -, -, -, hnw, -, hcap, -⟩ := NewKafkaConsumer_ok hnew
  have hinv := reachable_inv hfresh hs
  obtain ⟨acts, hrun⟩ := hs
  have hc : s.c.messages.cap = c.messages.cap := (run_config hrun).2.1
  have hb := hinv.bound
  refine ⟨hnw ▸ hfresh.numWorker, hb, by rw [hc]; exact hcap, by omega, ?_, ?_⟩
  · intro r hr e he
    have := (hinv.readerOk r hr).2
    rw [he] at this
    exact this.1
  · intro i r m hr hpc hcr
    obtain ⟨hin, -, hopen⟩ := inv_reader_active hinv hr (by rw [hpc]; simp)
    refine ⟨hopen, ?_, ?_, ?_, ?_⟩
    · intro hfull
      have : ¬ s.c.messages.len < s.c.messages.cap := by omega
      simp [step, readerStep, hcr, hr, hpc, hopen, this]
    · intro j hpos hfull
      have hne : s.c.messages.buf ≠ [] := by
        intro h0
        simp [Chan.len, h0] at hfull
        omega
      simp only [step, readerStep, hcr, hr, hpc]
      cases s.workers[j]? with
      | none => simp
      | some p => cases p <;> simp [hne, hpc]
    · intro hroom
      refine ⟨{ s with
          c := { s.c with messages := { s.c.messages with buf := s.c.messages.buf ++ [m] } },
          readers := s.readers.set i { r with pc := .mark m, effects := r.effects ++ [.enqueue m] },
          enq := s.enq ++ [m] }, ?_, hcr, rfl⟩
      simp [step, readerStep, hcr, hr, hpc, hopen, hroom]
    · intro a s' hstep h1 h2
      exact step_reader_frame hstep hr hpc hin h1 h2

/-- C6 witness: one worker, eight records fill the queue, the reader holds the ninth and its
send is not enabled until the worker dequeues. -/
theorem backpressure_bound_witness :
    ∃ s : State Unit, Reachable blockedConsumer s ∧ s.c.messages.buf.length = 8 ∧
      s.c.messages.cap = 8 ∧ (∃ r, s.readers[0]? = some r ∧ r.pc = .send (scenarioMsg 9)) ∧
      step s (.readerSend 0) = none ∧
      ∃ s₁ s₂, step s (.workerRecv 0) = some s₁ ∧ step s₁ (.readerSend 0) = some s₂ ∧
        s₂.c.messages.buf.length = 8 := by
  have hnew : NewKafkaConsumer 1000000 ["broker:9092"] "group" ["orders"] () 1 =
      .ok blockedConsumer := rfl
  have e : (run (init blockedConsumer) blockedBefore).map
      (fun s => (s.c.messages.buf.length, s.c.messages.cap, s.crashed,
        s.readers[0]?.map (fun r => r.pc), s.c.messages.len)) =
      some (8, 8, none, some (.send (scenarioMsg 9)), 8) := rfl
  have e₂ : (run (init blockedConsumer) (blockedBefore ++ [.workerRecv 0, .readerSend 0])).map
      (fun s => s.c.messages.buf.length) = some 8 := rfl
  have i : (run (init blockedConsumer)
      (blockedBefore ++ [.workerRecv 0, .readerSend 0])).isSome = true := rfl
  obtain ⟨s₂, hfull⟩ := Option.isSome_iff_exists.mp i
  obtain ⟨s, hs, h₁₂⟩ := run_split hfull
  have p := map_of_eq_some hs e
  have p₂ := map_of_eq_some hfull e₂
  simp only [Prod.mk.injEq] at p
  obtain ⟨p1, p2, p3, p4, p5⟩ := p
  cases hr : s.readers[0]? with
  | none => simp [hr] at p4
  | some r =>
    simp only [hr, Option.map_some', Option.some.injEq] at p4
    have h := (backpressure_bound 1000000 ["broker:9092"] "group" ["orders"] () 1
      blockedConsumer hnew s ⟨_, hs⟩).2.2.2.2.2 0 r (scenarioMsg 9) hr p4 p3
    have hblocked := h.2.1 (by rw [p2, p5])
    have h₁₂' : run s ([.workerRecv 0] ++ [.readerSend 0]) = some s₂ := h₁₂
    obtain ⟨s₁, ha, hb⟩ := run_split h₁₂'
    exact ⟨s, ⟨_, hs⟩, p1, p2, ⟨r, hr, p4⟩, hblocked, s₁, s₂, run_singleton ha,
      run_singleton hb, p₂⟩

/-! ## C8 and C9: what a claim reader does with the records it reads -/

/-- C8.  In every reachable state the effects of every `ConsumeClaim` call are, for the records
`m1 .. mn` it has read: receive `m1`, enqueue `m1`, mark `m1`, ..., receive `mn`, enqueue `mn`,
mark `mn`, cut off at its program point (`ReaderOk`).  So at its `select`, and when it has
returned, its trace without the reads is `enqueue(m1), mark(m1), ..., enqueue(mn), mark(mn)`
and each record read has been marked exactly once.  The mark does not wait for a worker: a
reader at line 157 can always take its step, which marks the record it has just enqueued and
touches neither the queue nor the workers. -/
theorem claim_reader_trace (limit : Nat) (brokers : List String) (groupId : String)
    (topics : List String) (handler : H) (w : Int) (c : KafkaConsumer H)
    (hnew : NewKafkaConsumer limit brokers groupId topics handler w = .ok c)
    (s : State H) (hs : Reachable c s) (i : Nat) (r : Reader) (hr : s.readers[i]? = some r) :
    ReaderOk r ∧
    (r.pc = .select ∨ (∃ e, r.pc = .returned e) →
      r.effects = claimTrace r.consumed ∧
      withoutRecv r.effects = enqueueMarkTrace r.consumed ∧
      markedBy r.effects = r.consumed) ∧
    (∀ m, r.pc = .send m → ∃ pre, r.consumed = pre ++ [m] ∧
      withoutRecv r.effects = enqueueMarkTrace pre) ∧
    (∀ m, r.pc = .mark m → ∃ pre, r.consumed = pre ++ [m] ∧
      withoutRecv r.effects = enqueueMarkTrace pre ++ [.enqueue m]) ∧
    (∀ m, r.pc = .mark m → s.crashed = none →
      ∃ s', step s (.readerMark i) = some s' ∧ s'.crashed = none ∧
        s'.marked = s.marked ++ [m] ∧ s'.c = s.c ∧ s'.workers = s.workers ∧
        ∃ r', s'.readers[i]? = some r' ∧ r'.pc = .select ∧
          r'.effects = r.effects ++ [.mark m] ∧ r'.pending = r.pending) := by
  have hinv := reachable_inv (NewKafkaConsumer_ok hnew).1 hs
  have hok := hinv.readerOk r (List.getElem?_mem hr)
  have hlt : i < s.readers.length := by
    rcases Nat.lt_or_ge i s.readers.length with h | h
    · exact h
    · rw [List.getElem?_eq_none h] at hr
      simp at hr
  refine ⟨hok, ?_, ?_, ?_, ?_⟩
  · intro hpc
    have he : r.effects = claimTrace r.consumed := by
      have h2 := hok.2
      rcases hpc with hpc | ⟨e, hpc⟩ <;> rw [hpc] at h2
      · exact h2
      · exact h2.2
    exact ⟨he, by rw [he, withoutRecv_claimTrace], by rw [he, markedBy_claimTrace]⟩
  · intro m hpc
    have h2 := hok.2
    rw [hpc] at h2
    obtain ⟨pre, h3, h4⟩ := h2
    refine ⟨pre, h3, ?_⟩
    rw [h4]
    simp [withoutRecv, ← withoutRecv_claimTrace]
  · intro m hpc
    have h2 := hok.2
    rw [hpc] at h2
    obtain ⟨pre, h3, h4⟩ := h2
    refine ⟨pre, h3, ?_⟩
    rw [h4]
    simp [withoutRecv, ← withoutRecv_claimTrace]
  · intro m hpc hcr
    refine ⟨{ s with
        readers := s.readers.set i { r with pc := .select, effects := r.effects ++ [.mark m] },
        marked := s.marked ++ [m] }, ?_, hcr, rfl, rfl, rfl,
      { r with pc := .select, effects := r.effects ++ [.mark m] }, ?_, rfl, rfl, rfl⟩
    · simp [step, readerStep, hcr, hr, hpc]
    · simp [List.getElem?_set, hlt]

/-- C8 witness: in the scenario the reader has read the records 1 to 5 and is at its
`select`. -/
theorem claim_reader_trace_witness :
    ∃ (s : State Unit) (r : Reader), Reachable scenarioConsumer s ∧ s.readers[0]? = some r ∧
      r.pc = .select ∧
      r.consumed = [scenarioMsg 1, scenarioMsg 2, scenarioMsg 3, scenarioMsg 4, scenarioMsg 5] ∧
      withoutRecv r.effects = enqueueMarkTrace
        [scenarioMsg 1, scenarioMsg 2, scenarioMsg 3, scenarioMsg 4, scenarioMsg 5] ∧
      markedBy r.effects = r.consumed := by
  have hnew : NewKafkaConsumer 1000000 ["broker:9092"] "group" ["orders"] () 2 =
      .ok scenarioConsumer := rfl
  have e : (run (init scenarioConsumer) scenarioBefore).map
      (fun s => s.readers[0]?.map (fun r => (r.pc, r.consumed))) =
      some (some (.select,
        [scenarioMsg 1, scenarioMsg 2, scenarioMsg 3, scenarioMsg 4, scenarioMsg 5])) := rfl
  have i : (run (init scenarioConsumer) scenarioBefore).isSome = true := rfl
  obtain ⟨s, hs⟩ := Option.isSome_iff_exists.mp i
  have p := map_of_eq_some hs e
  cases hr : s.readers[0]? with
  | none => simp [hr] at p
  | some r =>
    simp only [hr, Option.map_some', Option.some.injEq, Prod.mk.injEq] at p
    have h := (claim_reader_trace 1000000 ["broker:9092"] "group" ["orders"] () 2
      scenarioConsumer hnew s ⟨_, hs⟩ 0 r hr).2.1 (Or.inl p.1)
    exact ⟨s, r, ⟨_, hs⟩, hr, p.1, p.2, p.2 ▸ h.2.1, h.2.2⟩

/-- C9.  In every reachable state, for every `ConsumeClaim` call: the records read so far
followed by the records still to be delivered are the sequence the broker delivers on the
claim; the records handed to the dispatch queue are, in order and without a gap or a repeat,
the records read so far (all but the last one while the reader still holds it at line 156),
hence an initial segment of the delivered sequence; and the send of line 156 appends to the
queue the very record that was received, so with the same topic, partition, offset, key and
value. -/
theorem handoff_order (limit : Nat) (brokers : List String) (groupId : String)
    (topics : List String) (handler : H) (w : Int) (c : KafkaConsumer H)
    (hnew : NewKafkaConsumer limit brokers groupId topics handler w = .ok c)
    (s : State H) (hs : Reachable c s) (i : Nat) (r : Reader) (hr : s.readers[i]? = some r) :
    r.consumed ++ r.pending = r.claim ∧
    (∃ rest, enqueuedBy r.effects ++ rest = r.claim) ∧
    (∀ m, r.pc = .send m → enqueuedBy r.effects ++ [m] = r.consumed) ∧
    ((∀ m, r.pc ≠ .send m) → enqueuedBy r.effects = r.consumed) ∧
    (∀ m s', r.pc = .send m → step s (.readerSend i) = some s' → s'.crashed = none →
      s'.c.messages.buf = s.c.messages.buf ++ [m] ∧ s'.enq = s.enq ++ [m] ∧
      ∃ r', s'.readers[i]? = some r' ∧ enqueuedBy r'.effects = r.consumed ∧
        r'.claim = r.claim) := by
  have hinv := reachable_inv (NewKafkaConsumer_ok hnew).1 hs
  have hok := hinv.readerOk r (List.getElem?_mem hr)
  have hlt : i < s.readers.length := by
    rcases Nat.lt_or_ge i s.readers.length with h | h
    · exact h
    · rw [List.getElem?_eq_none h] at hr
      simp at hr
  have hsend : ∀ m, r.pc = .send m → enqueuedBy r.effects ++ [m] = r.consumed := by
    intro m hpc
    have h2 := hok.2
    rw [hpc] at h2
    obtain ⟨pre, h3, h4⟩ := h2
    rw [h3, h4, enqueuedBy_append, enqueuedBy_claimTrace]
    simp [enqueuedBy]
  have hother : (∀ m, r.pc ≠ .send m) → enqueuedBy r.effects = r.consumed := by
    intro hne
    have h2 := hok.2
    revert h2 hne
    cases r.pc with
    | select => intro _ h2; rw [h2, enqueuedBy_claimTrace]
    | send m => intro hne; exact absurd rfl (hne m)
    | mark m =>
      rintro - ⟨pre, h3, h4⟩
      rw [h3, h4, enqueuedBy_append, enqueuedBy_claimTrace]
      simp [enqueuedBy]
    | returned e => intro _ h2; rw [h2.2, enqueuedBy_claimTrace]
  refine ⟨hok.1, ?_, hsend, hother, ?_⟩
  · by_cases hp : ∃ m, r.pc = .send m
    · obtain ⟨m, hpc⟩ := hp
      refine ⟨m :: r.pending, ?_⟩
      rw [← hok.1, ← hsend m hpc]
      simp
    · refine ⟨r.pending, ?_⟩
      rw [hother (fun m hm => hp ⟨m, hm⟩)]
      exact hok.1
  · intro m s' hpc hstep hcr
    simp only [step, readerStep, hr, hpc] at hstep
    split_ifs at hstep with h1 h2 h3
    · simp only [Option.some.injEq] at hstep
      subst hstep
      simp at hcr
    · simp only [Option.some.injEq] at hstep
      subst hstep
      refine ⟨rfl, rfl,
        { r with pc := .mark m, effects := r.effects ++ [.enqueue m] },
        by simp [List.getElem?_set, hlt], ?_, rfl⟩
      show enqueuedBy (r.effects ++ [.enqueue m]) = r.consumed
      rw [enqueuedBy_append, ← hsend m hpc]
      simp [enqueuedBy]

/-- C9 witness: in the run in which the reader holds record 9 while the queue is full, the
records 1 to 8 have been handed over in the order of delivery. -/
theorem handoff_order_witness :
    ∃ (s : State Unit) (r : Reader), Reachable blockedConsumer s ∧ s.readers[0]? = some r ∧
      r.pc = .send (scenarioMsg 9) ∧
      enqueuedBy r.effects ++ [scenarioMsg 9] = r.consumed ∧
      ∃ rest, enqueuedBy r.effects ++ rest = r.claim := by
  have hnew : NewKafkaConsumer 1000000 ["broker:9092"] "group" ["orders"] () 1 =
      .ok blockedConsumer := rfl
  have e : (run (init blockedConsumer) blockedBefore).map
      (fun s => s.readers[0]?.map (fun r => r.pc)) = some (some (.send (scenarioMsg 9))) := rfl
  have i : (run (init blockedConsumer) blockedBefore).isSome = true := rfl
  obtain ⟨s, hs⟩ := Option.isSome_iff_exists.mp i
  have p := map_of_eq_some hs e
  cases hr : s.readers[0]? with
  | none => simp [hr] at p
  | some r =>
    simp only [hr, Option.map_some', Option.some.injEq] at p
    have h := handoff_order 1000000 ["broker:9092"] "group" ["orders"] () 1
      blockedConsumer hnew s ⟨_, hs⟩ 0 r hr
    exact ⟨s, r, ⟨_, hs⟩, hr, p, h.2.2.1 _ p, h.2.1⟩

/-! ## C10: the loss window -/

/-- C10 (loss window).  There is a reachable state in which a record has been marked committed
with the broker and the handler has not been invoked on it; there is even one in which the
process has stopped (the handler panicked on another record) with such a record still in the
queue, and no step follows.  And no step re-enqueues a committed record: a step that enqueues
is the send of line 156 by a reader that holds a record it has received and not yet marked, so
a record is enqueued at most as often as the broker delivered it, and marked at most as often
as it was enqueued. -/
theorem loss_window :
    (∃ s : State Unit, Reachable scenarioConsumer s ∧ s.crashed = none ∧
      scenarioMsg 5 ∈ s.marked ∧ scenarioMsg 5 ∉ s.started) ∧
    (∃ s : State Unit, Reachable scenarioConsumer s ∧ s.crashed = some .handlerPanic ∧
      scenarioMsg 2 ∈ s.marked ∧ scenarioMsg 2 ∈ s.c.messages.buf ∧
      scenarioMsg 2 ∉ s.started ∧ ∀ a, step s a = none) ∧
    ∀ (H : Type) (limit : Nat) (brokers : List String) (groupId : String)
      (topics : List String) (handler : H) (w : Int) (c : KafkaConsumer H),
      NewKafkaConsumer limit brokers groupId topics handler w = .ok c →
      ∀ s : State H, Reachable c s →
        (∀ m, s.enq.count m + s.readers.countP (fun r => r.pc = .send m) =
          s.received.count m) ∧
        (∀ m, s.marked.count m + s.readers.countP (fun r => r.pc = .mark m) = s.enq.count m) ∧
        (∀ m, s.marked.count m ≤ s.enq.count m ∧ s.enq.count m ≤ s.received.count m) ∧
        ∀ a s', step s a = some s' →
          s'.enq = s.enq ∨
          ∃ i r m, s.readers[i]? = some r ∧ r.pc = .send m ∧ s'.enq = s.enq ++ [m] ∧
            (a = .readerSend i ∨ ∃ j, a = .readerHandoff i j) := by
  refine ⟨?_, ?_, ?_⟩
  · have e : (run (init scenarioConsumer) scenarioBefore).map
        (fun s => (s.crashed, s.marked, s.started)) =
        some (none,
          [scenarioMsg 1, scenarioMsg 2, scenarioMsg 3, scenarioMsg 4, scenarioMsg 5], []) := rfl
    have i : (run (init scenarioConsumer) scenarioBefore).isSome = true := rfl
    obtain ⟨s, hs⟩ := Option.isSome_iff_exists.mp i
    have p := map_of_eq_some hs e
    simp only [Prod.mk.injEq] at p
    exact ⟨s, ⟨_, hs⟩, p.1, by rw [p.2.1]; simp, by rw [p.2.2]; simp⟩
  · have e : (run (init scenarioConsumer) (scenarioBefore ++ scenarioPanic)).map
        (fun s => (s.crashed, s.marked, s.c.messages.buf, s.started)) =
        some (some .handlerPanic,
          [scenarioMsg 1, scenarioMsg 2, scenarioMsg 3, scenarioMsg 4, scenarioMsg 5],
          [scenarioMsg 2, scenarioMsg 3, scenarioMsg 4, scenarioMsg 5], [scenarioMsg 1]) := rfl
    have i : (run (init scenarioConsumer) (scenarioBefore ++ scenarioPanic)).isSome = true :=
      rfl
    obtain ⟨s, hs⟩ := Option.isSome_iff_exists.mp i
    have p := map_of_eq_some hs e
    simp only [Prod.mk.injEq] at p
    refine ⟨s, ⟨_, hs⟩, p.1, by rw [p.2.1]; simp, by rw [p.2.2.1]; simp, ?_, step_crashed p.1⟩
    rw [p.2.2.2]
    simp only [List.mem_singleton]
    decide
  · intro H limit brokers groupId topics handler w c hnew s hs
    have hinv := reachable_inv (NewKafkaConsumer_ok hnew).1 hs
    refine ⟨hinv.fresh, hinv.committed, ?_, fun a s' h => step_enq_source h⟩
    intro m
    have h1 := hinv.fresh m
    have h2 := hinv.committed m
    omega

/-- C10 witness: counts in the scenario, where the five records are received, enqueued and
marked once each and no handler has run. -/
theorem loss_window_witness :
    ∃ s : State Unit, Reachable scenarioConsumer s ∧ s.started = [] ∧
      s.marked.count (scenarioMsg 3) = 1 ∧ s.enq.count (scenarioMsg 3) = 1 ∧
      s.received.count (scenarioMsg 3) = 1 := by
  have hnew : NewKafkaConsumer 1000000 ["broker:9092"] "group" ["orders"] () 2 =
      .ok scenarioConsumer := rfl
  have e : (run (init scenarioConsumer) scenarioBefore).map
      (fun s => (s.started, s.marked)) =
      some ([], [scenarioMsg 1, scenarioMsg 2, scenarioMsg 3, scenarioMsg 4, scenarioMsg 5]) :=
    rfl
  have i : (run (init scenarioConsumer) scenarioBefore).isSome = true := rfl
  obtain ⟨s, hs⟩ := Option.isSome_iff_exists.mp i
  have p := map_of_eq_some hs e
  simp only [Prod.mk.injEq] at p
  have h := (loss_window.2.2 Unit 1000000 ["broker:9092"] "group" ["orders"] () 2
    scenarioConsumer hnew s ⟨_, hs⟩).2.2.1 (scenarioMsg 3)
  have hm : s.marked.count (scenarioMsg 3) = 1 := by rw [p.2]; decide
  have hr : s.received.count (scenarioMsg 3) ≤ 1 := by
    have e' : (run (init scenarioConsumer) scenarioBefore).map (fun s => s.received) =
        some [scenarioMsg 1, scenarioMsg 2, scenarioMsg 3, scenarioMsg 4, scenarioMsg 5] := rfl
    rw [map_of_eq_some hs e']
    decide
  exact ⟨s, ⟨_, hs⟩, p.1, hm, by omega, by omega⟩

/-! ## C11: cancellation of a claim reader -/

/-- C11 (a claim reader returns nil on cancellation).  Let `r` be the `ConsumeClaim` call `i` of
a reachable state.  The step that takes the cancellation case of its select is enabled exactly
when the call is at its select, the process runs and the session context is done; the step
makes the call return `nil` and changes nothing else: no record is received, enqueued or
marked, and the effect trace of the call is as before.  A call that has returned has returned
`nil`, never an error, and takes no further step. -/
theorem consume_claim_returns_nil_on_cancel (limit : Nat) (brokers : List String)
    (groupId : String) (topics : List String) (handler : H) (w : Int) (c : KafkaConsumer H)
    (hnew : NewKafkaConsumer limit brokers groupId topics handler w = .ok c)
    (s : State H) (hs : Reachable c s) (i : Nat) (r : Reader) (hr : s.readers[i]? = some r) :
    ((∃ s', step s (.readerDone i) = some s') ↔
      (s.crashed = none ∧ r.pc = .select ∧ (s.sessDone = true ∨ s.ctxCancelled = true))) ∧
    (∀ s', step s (.readerDone i) = some s' →
      s' = { s with readers := s.readers.set i { r with pc := .returned none } } ∧
      s'.readers[i]? = some { r with pc := .returned none } ∧
      s'.received = s.received ∧ s'.enq = s.enq ∧ s'.marked = s.marked ∧ s'.c = s.c ∧
      s'.crashed = none) ∧
    (∀ e, r.pc = .returned e →
      e = none ∧ step s (.readerRecv i) = none ∧ step s (.readerDone i) = none ∧
      step s (.readerSend i) = none ∧ step s (.readerMark i) = none ∧
      ∀ j, step s (.readerHandoff i j) = none) := by
  have hinv := reachable_inv (NewKafkaConsumer_ok hnew).1 hs
  have hlt : i < s.readers.length := by
    rcases Nat.lt_or_ge i s.readers.length with h | h
    · exact h
    · rw [List.getElem?_eq_none h] at hr
      simp at hr
  refine ⟨?_, ?_, ?_⟩
  · constructor
    · rintro ⟨s', h⟩
      unfold step at h
      split at h
      · simp at h
      · rename_i hc
        simp only [readerStep, hr] at h
        split at h
        · split at h
          · rename_i hpc hd
            refine ⟨?_, hpc, ?_⟩
            · revert hc
              cases s.crashed <;> simp
            · simpa using hd
          · simp at h
        · simp at h
    · rintro ⟨hc, hpc, hd⟩
      simp [step, hc, readerStep, hr, hpc, hd]
  · intro s' h
    unfold step at h
    split at h
    · simp at h
    · rename_i hc
      simp only [readerStep, hr] at h
      split at h
      · split at h
        · simp at h
          subst h
          refine ⟨rfl, ?_, rfl, rfl, rfl, rfl, ?_⟩
          · simp [List.getElem?_set, hlt]
          · revert hc
            cases s.crashed <;> simp
        · simp at h
      · simp at h
  · intro e hpc
    have hok := hinv.readerOk r (List.getElem?_mem hr)
    have he : e = none := by
      have h2 := hok.2
      rw [hpc] at h2
      exact h2.1
    refine ⟨he, ?_, ?_, ?_, ?_, ?_⟩
    · simp [step, readerStep, hr, hpc]
    · simp [step, readerStep, hr, hpc]
    · simp [step, readerStep, hr, hpc]
    · simp [step, readerStep, hr, hpc]
    · intro j
      unfold step
      split
      · rfl
      · simp only [readerStep]
        split
        · rename_i r' hr' _
          rw [hr] at hr'
          cases hr'
          simp [hpc]
        · rfl

/-- C11 witness: in the scenario, after `Close` has signalled the stop and `Start` has cancelled
the consume context, the reader of the partition is at its select; it takes the cancellation
case and returns `nil`, and the histories are as before. -/
theorem consume_claim_returns_nil_on_cancel_witness :
    ∃ (s s' : State Unit) (r : Reader), Reachable scenarioConsumer s ∧
      s.readers[0]? = some r ∧ r.pc = .select ∧ s.ctxCancelled = true ∧
      step s (.readerDone 0) = some s' ∧
      s'.readers[0]? = some { r with pc := .returned none } ∧
      s'.received = s.received ∧ s'.enq = s.enq ∧ s'.marked = s.marked := by
  have hnew : NewKafkaConsumer 1000000 ["broker:9092"] "group" ["orders"] () 2 =
      .ok scenarioConsumer := rfl
  have e : (run (init scenarioConsumer)
      (scenarioBefore ++ [.closeCall, .closeStep false, .startAwaitStop, .startCancel])).map
      (fun s => (s.crashed, s.ctxCancelled, (s.readers[0]?).map (fun r => r.pc))) =
      some (none, true, some .select) := rfl
  have i : (run (init scenarioConsumer)
      (scenarioBefore ++ [.closeCall, .closeStep false, .startAwaitStop, .startCancel])).isSome =
      true := rfl
  obtain ⟨s, hs⟩ := Option.isSome_iff_exists.mp i
  have p := map_of_eq_some hs e
  simp only [Prod.mk.injEq] at p
  obtain ⟨r, hr, hpc⟩ := Option.map_eq_some'.mp p.2.2
  have h := consume_claim_returns_nil_on_cancel 1000000 ["broker:9092"] "group" ["orders"] () 2
    scenarioConsumer hnew s ⟨_, hs⟩ 0 r hr
  obtain ⟨s', hs'⟩ := h.1.mpr ⟨p.1, hpc, Or.inr p.2.1⟩
  have h2 := h.2.1 s' hs'
  exact ⟨s, s', r, ⟨_, hs⟩, hr, hpc, p.2.1, hs', h2.2.1, h2.2.2.1, h2.2.2.2.1, h2.2.2.2.2.1⟩

/-! ## C12: a closed claim channel -/

/-- C12 (closed claim channel), evaluation of the code.  In the scenario the reader of the
partition is at its select, the channel of its claim is closed and exhausted and the session
context is not done.  The cancellation case is not enabled, so the call cannot return; the
receive case is taken, yields `nil`, and the process stops with a nil dereference, the call
still at its select.  No step follows. -/
theorem consume_claim_closed_stream_panics :
    ∃ s s' : State Unit, Reachable scenarioConsumer s ∧ s.crashed = none ∧
      s.sessDone = false ∧ s.ctxCancelled = false ∧
      (s.readers[0]?).map (fun r => (r.pc, r.pending, r.closes)) = some (.select, [], true) ∧
      step s (.readerDone 0) = none ∧
      step s (.readerRecv 0) = some s' ∧ s'.crashed = some .nilDereference ∧
      (s'.readers[0]?).map (fun r => r.pc) = some .select ∧
      s'.enq = s.enq ∧ s'.marked = s.marked ∧ ∀ a, step s' a = none := by
  have e : (run (init scenarioConsumer) closedClaimBefore).map
      (fun s => (s.crashed, s.sessDone, s.ctxCancelled,
        (s.readers[0]?).map (fun r => (r.pc, r.pending, r.closes)),
        step s (.readerDone 0), (step s (.readerRecv 0)).map (fun t => (t.crashed,
          (t.readers[0]?).map (fun r => r.pc), decide (t.enq = s.enq),
          decide (t.marked = s.marked))))) =
      some (none, false, false, some (.select, [], true), none,
        some (some .nilDereference, some .select, true, true)) := rfl
  have i : (run (init scenarioConsumer) closedClaimBefore).isSome = true := rfl
  obtain ⟨s, hs⟩ := Option.isSome_iff_exists.mp i
  have p := map_of_eq_some hs e
  simp only [Prod.mk.injEq] at p
  obtain ⟨s', hs', hp'⟩ := Option.map_eq_some'.mp p.2.2.2.2.2
  simp only [Prod.mk.injEq, decide_eq_true_eq] at hp'
  exact ⟨s, s', ⟨_, hs⟩, p.1, p.2.1, p.2.2.1, p.2.2.2.1, p.2.2.2.2.1, hs', hp'.1, hp'.2.1,
    hp'.2.2.1, hp'.2.2.2, step_crashed hp'.1⟩

/-! ## C13: a second call of Close -/

/-- C13 (second `Close`).  In a reachable state in which `Close` has returned and the process
runs, `Close` can be called again; the first statement of the second call, `close` of the
stop channel `quitConsume`, finds the channel closed and panics.  The step changes nothing
but the fault: no further shutdown effect is logged, the consumer is as it was.  No step
follows. -/
theorem second_close_faults (limit : Nat) (brokers : List String) (groupId : String)
    (topics : List String) (handler : H) (w : Int) (c : KafkaConsumer H)
    (hnew : NewKafkaConsumer limit brokers groupId topics handler w = .ok c)
    (s : State H) (hs : Reachable c s) (hret : s.closePc = .returned)
    (hrun : s.crashed = none) :
    s.c.quitConsume.closed = true ∧
    step s .closeCall = some { s with closePc := .l116 } ∧
    ∀ clientFails,
      step { s with closePc := .l116 } (.closeStep clientFails) =
        some { s with closePc := .l116, crashed := some .closeOfClosedChannel } ∧
      ∀ a, step { s with closePc := .l116, crashed := some .closeOfClosedChannel } a = none := by
  have hinv := reachable_inv (NewKafkaConsumer_ok hnew).1 hs
  have hl := hinv.closeStart (by rw [hret]; simp)
  have hlog := hinv.log
  rw [hret] at hlog
  obtain ⟨e, he⟩ := hlog
  have hqc : s.c.quitConsume.closed = true := by rw [hinv.qc, he]; simp [closeOrder]
  refine ⟨hqc, ?_, ?_⟩
  · simp [step, hrun, closeStep, hret, hl]
  · intro clientFails
    refine ⟨?_, fun a => step_crashed rfl a⟩
    simp [step, hrun, closeStep, hqc]

/-- C13 witness: in the scenario `Close` has returned after the drain; the second call
panics. -/
theorem second_close_faults_witness :
    ∃ s : State Unit, Reachable scenarioConsumer s ∧ s.closePc = .returned ∧
      s.closeLog = closeOrder true ∧
      step s .closeCall = some { s with closePc := .l116 } ∧
      step { s with closePc := .l116 } (.closeStep false) =
        some { s with closePc := .l116, crashed := some .closeOfClosedChannel } := by
  have hnew : NewKafkaConsumer 1000000 ["broker:9092"] "group" ["orders"] () 2 =
      .ok scenarioConsumer := rfl
  have e : (run (init scenarioConsumer) (scenarioBefore ++ scenarioClose)).map
      (fun s => (s.closePc, s.crashed, s.closeLog)) =
      some (.returned, none, closeOrder true) := rfl
  have i : (run (init scenarioConsumer) (scenarioBefore ++ scenarioClose)).isSome = true := rfl
  obtain ⟨s, hs⟩ := Option.isSome_iff_exists.mp i
  have p := map_of_eq_some hs e
  simp only [Prod.mk.injEq] at p
  have h := second_close_faults 1000000 ["broker:9092"] "group" ["orders"] () 2
    scenarioConsumer hnew s ⟨_, hs⟩ p.1 p.2.1
  exact ⟨s, ⟨_, hs⟩, p.1, p.2.2, h.2.1, (h.2.2 false).1⟩

/-! ## C14: the return of Start -/

/-- C14 (`Start` returns after ready and stop).  Along every run of the consumer: `Start`
passes the receive of line 105 only when the ready channel it has read there is closed, and
passes the select of line 107 only when the stop channel `quitConsume` is closed or the
consume context is done; it returns by the step that cancels the consume context, and by no
other step.  So in a state in which `Start` has returned, the run contains a session setup
(the call of `Setup`, the only step that closes a ready channel) and a ready channel is
closed, the run contains a statement of `Close` and the stop channel is closed, and the run
contains the cancel step of `Start` and the consume context is cancelled. -/
theorem start_returns_after_ready_and_stop (limit : Nat) (brokers : List String)
    (groupId : String) (topics : List String) (handler : H) (w : Int) (c : KafkaConsumer H)
    (hnew : NewKafkaConsumer limit brokers groupId topics handler w = .ok c)
    (acts : List Action) (s : State H) (hrun : run (init c) acts = some s) :
    (∀ s', step s .startAwaitReady = some s' →
      ∃ ch, s.startPc = .awaitReady ch ∧ s.readyChans[ch]? = some true ∧
        s'.startPc = .awaitStop) ∧
    (∀ s', step s .startAwaitStop = some s' →
      (s.c.quitConsume.closed = true ∨ s.ctxCancelled = true) ∧ s'.startPc = .cancelPending) ∧
    (∀ a s', step s a = some s' → s'.startPc = .returned → s.startPc ≠ .returned →
      a = .startCancel ∧ s.startPc = .cancelPending ∧ s'.ctxCancelled = true) ∧
    (∀ ch : Nat, s.readyChans[ch]? = some true → ∃ claims, Action.sessionSetup claims ∈ acts) ∧
    (s.startPc = .returned →
      (∃ claims, Action.sessionSetup claims ∈ acts) ∧
      (∃ ch : Nat, s.readyChans[ch]? = some true) ∧
      (∃ f, Action.closeStep f ∈ acts) ∧ s.c.quitConsume.closed = true ∧
      Action.startCancel ∈ acts ∧ s.ctxCancelled = true) := by
  have hc := (NewKafkaConsumer_ok hnew).1
  have hinv := startInv_run (startInv_init c hc) hrun
  have hsrc := run_signal_source hrun
  have hready : (∃ ch : Nat, s.readyChans[ch]? = some true) →
      ∃ claims, Action.sessionSetup claims ∈ acts := by
    intro hx
    rcases hsrc.1 hx with ⟨ch, hch⟩ | h
    · exfalso
      simp only [init] at hch
      cases ch with
      | zero => simp at hch
      | succ n => simp at hch
    · exact h
  refine ⟨?_, ?_, ?_, fun ch hch => hready ⟨ch, hch⟩, ?_⟩
  · intro s' h
    unfold step at h
    split at h
    · simp at h
    · simp only [startStep] at h
      split at h
      · rename_i ch hpc
        split at h
        · rename_i hch
          simp at h
          subst h
          exact ⟨ch, hpc, hch, rfl⟩
        · simp at h
      · simp at h
  · intro s' h
    unfold step at h
    split at h
    · simp at h
    · simp only [startStep] at h
      split at h
      · split at h
        · rename_i hd
          simp at h
          subst h
          refine ⟨?_, rfl⟩
          rcases hd with hd | hd
          · exact Or.inr hd
          · exact Or.inl hd
        · simp at h
      · simp at h
  · intro a s' h hret hnot
    rcases (step_signal_source h).2.2 hret with h1 | h1
    · exact absurd h1 hnot
    · exact h1
  · intro hret
    have hcl := hinv.stop.1 (Or.inr hret)
    have hx := hinv.ready (Or.inr (Or.inr hret))
    refine ⟨hready hx, hx, ?_, hcl, ?_, hinv.stop.2.mpr hret⟩
    · rcases hsrc.2.1 hcl with h | h
      · simp [init, hc.quitConsume] at h
      · exact h
    · rcases hsrc.2.2 hret with h | h
      · simp [init] at h
      · exact h

/-- C14 witness: the scenario up to the return of `Start`.  The run contains the session setup,
the first statement of `Close` and the cancel step. -/
theorem start_returns_after_ready_and_stop_witness :
    ∃ s : State Unit, Reachable scenarioConsumer s ∧ s.startPc = .returned ∧
      s.readyChans = [true] ∧ s.c.quitConsume.closed = true ∧ s.ctxCancelled = true := by
  have hnew : NewKafkaConsumer 1000000 ["broker:9092"] "group" ["orders"] () 2 =
      .ok scenarioConsumer := rfl
  have e : (run (init scenarioConsumer)
      (scenarioBefore ++ [.closeCall, .closeStep false, .startAwaitStop, .startCancel])).map
      (fun s => (s.startPc, s.readyChans)) = some (.returned, [true]) := rfl
  have i : (run (init scenarioConsumer)
      (scenarioBefore ++ [.closeCall, .closeStep false, .startAwaitStop, .startCancel])).isSome =
      true := rfl
  obtain ⟨s, hs⟩ := Option.isSome_iff_exists.mp i
  have p := map_of_eq_some hs e
  simp only [Prod.mk.injEq] at p
  have h := (start_returns_after_ready_and_stop 1000000 ["broker:9092"] "group" ["orders"] () 2
    scenarioConsumer hnew _ s hs).2.2.2.2 p.1
  exact ⟨s, ⟨_, hs⟩, p.1, p.2, h.2.2.2.1, h.2.2.2.2.2⟩

/-! ## C20: the workers -/

/-- C20 (number of workers, handler on dequeue).  In every reachable state: once `Start` has
launched the consume loop there are exactly `w` workers, and at any time the count of the
worker wait group plus the number of workers that have exited is the number of workers
launched.  A step changes the number of workers only if it is an iteration of the launch loop
of `Start` with `i < numWorker`; that step registers one unit with the wait group and starts
one worker.  A receive of worker `j` on the queue either dequeues the oldest record and invokes
the handler on it, or the queue is closed and empty and nothing changes: no handler
invocation.  A direct handoff to worker `j` invokes the handler on the record handed over.
While the handler runs on `m`, worker `j` takes no step but the return of the handler (or its
panic), so the invocation is synchronous; the return is always enabled while the process
runs. -/
theorem workers_launched_and_invoke_handler (limit : Nat) (brokers : List String)
    (groupId : String) (topics : List String) (handler : H) (w : Int) (c : KafkaConsumer H)
    (hnew : NewKafkaConsumer limit brokers groupId topics handler w = .ok c)
    (s : State H) (hs : Reachable c s) :
    (s.consumePc ≠ .notStarted → (s.workers.length : Int) = w) ∧
    (s.workers.length : Int) ≤ w ∧
    s.c.waitWorker + s.workers.count .exited = s.workers.length ∧
    (∀ a s', step s a = some s' →
      (s'.workers.length = s.workers.length ∧ (a = .startLaunchWorker → s'.c = s.c)) ∨
      (a = .startLaunchWorker ∧ s'.workers = s.workers ++ [.select] ∧
        s'.c.waitWorker = s.c.waitWorker + 1 ∧ (s.workers.length : Int) < w)) ∧
    (∀ j s', step s (.workerRecv j) = some s' →
      s.workers[j]? = some .select ∧
      ((∃ m rest, s.c.messages.buf = m :: rest ∧ s'.c.messages.buf = rest ∧
          s'.workers = s.workers.set j (.handling m) ∧ s'.started = s.started ++ [m]) ∨
        (s.c.messages.buf = [] ∧ s.c.messages.closed = true ∧ s' = s))) ∧
    (∀ i j s', step s (.readerHandoff i j) = some s' →
      ∃ m, s'.workers = s.workers.set j (.handling m) ∧ s'.started = s.started ++ [m]) ∧
    (∀ j m, s.workers[j]? = some (.handling m) →
      step s (.workerRecv j) = none ∧ step s (.workerQuit j) = none ∧
      step s (.workerCheckLen j) = none ∧ (∀ i, step s (.readerHandoff i j) = none) ∧
      (s.crashed = none → step s (.workerHandlerReturn j) =
        some { s with workers := s.workers.set j .select, handled := s.handled ++ [m] })) := by
  have hok := NewKafkaConsumer_ok hnew
  have hinv := reachable_inv hok.1 hs
  obtain ⟨acts, hacts⟩ := hs
  have hcfg := run_config hacts
  have hw : s.c.numWorker = w := by
    have := hok.2
    simp_all [init]
  refine ⟨?_, ?_, hinv.live, ?_, ?_, ?_, ?_⟩
  · intro hne
    have hl := hinv.launch
    have hst := hinv.consumeStart.mpr hne
    rw [← hw]
    revert hl hst
    cases s.startPc <;> simp [StartPc.launched]
  · have hl := hinv.launch
    have hn := hinv.numWorker
    rw [← hw]
    revert hl
    cases s.startPc <;> simp <;> intros <;> simp_all <;> omega
  · intro a s' h
    rcases step_workers h with h1 | ⟨h1, h2, h3, i, hpc, hi⟩
    · exact Or.inl h1
    · refine Or.inr ⟨h1, h2, h3, ?_⟩
      have hl := hinv.launch
      rw [hpc] at hl
      simp only at hl
      rw [hl.1, ← hw]
      exact hi
  · intro j s' h
    unfold step at h
    split at h
    · simp at h
    · simp only [workerStep] at h
      split at h
      · rename_i hj
        refine ⟨hj, ?_⟩
        split at h
        · rename_i m rest hb
          simp at h
          subst h
          exact Or.inl ⟨m, rest, hb, rfl, rfl, rfl⟩
        · rename_i hb
          split at h
          · rename_i hcl
            simp at h
            exact Or.inr ⟨hb, hcl, h.symm⟩
          · simp at h
      · simp at h
  · intro i j s' h
    unfold step at h
    split at h
    · simp at h
    · simp only [readerStep] at h
      split at h
      · split at h
        · rename_i m hm
          split at h
          · simp at h
            subst h
            exact ⟨m, rfl, rfl⟩
          · simp at h
        · simp at h
      · simp at h
  · intro j m hj
    refine ⟨?_, ?_, ?_, ?_, ?_⟩
    · simp [step, workerStep, hj]
    · simp [step, workerStep, hj]
    · simp [step, workerStep, hj]
    · intro i
      unfold step
      split
      · rfl
      · simp only [readerStep]
        split
        · rename_i r hr hj'
          rw [hj] at hj'
          simp at hj'
        · rfl
    · intro hc
      simp [step, hc, workerStep, hj]

/-- C20 witness: in the scenario, with five records buffered, there are two workers and two
units registered with the wait group; the receive of worker 0 dequeues record 1 and invokes
the handler on it. -/
theorem workers_launched_and_invoke_handler_witness :
    ∃ s s' : State Unit, Reachable scenarioConsumer s ∧ (s.workers.length : Int) = 2 ∧
      s.c.waitWorker + s.workers.count .exited = s.workers.length ∧
      step s (.workerRecv 0) = some s' ∧
      s'.workers = s.workers.set 0 (.handling (scenarioMsg 1)) ∧
      s'.started = s.started ++ [scenarioMsg 1] := by
  have hnew : NewKafkaConsumer 1000000 ["broker:9092"] "group" ["orders"] () 2 =
      .ok scenarioConsumer := rfl
  have e : (run (init scenarioConsumer) scenarioBefore).map
      (fun s => (s.consumePc, s.c.messages.buf.head?, (step s (.workerRecv 0)).isSome)) =
      some (.inSession, some (scenarioMsg 1), true) := rfl
  have i : (run (init scenarioConsumer) scenarioBefore).isSome = true := rfl
  obtain ⟨s, hs⟩ := Option.isSome_iff_exists.mp i
  have p := map_of_eq_some hs e
  simp only [Prod.mk.injEq] at p
  obtain ⟨s', hs'⟩ := Option.isSome_iff_exists.mp p.2.2
  have h := workers_launched_and_invoke_handler 1000000 ["broker:9092"] "group" ["orders"] () 2
    scenarioConsumer hnew s ⟨_, hs⟩
  refine ⟨s, s', ⟨_, hs⟩, h.1 (by rw [p.1]; simp), h.2.2.1, hs', ?_⟩
  rcases (h.2.2.2.2.1 0 s' hs').2 with ⟨m, rest, hb, _, hw, hst⟩ | ⟨hb, _, _⟩
  · have hm : m = scenarioMsg 1 := by
      have := p.2.1
      rw [hb] at this
      simpa using this
    subst hm
    exact ⟨hw, hst⟩
  · have := p.2.1
    rw [hb] at this
    simp at this

/-! ## C21: the consume loop -/

/-- C21 (the consume loop retries until cancelled).  In every reachable state: a return of
`Consume`, with or without an error and with or without a session, leads to the check of the
consume context of line 98 (an error is logged and has no other effect).  At the check the
loop takes one step, which ends the loop if the context is cancelled and goes on to line 102
otherwise; from there the loop calls `Consume` again.  The loop ends by no other step than
the check with the context cancelled. -/
theorem consume_loop_retries (limit : Nat) (brokers : List String) (groupId : String)
    (topics : List String) (handler : H) (w : Int) (c : KafkaConsumer H)
    (hnew : NewKafkaConsumer limit brokers groupId topics handler w = .ok c)
    (s : State H) (hs : Reachable c s) :
    (∀ s', step s .consumeFail = some s' →
      s.consumePc = .joining ∧ s'.consumePc = .check ∧
      s'.errors = s.errors ++ ["Error from consumer"] ∧ s'.ctxCancelled = s.ctxCancelled) ∧
    (∀ failed s', step s (.consumeReturn failed) = some s' →
      s.consumePc = .inSession ∧ s'.consumePc = .check ∧
      s'.errors = (if failed then s.errors ++ ["Error from consumer"] else s.errors) ∧
      s'.ctxCancelled = s.ctxCancelled) ∧
    (s.consumePc = .check → s.crashed = none →
      ∃ s', step s .consumeCheck = some s' ∧ s'.crashed = none ∧
        s'.errors = s.errors ∧
        ((s.ctxCancelled = true ∧ s'.consumePc = .done) ∨
          (s.ctxCancelled = false ∧ s'.consumePc = .realloc))) ∧
    (s.consumePc = .realloc → s.crashed = none →
      ∃ s', step s .consumeRealloc = some s' ∧ s'.consumePc = .joining) ∧
    (∀ a s', step s a = some s' → s'.consumePc = .done → s.consumePc ≠ .done →
      a = .consumeCheck ∧ s.consumePc = .check ∧ s.ctxCancelled = true) := by
  have hinv := reachable_inv (NewKafkaConsumer_ok hnew).1 hs
  refine ⟨?_, ?_, ?_, ?_, ?_⟩
  · intro s' h
    unfold step at h
    split at h
    · simp at h
    · simp only [consumeStep] at h
      split at h
      · rename_i hpc
        simp at h
        subst h
        exact ⟨hpc, rfl, rfl, rfl⟩
      · simp at h
  · intro failed s' h
    unfold step at h
    split at h
    · simp at h
    · simp only [consumeStep] at h
      split at h
      · rename_i hpc
        split at h
        · simp at h
          subst h
          exact ⟨hpc, rfl, rfl, rfl⟩
        · simp at h
      · simp at h
  · intro hpc hc
    have hw : s.c.waitConsume ≠ 0 := by
      intro h0
      have := hinv.wgConsume.mp h0
      rw [hpc] at this
      simp at this
    cases hx : s.ctxCancelled with
    | true =>
      refine ⟨{ s with c := { s.c with waitConsume := s.c.waitConsume - 1 },
                       consumePc := .done }, ?_, hc, rfl, Or.inl ⟨rfl, rfl⟩⟩
      simp [step, hc, consumeStep, hpc, hx, hw]
    | false =>
      refine ⟨{ s with consumePc := .realloc }, ?_, hc, rfl, Or.inr ⟨rfl, rfl⟩⟩
      simp [step, hc, consumeStep, hpc, hx]
  · intro hpc hc
    refine ⟨{ s with c := { s.c with ready := s.readyChans.length },
                     readyChans := s.readyChans ++ [false], consumePc := .joining }, ?_, rfl⟩
    simp [step, hc, consumeStep, hpc]
  · intro a s' h hd hnd
    rcases (step_consume_source h).1 hd with h1 | h1
    · exact absurd h1 hnd
    · exact h1

/-- C21 witness: in the scenario the first `Consume` call returns an error, the error is
logged, the context is not cancelled and the loop is inside `Consume` again. -/
theorem consume_loop_retries_witness :
    ∃ s : State Unit, Reachable scenarioConsumer s ∧ s.consumePc = .joining ∧
      s.errors = ["Error from consumer"] ∧ s.ctxCancelled = false ∧
      (∀ a s', step s a = some s' → s'.consumePc ≠ .done) := by
  have hnew : NewKafkaConsumer 1000000 ["broker:9092"] "group" ["orders"] () 2 =
      .ok scenarioConsumer := rfl
  have e : (run (init scenarioConsumer) consumeRetry).map
      (fun s => (s.consumePc, s.errors, s.ctxCancelled)) =
      some (.joining, ["Error from consumer"], false) := rfl
  have i : (run (init scenarioConsumer) consumeRetry).isSome = true := rfl
  obtain ⟨s, hs⟩ := Option.isSome_iff_exists.mp i
  have p := map_of_eq_some hs e
  simp only [Prod.mk.injEq] at p
  have h := consume_loop_retries 1000000 ["broker:9092"] "group" ["orders"] () 2
    scenarioConsumer hnew s ⟨_, hs⟩
  refine ⟨s, ⟨_, hs⟩, p.1, p.2.1, p.2.2, ?_⟩
  intro a s' hst hd
  have h5 := (h.2.2.2.2 a s' hst hd (by rw [p.1]; simp)).2.1
  rw [p.1] at h5
  simp at h5

/-! ## C22: the ready signal -/

/-- C22 (one-shot ready signal).  In every reachable state, with one `Setup` per `Consume`
call: whenever a `Consume` call has not set up its session yet, the ready channel of the
consumer is open.  So every `Setup` finds the ready channel open and closes it, without the
panic of a second `close`; a channel that is closed is not the subject of a later `Setup`,
because a `Consume` call is entered only from the launch in `Start` or from line 102, and
line 102 is reached only from the check of line 98 with the context not cancelled and
replaces the ready channel of the consumer by a newly allocated open one. -/
theorem ready_signal_one_shot (limit : Nat) (brokers : List String) (groupId : String)
    (topics : List String) (handler : H) (w : Int) (c : KafkaConsumer H)
    (hnew : NewKafkaConsumer limit brokers groupId topics handler w = .ok c)
    (s : State H) (hs : Reachable c s) :
    (s.consumePc = .notStarted ∨ s.consumePc = .joining →
      s.readyChans[s.c.ready]? = some false) ∧
    (∀ claims s', step s (.sessionSetup claims) = some s' →
      s.consumePc = .joining ∧ s.readyChans[s.c.ready]? = some false ∧
      s'.readyChans = s.readyChans.set s.c.ready true ∧
      s'.readyChans[s'.c.ready]? = some true ∧ s'.crashed = none ∧
      s'.consumePc = .inSession ∧
      ∀ claims', step s' (.sessionSetup claims') = none) ∧
    (∀ s', step s .consumeRealloc = some s' →
      s.consumePc = .realloc ∧ s'.c.ready = s.readyChans.length ∧
      s.readyChans[s'.c.ready]? = none ∧ s'.readyChans = s.readyChans ++ [false] ∧
      s'.readyChans[s'.c.ready]? = some false ∧ s'.consumePc = .joining) ∧
    (∀ a s', step s a = some s' → s'.consumePc = .joining → s.consumePc ≠ .joining →
      (a = .startLaunchConsume ∧ s.startPc = .launchConsume) ∨
      (a = .consumeRealloc ∧ s.consumePc = .realloc)) ∧
    (∀ a s', step s a = some s' → s'.consumePc = .realloc → s.consumePc ≠ .realloc →
      a = .consumeCheck ∧ s.consumePc = .check ∧ s.ctxCancelled = false) := by
  have hc := (NewKafkaConsumer_ok hnew).1
  have hinv := reachable_inv hc hs
  obtain ⟨acts, hacts⟩ := hs
  have hready := ready_unset_run (inv_init hc) (by simp [init, hc.ready]) hacts
  refine ⟨hready, ?_, ?_, ?_, ?_⟩
  · intro claims s' h
    unfold step at h
    split at h
    · simp at h
    · rename_i hcr
      simp only [consumeStep] at h
      split at h
      · rename_i hpc
        have hr := hready (Or.inr hpc)
        have hlt : s.c.ready < s.readyChans.length := by
          rcases Nat.lt_or_ge s.c.ready s.readyChans.length with h1 | h1
          · exact h1
          · rw [List.getElem?_eq_none h1] at hr
            simp at hr
        rw [hr] at h
        simp at h
        subst h
        refine ⟨hpc, hr, rfl, ?_, ?_, rfl, ?_⟩
        · simp [List.getElem?_set, hlt]
        · revert hcr
          cases s.crashed <;> simp
        · intro claims'
          simp [step, consumeStep]
      · simp at h
  · intro s' h
    unfold step at h
    split at h
    · simp at h
    · simp only [consumeStep] at h
      split at h
      · rename_i hpc
        simp at h
        subst h
        refine ⟨hpc, rfl, ?_, rfl, ?_, rfl⟩
        · simp
        · simp
      · simp at h
  · intro a s' h hj hnj
    rcases (step_consume_source h).2.1 hj with h1 | h1 | h1
    · exact absurd h1 hnj
    · exact Or.inl h1
    · exact Or.inr h1
  · intro a s' h hj hnj
    rcases (step_consume_source h).2.2 hj with h1 | h1
    · exact absurd h1 hnj
    · exact h1

/-- C22 witness: in the scenario the second `Consume` call runs with the second ready channel,
which is open; `Setup` closes it, and the first one is still open. -/
theorem ready_signal_one_shot_witness :
    ∃ s s' : State Unit, Reachable scenarioConsumer s ∧ s.c.ready = 1 ∧
      s.readyChans = [false, false] ∧ step s (.sessionSetup []) = some s' ∧
      s'.readyChans = [false, true] ∧ s'.crashed = none := by
  have hnew : NewKafkaConsumer 1000000 ["broker:9092"] "group" ["orders"] () 2 =
      .ok scenarioConsumer := rfl
  have e : (run (init scenarioConsumer) consumeRetry).map
      (fun s => (s.c.ready, s.readyChans, (step s (.sessionSetup [])).isSome)) =
      some (1, [false, false], true) := rfl
  have i : (run (init scenarioConsumer) consumeRetry).isSome = true := rfl
  obtain ⟨s, hs⟩ := Option.isSome_iff_exists.mp i
  have p := map_of_eq_some hs e
  simp only [Prod.mk.injEq] at p
  obtain ⟨s', hs'⟩ := Option.isSome_iff_exists.mp p.2.2
  have h := (ready_signal_one_shot 1000000 ["broker:9092"] "group" ["orders"] () 2
    scenarioConsumer hnew s ⟨_, hs⟩).2.1 [] s' hs'
  refine ⟨s, s', ⟨_, hs⟩, p.1, p.2.1, hs', ?_, h.2.2.2.2.1⟩
  rw [h.2.2.1, p.1, p.2.1]
  rfl

/-! ## C23: a handler that panics -/

/-- C23 (handler faults are not isolated).  In every reachable state in which worker `j` runs
the handler on `m`: if the handler panics, nothing recovers the panic and the process stops
with the fault.  The record is not counted as handled, worker `j` is still at the invocation,
and no goroutine takes a further step; in particular worker `j` receives no further record. -/
theorem handler_panic_not_isolated (limit : Nat) (brokers : List String) (groupId : String)
    (topics : List String) (handler : H) (w : Int) (c : KafkaConsumer H)
    (hnew : NewKafkaConsumer limit brokers groupId topics handler w = .ok c)
    (s : State H) (hs : Reachable c s) (j : Nat) (m : ConsumerMessage)
    (hj : s.workers[j]? = some (.handling m)) (hrun : s.crashed = none) :
    ∃ s', step s (.workerHandlerPanic j) = some s' ∧
      s'.crashed = some .handlerPanic ∧ s'.workers[j]? = some (.handling m) ∧
      s'.handled = s.handled ∧ s'.started = s.started ∧ s'.c = s.c ∧
      step s' (.workerRecv j) = none ∧ step s' (.workerHandlerReturn j) = none ∧
      ∀ a, step s' a = none := by
  have _hc := (NewKafkaConsumer_ok hnew).1
  have _hr := hs
  refine ⟨{ s with crashed := some .handlerPanic }, ?_, rfl, hj, rfl, rfl, rfl,
    step_crashed rfl _, step_crashed rfl _, fun a => step_crashed rfl a⟩
  simp [step, hrun, workerStep, hj]

/-- C23 witness: in the scenario worker 0 dequeues record 1 and the handler panics on it; the
records 2 to 5 stay in the queue. -/
theorem handler_panic_not_isolated_witness :
    ∃ s s' : State Unit, Reachable scenarioConsumer s ∧
      s.workers[0]? = some (.handling (scenarioMsg 1)) ∧
      step s (.workerHandlerPanic 0) = some s' ∧ s'.crashed = some .handlerPanic ∧
      s'.handled = [] ∧ s'.c.messages.buf.length = 4 ∧ ∀ a, step s' a = none := by
  have hnew : NewKafkaConsumer 1000000 ["broker:9092"] "group" ["orders"] () 2 =
      .ok scenarioConsumer := rfl
  have e : (run (init scenarioConsumer) (scenarioBefore ++ [.workerRecv 0])).map
      (fun s => (s.workers[0]?, s.crashed, s.handled, s.c.messages.buf.length)) =
      some (some (.handling (scenarioMsg 1)), none, [], 4) := rfl
  have i : (run (init scenarioConsumer) (scenarioBefore ++ [.workerRecv 0])).isSome = true :=
    rfl
  obtain ⟨s, hs⟩ := Option.isSome_iff_exists.mp i
  have p := map_of_eq_some hs e
  simp only [Prod.mk.injEq] at p
  obtain ⟨s', h1, h2, _, h4, _, h6, _, _, h9⟩ := handler_panic_not_isolated 1000000
    ["broker:9092"] "group" ["orders"] () 2 scenarioConsumer hnew s ⟨_, hs⟩ 0 (scenarioMsg 1)
    p.1 p.2.1
  exact ⟨s, s', ⟨_, hs⟩, p.1, h1, h2, by rw [h4, p.2.2.1], by rw [h6, p.2.2.2], h9⟩

end Claims

end Consumer

/-! ## Properties of the B3 propagator -/

namespace Tracing

theorem find?_filter_ne {hs : Headers} {k k' : List Nat} (h : k ≠ k') :
    (hs.filter (fun x => x.1 ≠ k')).find? (fun x => x.1 = k) = hs.find? (fun x => x.1 = k) := by
  induction hs with
  | nil => rfl
  | cons x xs ih =>
    by_cases h1 : x.1 = k'
    · have h2 : x.1 ≠ k := fun e => h (e.symm.trans h1)
      rw [List.filter_cons_of_neg (by simpa using h1),
        List.find?_cons_of_neg _ (by simpa using h2)]
      exact ih
    · rw [List.filter_cons_of_pos (by simpa using h1)]
      by_cases h2 : x.1 = k
      · rw [List.find?_cons_of_pos _ (by simpa using h2),
          List.find?_cons_of_pos _ (by simpa using h2)]
      · rw [List.find?_cons_of_neg _ (by simpa using h2),
          List.find?_cons_of_neg _ (by simpa using h2)]
        exact ih

theorem find?_filter_same {hs : Headers} {k : List Nat} :
    (hs.filter (fun x => x.1 ≠ k)).find? (fun x => x.1 = k) = none := by
  rw [List.find?_eq_none]
  intro x hx
  simp only [List.mem_filter] at hx
  simpa using hx.2

theorem carrierGet_set_same (hs : Headers) (k v : List Nat) :
    carrierGet (carrierSet hs k v) k = v := by
  unfold carrierGet carrierSet
  rw [List.find?_append, find?_filter_same]
  simp

theorem carrierGet_set_other (hs : Headers) {k k' : List Nat} (v : List Nat) (h : k ≠ k') :
    carrierGet (carrierSet hs k' v) k = carrierGet hs k := by
  unfold carrierGet carrierSet
  rw [List.find?_append, find?_filter_ne h]
  cases hf : hs.find? (fun x => x.1 = k) with
  | some x => simp
  | none =>
    have : ¬ k' = k := fun e => h e.symm
    simp [List.find?_cons, this]

theorem unhex_hexDigit {d : Nat} (h : d < 16) : unhex (hexDigit d) = d := by
  unfold unhex hexDigit
  split_ifs <;> omega

theorem isHex_hexDigit {d : Nat} (h : d < 16) : isHex (hexDigit d) = true := by
  unfold isHex hexDigit
  split_ifs <;> simp <;> omega

theorem ofDigits_append_zeros (l : List Nat) (k : Nat) :
    Nat.ofDigits 16 (l ++ List.replicate k 0) = Nat.ofDigits 16 l := by
  rw [Nat.ofDigits_append]
  have : Nat.ofDigits 16 (List.replicate k 0) = 0 := by
    induction k with
    | zero => rfl
    | succ n ih => simp [List.replicate_succ, Nat.ofDigits_cons, ih]
  rw [this]
  simp

theorem hexDecode_hexEncode (width n : Nat) (h : n ≠ 0) :
    hexDecode (hexEncode width n) = some n := by
  have hd : ∀ d ∈ Nat.digits 16 n, d < 16 := fun d hd => Nat.digits_lt_base (by norm_num) hd
  have hne : Nat.digits 16 n ≠ [] := by
    rw [Ne, Nat.digits_eq_nil_iff_eq_zero]
    exact h
  unfold hexDecode hexEncode
  rw [if_pos]
  · congr 1
    rw [List.reverse_append, List.reverse_reverse, List.reverse_replicate, List.map_append,
      List.map_map, List.map_replicate]
    have h1 : List.map (unhex ∘ hexDigit) (Nat.digits 16 n) = Nat.digits 16 n := by
      conv_rhs => rw [← List.map_id (Nat.digits 16 n)]
      apply List.map_congr_left
      intro d hd'
      simp [unhex_hexDigit (hd d hd')]
    rw [h1]
    have h2 : unhex 48 = 0 := rfl
    rw [h2, ofDigits_append_zeros, Nat.ofDigits_digits]
  · constructor
    · simp [hne]
    · simp only [List.all_append, List.all_replicate, List.all_reverse, List.all_map,
        Bool.and_eq_true]
      constructor
      · simp [isHex]
      · rw [List.all_eq_true]
        intro d hd'
        exact isHex_hexDigit (hd d hd')

theorem b3_round_trip (sc : SpanContext) (hs : Headers) (h : sc.IsValid = true) :
    b3Extract none (b3Inject (some sc) hs) = some sc := by
  have hv := h
  simp only [SpanContext.IsValid, Bool.and_eq_true, bne_iff_ne, ne_eq] at hv
  have k1 : bytes "x-b3-traceid" ≠ bytes "x-b3-spanid" := by decide
  have k2 : bytes "x-b3-traceid" ≠ bytes "x-b3-sampled" := by decide
  have k3 : bytes "x-b3-spanid" ≠ bytes "x-b3-sampled" := by decide
  have g1 : carrierGet (b3Inject (some sc) hs) (bytes "x-b3-traceid") =
      hexEncode 32 sc.TraceID := by
    simp only [b3Inject, SpanContextFromContext, h, if_true]
    rw [carrierGet_set_other _ _ k2, carrierGet_set_other _ _ k1, carrierGet_set_same]
  have g2 : carrierGet (b3Inject (some sc) hs) (bytes "x-b3-spanid") =
      hexEncode 16 sc.SpanID := by
    simp only [b3Inject, SpanContextFromContext, h, if_true]
    rw [carrierGet_set_other _ _ k3, carrierGet_set_same]
  have g3 : carrierGet (b3Inject (some sc) hs) (bytes "x-b3-sampled") =
      bytes (if sc.Sampled then "1" else "0") := by
    simp only [b3Inject, SpanContextFromContext]
    rw [carrierGet_set_same]
  unfold b3Extract
  rw [g1, g2, g3, hexDecode_hexEncode _ _ hv.1, hexDecode_hexEncode _ _ hv.2]
  have e : decide (bytes (if sc.Sampled then "1" else "0") = bytes "1") = sc.Sampled := by
    cases sc.Sampled <;> decide
  simp only [e]
  rw [if_pos h]

theorem sdkStart_child (tracer : String) (parent : Context) (name : String)
    (h : (SpanContextFromContext parent).IsValid = true) :
    (sdkStart tracer parent name).TraceID = (SpanContextFromContext parent).TraceID ∧
    (sdkStart tracer parent name).IsValid = true := by
  simp only [sdkStart, h, if_true, true_and]
  simp only [SpanContext.IsValid, Bool.and_eq_true, bne_iff_ne, ne_eq] at h ⊢
  exact ⟨h.1, by omega⟩

theorem b3Otel_lawful : b3Otel.Lawful := by
  constructor
  · intro tracer parent name h
    exact sdkStart_child tracer parent name h
  · intro sc hs h
    show (SpanContextFromContext (b3Extract none (b3Inject (some sc) hs))).TraceID = sc.TraceID ∧
      (SpanContextFromContext (b3Extract none (b3Inject (some sc) hs))).IsValid = true
    rw [b3_round_trip sc hs h]
    exact ⟨rfl, h⟩

end Tracing

/-! ## Properties of the producer -/

namespace Producer

open Tracing

theorem send_open {p : AsyncProducer} (m : ProducerMessage) (h : p.closed = false) :
    send p m = .ok { p with input := p.input ++ [m] } := by
  simp [send, h]

theorem collector_inv_start {α : Type} (body : α → Except Consumer.Fault LogEntry) :
    Collector.Inv body (Collector.start α) :=
  ⟨⟨[], by simp [Collector.start]⟩, by simp [Collector.start], by simp [Collector.start]⟩

theorem collector_inv_step {α : Type} {body : α → Except Consumer.Fault LogEntry}
    {s s' : Collector α} {a : CollectorAction α} (hinv : Collector.Inv body s)
    (h : collectorStep body s a = some s') : Collector.Inv body s' := by
  obtain ⟨⟨done, hd, hl⟩, hx, hc⟩ := hinv
  cases a with
  | deliver x =>
    simp only [collectorStep] at h
    split at h
    · simp at h
    · rename_i hcl
      simp at h
      subst h
      refine ⟨⟨done, by simp [hd], hl⟩, ?_, ?_⟩
      · intro he
        exact absurd (hx he).1 hcl
      · intro f hf
        obtain ⟨y, hy, hb⟩ := hc f hf
        exact ⟨y, by simp [hy], hb⟩
  | close =>
    simp only [collectorStep] at h
    split at h
    · simp at h
    · simp at h
      subst h
      exact ⟨⟨done, hd, hl⟩, fun he => ⟨rfl, (hx he).2⟩, hc⟩
  | iterate =>
    simp only [collectorStep] at h
    split at h
    · simp at h
    · rename_i hne
      simp only [not_or, Bool.not_eq_true, Option.not_isSome, Option.isNone_iff_eq_none] at hne
      split at h
      · rename_i x rest hp
        split at h
        · rename_i e hb
          simp at h
          subst h
          refine ⟨⟨done ++ [x], by simp [hd, hp], ?_⟩, ?_, ?_⟩
          · intro hcr
            simp [hl hcr, hb]
          · intro he
            simp [hne.1] at he
          · intro f hf
            simp [hne.2] at hf
        · rename_i f hb
          simp at h
          subst h
          refine ⟨⟨done ++ [x], by simp [hd, hp], ?_⟩, ?_, ?_⟩
          · intro hcr
            simp at hcr
          · intro he
            simp [hne.1] at he
          · intro g hg
            simp at hg
            subst hg
            exact ⟨x, by simp [hd, hp], hb⟩
      · rename_i hp
        split at h
        · rename_i hcl
          simp at h
          subst h
          exact ⟨⟨done, hd, hl⟩, fun _ => ⟨hcl, hp⟩, hc⟩
        · simp at h

theorem collector_inv_run {α : Type} {body : α → Except Consumer.Fault LogEntry}
    {acts : List (CollectorAction α)} :
    ∀ {s s' : Collector α}, Collector.Inv body s → collectorRun body s acts = some s' →
      Collector.Inv body s' := by
  induction acts with
  | nil =>
    intro s s' hinv h
    simp [collectorRun] at h
    exact h ▸ hinv
  | cons a rest ih =>
    intro s s' hinv h
    simp only [collectorRun] at h
    cases hs : collectorStep body s a with
    | none => simp [hs] at h
    | some t =>
      simp [hs] at h
      exact ih (collector_inv_step hinv hs) h

/-- On a closed stream the loop of a collector logs the pending results and ends. -/
theorem collector_drain {α : Type} {body : α → Except Consumer.Fault LogEntry} :
    ∀ (pend : List α) (s : Collector α), s.pending = pend → s.exited = false →
      s.crashed = none → s.closed = true → (∀ x ∈ pend, ∃ e, body x = .ok e) →
      ∃ t, collectorRun body s (List.replicate (pend.length + 1) .iterate) = some t ∧
        t.exited = true ∧ t.delivered = s.delivered ∧ t.crashed = none ∧
        t.log.map Except.ok = s.log.map Except.ok ++ pend.map body := by
  intro pend
  induction pend with
  | nil =>
    intro s hp hx hc hcl _
    refine ⟨{ s with exited := true }, ?_, rfl, rfl, hc, by simp⟩
    simp [collectorRun, collectorStep, hp, hx, hc, hcl]
  | cons x rest ih =>
    intro s hp hx hc hcl hb
    obtain ⟨e, he⟩ := hb x (by simp)
    obtain ⟨t, ht, h1, h2, h3, h4⟩ := ih { s with pending := rest, log := s.log ++ [e] } rfl hx hc
      hcl (fun y hy => hb y (by simp [hy]))
    refine ⟨t, ?_, h1, h2, h3, ?_⟩
    · rw [List.length_cons, List.replicate_succ, collectorRun]
      simp only [collectorStep, hx, hc, hp, he]
      simpa [hx, hc] using ht
    · rw [h4]
      simp [he]

/-- What the invariant gives for a collector whose results all have a log entry. -/
theorem collector_correct {α : Type} {body : α → Except Consumer.Fault LogEntry}
    {s : Collector α} (hinv : Collector.Inv body s)
    (hb : ∀ x ∈ s.delivered, ∃ e, body x = .ok e) :
    s.crashed = none ∧
    (∃ done, s.delivered = done ++ s.pending ∧ s.log.map Except.ok = done.map body) ∧
    (s.exited = true → s.closed = true ∧ s.pending = [] ∧
      s.log.map Except.ok = s.delivered.map body) ∧
    (s.closed = false → s.pending = [] → collectorStep body s .iterate = none) ∧
    (s.closed = true → s.exited = false →
      ∃ t, collectorRun body s (List.replicate (s.pending.length + 1) .iterate) = some t ∧
        t.exited = true ∧ t.delivered = s.delivered ∧
        t.log.map Except.ok = s.delivered.map body) := by
  obtain ⟨⟨done, hd, hl⟩, hx, hc⟩ := hinv
  have hcr : s.crashed = none := by
    cases h : s.crashed with
    | none => rfl
    | some f =>
      obtain ⟨x, hx', hf⟩ := hc f h
      obtain ⟨e, he⟩ := hb x hx'
      rw [he] at hf
      cases hf
  refine ⟨hcr, ⟨done, hd, hl hcr⟩, ?_, ?_, ?_⟩
  · intro he
    obtain ⟨h1, h2⟩ := hx he
    refine ⟨h1, h2, ?_⟩
    rw [hl hcr, hd, h2]
    simp
  · intro hcl hp
    simp [collectorStep, hp, hcl]
  · intro hcl he
    obtain ⟨t, ht, h1, h2, _, h4⟩ := collector_drain s.pending s rfl he hcr hcl
      (fun x hx' => hb x (by rw [hd]; simp [hx']))
    refine ⟨t, ht, h1, h2, ?_⟩
    rw [h4, hl hcr, hd]
    simp

/-! ## C15: Produce -/

/-- C15 (`Produce` submits one record).  On a producer whose broker client is not shut down,
`Produce` appends exactly one record to the input of the broker client and changes nothing
else.  The topic of the record is `topic`, its key encodes to exactly the bytes of `key` and
its value to exactly the bytes of `value`, for arbitrary bytes; these are the key and the value
of the record a consumer receives.  The function has no result: what the call yields is the
producer. -/
theorem Produce_submits_one_record (now : Nat) (p : kafkaProducerImpl) (topic : String)
    (key value : List Nat) (hopen : p.producer.closed = false) :
    ∃ m : ProducerMessage,
      Produce now p topic key value =
        .ok { producer := { p.producer with input := p.producer.input ++ [m] } } ∧
      m.Topic = topic ∧ m.Key.map Encoder.Encode = some key ∧
      m.Value.map Encoder.Encode = some value ∧ m.Headers = [] ∧ m.Timestamp = now ∧
      ∀ partition offset, (consumed m partition offset).Topic = topic ∧
        (consumed m partition offset).Key = key ∧ (consumed m partition offset).Value = value := by
  refine ⟨newMessage now topic key value, ?_, rfl, rfl, rfl, rfl, rfl, fun _ _ => ⟨rfl, rfl, rfl⟩⟩
  simp [Produce, send_open _ hopen]

/-- C15 witness: `Produce("orders", "k1", []byte("v1"))` on a new producer submits the record
with topic `orders`, key `k1` and value `v1`. -/
theorem Produce_submits_one_record_witness :
    ∃ m : ProducerMessage,
      Produce 7 { producer := { input := [], closed := false } } "orders" (bytes "k1")
        (bytes "v1") = .ok { producer := { input := [m], closed := false } } ∧
      m.Topic = "orders" ∧ m.Key.map Encoder.Encode = some [107, 49] ∧
      m.Value.map Encoder.Encode = some [118, 49] := by
  obtain ⟨m, h1, h2, h3, h4, _⟩ := Produce_submits_one_record 7
    { producer := { input := [], closed := false } } "orders" (bytes "k1") (bytes "v1") rfl
  exact ⟨m, h1, h2, h3, h4⟩

/-! ## C16: ProduceCtx -/

/-- C16 (effects of `ProduceCtx`).  On a producer whose broker client is not shut down, for
every tracer and propagator, `ProduceCtx` has exactly four effects, in this order: it starts a
span under the context given, injects the context of that span into the headers of the record,
submits the record to the input of the broker client, and ends the span.  The record submitted
is the one `Produce` submits for the same arguments, with the headers the propagator wrote:
topic, key, value and timestamp are the same.  The span is ended once, after the submission. -/
theorem ProduceCtx_effect_order (o : Otel) (now : Nat) (p : kafkaProducerImpl) (ctx : Context)
    (topic : String) (key value : List Nat) (hopen : p.producer.closed = false) :
    ∃ (span : SpanContext) (msg m : ProducerMessage),
      span = o.Start ("kafka:" ++ topic) ctx ("produce:kafka:" ++ topic) ∧
      ProduceCtx o now p ctx topic key value =
        (.ok { producer := { p.producer with input := p.producer.input ++ [msg] } },
          [.startSpan ("kafka:" ++ topic) ctx ("produce:kafka:" ++ topic), .inject span,
           .submit msg, .endSpan span]) ∧
      Produce now p topic key value =
        .ok { producer := { p.producer with input := p.producer.input ++ [m] } } ∧
      msg = { m with Headers := o.Inject (some span) [] } ∧
      msg.Topic = m.Topic ∧ msg.Key = m.Key ∧ msg.Value = m.Value ∧
      msg.Topic = topic ∧ msg.Key.map Encoder.Encode = some key ∧
      msg.Value.map Encoder.Encode = some value ∧
      (ProduceCtx o now p ctx topic key value).2.count (.endSpan span) = 1 := by
  refine ⟨o.Start ("kafka:" ++ topic) ctx ("produce:kafka:" ++ topic),
    { newMessage now topic key value with
      Headers := o.Inject (some (o.Start ("kafka:" ++ topic) ctx ("produce:kafka:" ++ topic)))
        [] },
    newMessage now topic key value, rfl, ?_, ?_, rfl, rfl, rfl, rfl, rfl, rfl, rfl, ?_⟩
  · simp only [ProduceCtx, send_open _ hopen]
    rfl
  · simp [Produce, send_open _ hopen]
  · simp only [ProduceCtx, send_open _ hopen]
    simp [List.count_cons]

/-- C16 witness: `ProduceCtx` on a new producer, with the B3 propagator and under the span
`(255, 7)`; the record carries the three B3 headers. -/
theorem ProduceCtx_effect_order_witness :
    ∃ (span : SpanContext) (msg : ProducerMessage),
      ProduceCtx b3Otel 7 { producer := { input := [], closed := false } }
        (some { TraceID := 255, SpanID := 7, Sampled := true }) "orders" (bytes "k1")
        (bytes "v1") =
        (.ok { producer := { input := [msg], closed := false } },
          [.startSpan "kafka:orders" (some { TraceID := 255, SpanID := 7, Sampled := true })
             "produce:kafka:orders", .inject span, .submit msg, .endSpan span]) ∧
      span = { TraceID := 255, SpanID := 8, Sampled := true } ∧
      msg.Headers.map (fun h => h.1) =
        [bytes "x-b3-traceid", bytes "x-b3-spanid", bytes "x-b3-sampled"] := by
  obtain ⟨span, msg, m, h1, h2, _, h4, _⟩ := ProduceCtx_effect_order b3Otel 7
    { producer := { input := [], closed := false } }
    (some { TraceID := 255, SpanID := 7, Sampled := true }) "orders" (bytes "k1") (bytes "v1") rfl
  have hsp : span = { TraceID := 255, SpanID := 8, Sampled := true } := h1.trans rfl
  have hk : ("kafka:" ++ "orders" : String) = "kafka:orders" := by decide
  have hn : ("produce:kafka:" ++ "orders" : String) = "produce:kafka:orders" := by decide
  refine ⟨span, msg, ?_, hsp, ?_⟩
  · rw [h2, hk, hn]
    rfl
  · rw [h4, hsp]
    have k1 : bytes "x-b3-traceid" ≠ bytes "x-b3-spanid" := by decide
    have k2 : bytes "x-b3-traceid" ≠ bytes "x-b3-sampled" := by decide
    have k3 : bytes "x-b3-spanid" ≠ bytes "x-b3-sampled" := by decide
    simp [b3Otel, b3Inject, SpanContextFromContext, SpanContext.IsValid, carrierSet, k1, k2, k3]

/-! ## C17: the trace identifier of a record -/

/-- C17, as the code has it (trace propagation round trip under the contracts of the tracing
objects).  Let the tracer and the propagator keep their contracts: a span started under a
valid span belongs to the same trace, and from the headers written for a valid span context
the propagator extracts a span context of the same trace.  Then for every context that
carries a valid span, on a producer whose broker client is not shut down, `ProduceCtx` submits
a record from whose headers, as a consumer receives them, the propagator extracts a span
context with the trace identifier of the context given; the span and the context
`ExtractSpanAndTracingContext` returns for the record received have the same trace
identifier. -/
theorem trace_round_trip (o : Otel) (ho : o.Lawful) (now : Nat) (p : kafkaProducerImpl)
    (ctx : Context) (topic : String) (key value : List Nat)
    (hopen : p.producer.closed = false)
    (hv : (SpanContextFromContext ctx).IsValid = true) :
    ∃ msg : ProducerMessage,
      (ProduceCtx o now p ctx topic key value).1 =
        .ok { producer := { p.producer with input := p.producer.input ++ [msg] } } ∧
      ∀ partition offset,
        (SpanContextFromContext
          (o.Extract none (consumed msg partition offset).Headers)).TraceID =
          (SpanContextFromContext ctx).TraceID ∧
        (Consumer.ExtractSpanAndTracingContext o (consumed msg partition offset)).2.TraceID =
          (SpanContextFromContext ctx).TraceID ∧
        (SpanContextFromContext
          (Consumer.ExtractSpanAndTracingContext o (consumed msg partition offset)).1).TraceID =
          (SpanContextFromContext ctx).TraceID := by
  have h1 := ho.start_child ("kafka:" ++ topic) ctx ("produce:kafka:" ++ topic) hv
  have h2 := ho.round_trip (o.Start ("kafka:" ++ topic) ctx ("produce:kafka:" ++ topic)) [] h1.2
  refine ⟨{ newMessage now topic key value with
      Headers := o.Inject (some (o.Start ("kafka:" ++ topic) ctx ("produce:kafka:" ++ topic)))
        [] }, ?_, ?_⟩
  · simp only [ProduceCtx, send_open _ hopen]
    rfl
  · intro partition offset
    have h3 := ho.start_child ("kafka:" ++ topic)
      (o.Extract none (o.Inject
        (some (o.Start ("kafka:" ++ topic) ctx ("produce:kafka:" ++ topic))) []))
      ("consume:kafka:" ++ topic) h2.2
    refine ⟨h2.1.trans h1.1, ?_, ?_⟩
    · exact h3.1.trans (h2.1.trans h1.1)
    · exact h3.1.trans (h2.1.trans h1.1)

/-- C17 witness: with the B3 propagator and the tracer of the SDK, a record produced under the
span `(255, 7)` is received with the trace identifier 255. -/
theorem trace_round_trip_witness :
    ∃ msg : ProducerMessage,
      (ProduceCtx b3Otel 7 { producer := { input := [], closed := false } }
        (some { TraceID := 255, SpanID := 7, Sampled := true }) "orders" (bytes "k1")
        (bytes "v1")).1 = .ok { producer := { input := [msg], closed := false } } ∧
      (SpanContextFromContext (b3Otel.Extract none (consumed msg 0 42).Headers)).TraceID = 255 ∧
      (Consumer.ExtractSpanAndTracingContext b3Otel (consumed msg 0 42)).2.TraceID = 255 := by
  obtain ⟨msg, h1, h2⟩ := trace_round_trip b3Otel b3Otel_lawful 7
    { producer := { input := [], closed := false } }
    (some { TraceID := 255, SpanID := 7, Sampled := true }) "orders" (bytes "k1") (bytes "v1")
    rfl rfl
  exact ⟨msg, h1, (h2 0 42).1, (h2 0 42).2.1⟩

/-- C17 as stated fails.  While no propagator is installed, `ProduceCtx` under the span
`(255, 7)` submits a record without headers, and from the record received the propagator
extracts no span context: the trace identifier is 0, not 255, also for the span that
`ExtractSpanAndTracingContext` starts. -/
theorem trace_lost_without_propagator :
    (SpanContextFromContext (some { TraceID := 255, SpanID := 7, Sampled := true })).IsValid =
      true ∧
    ∃ msg : ProducerMessage,
      (ProduceCtx noopOtel 7 { producer := { input := [], closed := false } }
        (some { TraceID := 255, SpanID := 7, Sampled := true }) "orders" (bytes "k1")
        (bytes "v1")).1 = .ok { producer := { input := [msg], closed := false } } ∧
      msg.Headers = [] ∧
      (SpanContextFromContext (noopOtel.Extract none (consumed msg 0 42).Headers)).TraceID = 0 ∧
      (Consumer.ExtractSpanAndTracingContext noopOtel (consumed msg 0 42)).2.TraceID = 0 ∧
      (SpanContextFromContext (noopOtel.Extract none (consumed msg 0 42).Headers)).TraceID ≠
        (SpanContextFromContext (some { TraceID := 255, SpanID := 7, Sampled := true })).TraceID :=
  ⟨rfl, newMessage 7 "orders" (bytes "k1") (bytes "v1"), rfl, rfl, rfl, rfl, by decide⟩

/-! ## C18: the configuration of the producer -/

/-- C18 (configuration of the producer).  For every broker list and every configuration
`sarama.NewConfig()` may return, `NewKafkaProducer` passes to `sarama.NewAsyncProducer` the
broker list and a configuration with required acks wait-for-all, snappy compression, the
round-robin partitioner, the success and the error stream enabled and a metadata timeout of
three seconds (in nanoseconds); the settings are the same for all arguments. -/
theorem NewKafkaProducer_config (NewConfig : Config)
    (NewAsyncProducer : List String → Config → Except String AsyncProducer)
    (brokers : List String) :
    (NewKafkaProducer NewConfig NewAsyncProducer brokers =
      match NewAsyncProducer brokers (producerConfig NewConfig) with
      | .error _ => .error (.fatal "Error creating kafka producer")
      | .ok producer => .ok { producer := producer }) ∧
    (producerConfig NewConfig).RequiredAcks = .WaitForAll ∧
    (producerConfig NewConfig).Compression = .CompressionSnappy ∧
    (producerConfig NewConfig).Partitioner = .NewRoundRobinPartitioner ∧
    (producerConfig NewConfig).ReturnSuccesses = true ∧
    (producerConfig NewConfig).ReturnErrors = true ∧
    (producerConfig NewConfig).MetadataTimeout = 3000000000 ∧
    (producerConfig NewConfig).MetadataTimeout = 3 * Second ∧
    (producerConfig NewConfig).ChannelBufferSize = NewConfig.ChannelBufferSize ∧
    ∀ NewConfig' : Config,
      (producerConfig NewConfig').RequiredAcks = (producerConfig NewConfig).RequiredAcks ∧
      (producerConfig NewConfig').Compression = (producerConfig NewConfig).Compression ∧
      (producerConfig NewConfig').Partitioner = (producerConfig NewConfig).Partitioner ∧
      (producerConfig NewConfig').ReturnSuccesses = (producerConfig NewConfig).ReturnSuccesses ∧
      (producerConfig NewConfig').ReturnErrors = (producerConfig NewConfig).ReturnErrors ∧
      (producerConfig NewConfig').MetadataTimeout = (producerConfig NewConfig).MetadataTimeout ∧
      (producerConfig NewConfig').Version = (producerConfig NewConfig).Version := by
  refine ⟨rfl, rfl, rfl, rfl, rfl, rfl, rfl, rfl, rfl, fun _ => ⟨rfl, rfl, rfl, rfl, rfl, rfl, rfl⟩⟩

/-! ## C19: the collectors -/

/-- C19 (the collectors log every outcome).  Take a run of the error collector and a run of
the success collector, each from its start, in which every result the broker client has sent
carries a key and a value, as the records of `Produce` and `ProduceCtx` do.  The entry logged
for a success carries topic, partition, offset, key, value and the trace identifier extracted
from the headers; the entry for a failure carries topic, partition, offset, key, value and the
cause.  Neither collector has failed.  The log of each collector holds exactly the entries of
the results it has received, one each and in the order of the stream, and these are the
results sent that are not pending.  A collector has ended only if its stream is closed and
empty, and its log is complete then; on an open empty stream its loop blocks; and once the
stream is closed the loop logs the pending results and ends. -/
theorem collectors_log_each_outcome (o : Otel)
    (eacts : List (CollectorAction ProducerError)) (es : Collector ProducerError)
    (sacts : List (CollectorAction ProducerMessage)) (ss : Collector ProducerMessage)
    (he : collectorRun logError (Collector.start ProducerError) eacts = some es)
    (hs : collectorRun (logSuccess o) (Collector.start ProducerMessage) sacts = some ss)
    (hek : ∀ x ∈ es.delivered, x.Msg.Key ≠ none ∧ x.Msg.Value ≠ none)
    (hsk : ∀ x ∈ ss.delivered, x.Key ≠ none ∧ x.Value ≠ none) :
    (∀ (x : ProducerMessage) key value, x.Key = some key → x.Value = some value →
      logSuccess o x = .ok
        { msg := "Push kafka message successfully",
          fields := [("topic", .Text x.Topic), ("partition", .Int32 x.Partition),
            ("offset", .Int64 x.Offset), ("key", .String key.Encode),
            ("value", .String value.Encode),
            ("trace_id",
              .TraceID (SpanContextFromContext (o.Extract none x.Headers)).TraceID)] }) ∧
    (∀ (x : ProducerError) key value, x.Msg.Key = some key → x.Msg.Value = some value →
      logError x = .ok
        { msg := "Failed to push kafka message",
          fields := [("topic", .Text x.Msg.Topic), ("partition", .Int32 x.Msg.Partition),
            ("offset", .Int64 x.Msg.Offset), ("key", .String key.Encode),
            ("value", .String value.Encode), ("error", .Error x.Err)] }) ∧
    (ss.crashed = none ∧
      (∃ done, ss.delivered = done ++ ss.pending ∧
        ss.log.map Except.ok = done.map (logSuccess o)) ∧
      (ss.exited = true → ss.closed = true ∧ ss.pending = [] ∧
        ss.log.map Except.ok = ss.delivered.map (logSuccess o)) ∧
      (ss.closed = false → ss.pending = [] →
        collectorStep (logSuccess o) ss .iterate = none) ∧
      (ss.closed = true → ss.exited = false →
        ∃ t, collectorRun (logSuccess o) ss
            (List.replicate (ss.pending.length + 1) .iterate) = some t ∧
          t.exited = true ∧ t.delivered = ss.delivered ∧
          t.log.map Except.ok = ss.delivered.map (logSuccess o))) ∧
    (es.crashed = none ∧
      (∃ done, es.delivered = done ++ es.pending ∧
        es.log.map Except.ok = done.map logError) ∧
      (es.exited = true → es.closed = true ∧ es.pending = [] ∧
        es.log.map Except.ok = es.delivered.map logError) ∧
      (es.closed = false → es.pending = [] → collectorStep logError es .iterate = none) ∧
      (es.closed = true → es.exited = false →
        ∃ t, collectorRun logError es
            (List.replicate (es.pending.length + 1) .iterate) = some t ∧
          t.exited = true ∧ t.delivered = es.delivered ∧
          t.log.map Except.ok = es.delivered.map logError)) := by
  have hsb : ∀ x ∈ ss.delivered, ∃ e, logSuccess o x = .ok e := by
    intro x hx
    obtain ⟨h1, h2⟩ := hsk x hx
    obtain ⟨k, hk⟩ := Option.ne_none_iff_exists'.mp h1
    obtain ⟨v, hv⟩ := Option.ne_none_iff_exists'.mp h2
    simp only [logSuccess, hk, hv]
    exact ⟨_, rfl⟩
  have heb : ∀ x ∈ es.delivered, ∃ e, logError x = .ok e := by
    intro x hx
    obtain ⟨h1, h2⟩ := hek x hx
    obtain ⟨k, hk⟩ := Option.ne_none_iff_exists'.mp h1
    obtain ⟨v, hv⟩ := Option.ne_none_iff_exists'.mp h2
    simp only [logError, hk, hv]
    exact ⟨_, rfl⟩
  refine ⟨?_, ?_, collector_correct (collector_inv_run (collector_inv_start _) hs) hsb,
    collector_correct (collector_inv_run (collector_inv_start _) he) heb⟩
  · intro x key value hk hv
    simp only [logSuccess, hk, hv]
  · intro x key value hk hv
    simp only [logError, hk, hv]

/-- C19 witness: the success collector receives one result, the stream is closed and the
collector ends with the one entry, which carries the trace identifier 255; the error collector
has logged the one failure and waits on its open stream. -/
theorem collectors_log_each_outcome_witness :
    ∃ (es : Collector ProducerError) (ss : Collector ProducerMessage),
      collectorRun logError (Collector.start ProducerError)
        [.deliver scenarioFailure, .iterate] = some es ∧
      collectorRun (logSuccess b3Otel) (Collector.start ProducerMessage)
        [.deliver scenarioSuccess, .close, .iterate, .iterate] = some ss ∧
      ss.exited = true ∧ es.exited = false ∧
      ss.log.map Except.ok = [logSuccess b3Otel scenarioSuccess] ∧
      ss.log =
        [{ msg := "Push kafka message successfully",
           fields := [("topic", .Text "orders"), ("partition", .Int32 0), ("offset", .Int64 42),
             ("key", .String (bytes "k1")), ("value", .String (bytes "v1")),
             ("trace_id", .TraceID 255)] }] ∧
      es.log =
        [{ msg := "Failed to push kafka message",
           fields := [("topic", .Text "orders"), ("partition", .Int32 0), ("offset", .Int64 0),
             ("key", .String (bytes "k2")), ("value", .String (bytes "v2")),
             ("error", .Error "kafka: broker not available")] }] ∧
      collectorStep logError es .iterate = none := by
  have he : collectorRun logError (Collector.start ProducerError)
      [.deliver scenarioFailure, .iterate] =
      some { pending := [], closed := false, delivered := [scenarioFailure],
             log := [{ msg := "Failed to push kafka message",
                       fields := [("topic", .Text "orders"), ("partition", .Int32 0),
                         ("offset", .Int64 0), ("key", .String (bytes "k2")),
                         ("value", .String (bytes "v2")),
                         ("error", .Error "kafka: broker not available")] }],
             exited := false, crashed := none } := rfl
  have hs : collectorRun (logSuccess b3Otel) (Collector.start ProducerMessage)
      [.deliver scenarioSuccess, .close, .iterate, .iterate] =
      some { pending := [], closed := true, delivered := [scenarioSuccess],
             log := [{ msg := "Push kafka message successfully",
                       fields := [("topic", .Text "orders"), ("partition", .Int32 0),
                         ("offset", .Int64 42), ("key", .String (bytes "k1")),
                         ("value", .String (bytes "v1")), ("trace_id", .TraceID 255)] }],
             exited := true, crashed := none } := rfl
  have h := collectors_log_each_outcome b3Otel _ _ _ _ he hs
    (by intro x hx; simp only [List.mem_singleton] at hx; subst hx; exact ⟨by decide, by decide⟩)
    (by intro x hx; simp only [List.mem_singleton] at hx; subst hx; exact ⟨by decide, by decide⟩)
  exact ⟨_, _, he, hs, rfl, rfl, (h.2.2.1.2.2.1 rfl).2.2, rfl, rfl, h.2.2.2.2.2.2.1 rfl rfl⟩

end Producer

/-! ## Properties of the gRPC functions -/

namespace Grpc

open Tracing

theorem cut_eq_none {sep : Nat} {s : List Nat} : strings.cut sep s = none ↔ sep ∉ s := by
  induction s with
  | nil => simp [strings.cut]
  | cons b rest ih =>
    by_cases h : b = sep
    · simp [strings.cut, h]
    · have h' : ¬ sep = b := fun e => h e.symm
      simp [strings.cut, h, h', ih]

theorem cut_eq_some {sep : Nat} {s a b : List Nat} (h : strings.cut sep s = some (a, b)) :
    s = a ++ sep :: b ∧ sep ∉ a := by
  induction s generalizing a b with
  | nil => simp [strings.cut] at h
  | cons x rest ih =>
    by_cases hx : x = sep
    · simp [strings.cut, hx] at h
      obtain ⟨rfl, rfl⟩ := h
      simp [hx]
    · simp only [strings.cut, hx, if_false, Option.map_eq_some', Prod.mk.injEq] at h
      obtain ⟨p, hp, rfl, rfl⟩ := h
      obtain ⟨h1, h2⟩ := ih (a := p.1) (b := p.2) (by rw [hp])
      refine ⟨by rw [List.cons_append, ← h1], ?_⟩
      simp only [List.mem_cons, not_or]
      exact ⟨fun e => hx e.symm, h2⟩

theorem trimLeft_spec (s : List Nat) (c : Nat) :
    ∃ k, s = List.replicate k c ++ strings.TrimLeft s c ∧
      (strings.TrimLeft s c).head? ≠ some c := by
  induction s with
  | nil => exact ⟨0, by simp [strings.TrimLeft]⟩
  | cons b rest ih =>
    by_cases h : b = c
    · obtain ⟨k, h1, h2⟩ := ih
      refine ⟨k + 1, ?_, ?_⟩
      · simp only [strings.TrimLeft] at h1 ⊢
        rw [List.dropWhile_cons_of_pos (by simp [h]), List.replicate_succ, List.cons_append,
          ← h1, h]
      · simp only [strings.TrimLeft] at h2 ⊢
        rw [List.dropWhile_cons_of_pos (by simp [h])]
        exact h2
    · refine ⟨0, ?_, ?_⟩
      · simp only [strings.TrimLeft]
        rw [List.dropWhile_cons_of_neg (by simp [h])]
        simp
      · simp only [strings.TrimLeft]
        rw [List.dropWhile_cons_of_neg (by simp [h])]
        simp [h]

theorem contains_iff {s : List (List Nat)} {e : List Nat} : contains s e = true ↔ e ∈ s := by
  induction s with
  | nil => simp [contains]
  | cons a rest ih =>
    by_cases h : a = e
    · simp [contains, h]
    · have h' : ¬ e = a := fun x => h x.symm
      simp [contains, h, h', ih]

theorem unauthenticated_eq {Req Resp : Type} (msg : String) :
    (unauthenticated msg : Result Req Resp) =
      { outcome := .returned none
          (some (.Status { Code := codes.Unauthenticated, Message := bytes msg, Details := [] })),
        calls := [] } := by
  simp [unauthenticated, status.Error, status.Err, status.New, codes.OK, codes.Unauthenticated]

/-! ## C24: ParseFullMethod -/

/-- C24 (`ParseFullMethod`).  For every `fullMethod` the name returned is `fullMethod` without
its leading slashes: `fullMethod` is some slashes followed by the name, and the name does not
start with a slash.  If the name contains no slash, there is no attribute.  Otherwise the name
is `service`, the first slash, `method`, and the attributes are the service attribute, left out
if `service` is empty, followed by the method attribute, left out if `method` is empty.  For
`/package.service/method` the name is `package.service/method`, the service `package.service`
and the method `method`. -/
theorem ParseFullMethod_spec (fullMethod : List Nat) :
    (∃ (k : Nat) (name : List Nat), fullMethod = List.replicate k 47 ++ name ∧
      name.head? ≠ some 47 ∧ (ParseFullMethod fullMethod).1 = name ∧
      ((47 ∉ name ∧ (ParseFullMethod fullMethod).2 = []) ∨
        ∃ service method, name = service ++ 47 :: method ∧ 47 ∉ service ∧
          (ParseFullMethod fullMethod).2 =
            (if service = [] then [] else [{ Key := "rpc.service", Value := service }]) ++
            (if method = [] then [] else [{ Key := "rpc.method", Value := method }]))) ∧
    ParseFullMethod (bytes "/package.service/method") =
      (bytes "package.service/method",
        [{ Key := "rpc.service", Value := bytes "package.service" },
         { Key := "rpc.method", Value := bytes "method" }]) := by
  refine ⟨?_, by decide⟩
  obtain ⟨k, h1, h2⟩ := trimLeft_spec fullMethod 47
  have hname : (ParseFullMethod fullMethod).1 = strings.TrimLeft fullMethod 47 := by
    simp only [ParseFullMethod]
    split <;> rfl
  refine ⟨k, strings.TrimLeft fullMethod 47, h1, h2, hname, ?_⟩
  cases hc : strings.cut 47 (strings.TrimLeft fullMethod 47) with
  | none =>
    refine Or.inl ⟨cut_eq_none.mp hc, ?_⟩
    simp [ParseFullMethod, strings.SplitN, hc]
  | some p =>
    obtain ⟨service, method⟩ := p
    obtain ⟨h3, h4⟩ := cut_eq_some hc
    refine Or.inr ⟨service, method, h3, h4, ?_⟩
    simp only [ParseFullMethod, strings.SplitN, hc]
    by_cases hs : service = [] <;> by_cases hm : method = [] <;> simp [hs, hm]

/-! ## C25: the authentication gate -/

/-- C25 (authentication gate).  Let `r` be a call of the interceptor.  For a method with the
health-check prefix the handler is called once, with the context and the request given, and
the call ends as the handler does.  For any other method: the handler is called only if the
metadata carry a client id and a client key, the first client id is a key of `clients` and
the first client key is the key registered for it; if this does not hold, the call returns no
response and an error of the package `status` with code `Unauthenticated`, and the handler is
not called.  In every case the handler is either not called, or called once with the context
and the request given, and then the call ends as the handler does. -/
theorem auth_gate {Req Resp : Type} (HealthCheckPrefix : List Nat)
    (ToLower : List Nat → List Nat) (clients : List Nat → Option (List Nat))
    (methodClients : List Nat → Option (List (List Nat))) (ctx : Context) (req : Req)
    (info : UnaryServerInfo) (handler : UnaryHandler Req Resp) (r : Result Req Resp)
    (hr : r = NewAuthenUnaryServerInterceptor HealthCheckPrefix ToLower clients methodClients
      ctx req info handler) :
    (strings.HasPrefix info.FullMethod HealthCheckPrefix = true →
      r = { outcome := handler ctx req, calls := [(ctx, req)] }) ∧
    (strings.HasPrefix info.FullMethod HealthCheckPrefix = false →
      (r.calls ≠ [] →
        ∃ id ids key keys,
          metadata.Get (metadata.FromIncomingContext ctx) ClientIdMetadataKey = id :: ids ∧
          metadata.Get (metadata.FromIncomingContext ctx) ClientKeyMetadataKey = key :: keys ∧
          clients id = some key) ∧
      ((¬ ∃ id ids key keys,
          metadata.Get (metadata.FromIncomingContext ctx) ClientIdMetadataKey = id :: ids ∧
          metadata.Get (metadata.FromIncomingContext ctx) ClientKeyMetadataKey = key :: keys ∧
          clients id = some key) →
        ∃ msg, r = { outcome := .returned none
                       (some (.Status { Code := codes.Unauthenticated, Message := msg,
                                        Details := [] })),
                     calls := [] })) ∧
    (r.calls = [] ∨ r = { outcome := handler ctx req, calls := [(ctx, req)] }) := by
  subst hr
  refine ⟨?_, ?_, ?_⟩
  · intro hh
    simp [NewAuthenUnaryServerInterceptor, hh]
  · intro hh
    simp only [NewAuthenUnaryServerInterceptor, hh, Bool.false_eq_true, if_false]
    cases hid : metadata.Get (metadata.FromIncomingContext ctx) ClientIdMetadataKey with
    | nil =>
      refine ⟨?_, fun _ => ⟨bytes "client-id or client-key not present in metadata", ?_⟩⟩
      · simp [unauthenticated]
      · simp only [List.length_nil, Nat.le_refl, true_or, if_true]
        exact unauthenticated_eq _
    | cons id ids =>
      cases hkey : metadata.Get (metadata.FromIncomingContext ctx) ClientKeyMetadataKey with
      | nil =>
        refine ⟨?_, fun _ => ⟨bytes "client-id or client-key not present in metadata", ?_⟩⟩
        · simp [unauthenticated]
        · simp only [List.length_nil, Nat.le_refl, or_true, if_true]
          exact unauthenticated_eq _
      | cons key keys =>
        simp only [List.length_cons, Nat.le_zero_eq, Nat.add_one_ne_zero, or_self, if_false,
          List.headD_cons]
        cases hc : clients id with
        | none =>
          refine ⟨?_, fun _ => ⟨bytes "client-id not found", ?_⟩⟩
          · simp [unauthenticated]
          · exact unauthenticated_eq _
        | some serverClientKey =>
          by_cases hk : serverClientKey = key
          · subst hk
            refine ⟨fun _ => ⟨id, ids, serverClientKey, keys, rfl, rfl, hc⟩, ?_⟩
            intro hn
            exact absurd ⟨id, ids, serverClientKey, keys, rfl, rfl, hc⟩ hn
          · refine ⟨?_, fun _ => ⟨bytes "client-key mismatch", ?_⟩⟩
            · simp [hk, unauthenticated]
            · simp only [ne_eq, hk, not_false_eq_true, if_true]
              exact unauthenticated_eq _
  · simp only [NewAuthenUnaryServerInterceptor]
    repeat' split
    all_goals first
      | exact Or.inr rfl
      | exact Or.inl rfl

/-- C25 witness: `guest` with the key `secret` reaches the handler of a method without an
entry in the allow-list. -/
theorem auth_gate_witness :
    NewAuthenUnaryServerInterceptor scenarioHealthCheckPrefix strings.ToLowerASCII
      scenarioClients scenarioMethodClients (scenarioContext (bytes "guest") (bytes "secret"))
      (bytes "ping") { FullMethod := bytes "/pkg.Service/List" } scenarioHandler =
      { outcome := .returned (some (bytes "ping")) none,
        calls := [(scenarioContext (bytes "guest") (bytes "secret"), bytes "ping")] } ∧
    scenarioClients (bytes "guest") = some (bytes "secret") := by
  have h := (auth_gate scenarioHealthCheckPrefix strings.ToLowerASCII scenarioClients
    scenarioMethodClients (scenarioContext (bytes "guest") (bytes "secret")) (bytes "ping")
    { FullMethod := bytes "/pkg.Service/List" } scenarioHandler _ rfl).2.2
  have hcalls : (NewAuthenUnaryServerInterceptor scenarioHealthCheckPrefix strings.ToLowerASCII
      scenarioClients scenarioMethodClients (scenarioContext (bytes "guest") (bytes "secret"))
      (bytes "ping") { FullMethod := bytes "/pkg.Service/List" } scenarioHandler).calls.length =
      1 := by decide
  rcases h with h | h
  · rw [h] at hcalls
    simp at hcalls
  · exact ⟨h, by decide⟩

/-! ## C26: the allow-list of a method -/

/-- C26, as the code has it (allow-list under the method name in lower case).  For a method
without the health-check prefix and a client that is authenticated, the first client id being
`id`: the allow-list consulted is the entry of `methodClients` under the full method name in
lower case.  If there is such an entry and `id` is not in its list, the call returns no
response and the error `Unauthenticated` with the text `client-id not allowed`, and the
handler is not called; if `id` is in the list, or if there is no such entry, the handler is
called. -/
theorem allow_list_lower_case {Req Resp : Type} (HealthCheckPrefix : List Nat)
    (ToLower : List Nat → List Nat) (clients : List Nat → Option (List Nat))
    (methodClients : List Nat → Option (List (List Nat))) (ctx : Context) (req : Req)
    (info : UnaryServerInfo) (handler : UnaryHandler Req Resp) (id key : List Nat)
    (ids keys : List (List Nat))
    (hh : strings.HasPrefix info.FullMethod HealthCheckPrefix = false)
    (hid : metadata.Get (metadata.FromIncomingContext ctx) ClientIdMetadataKey = id :: ids)
    (hkey : metadata.Get (metadata.FromIncomingContext ctx) ClientKeyMetadataKey = key :: keys)
    (hc : clients id = some key) :
    (∀ allowed, methodClients (ToLower info.FullMethod) = some allowed → id ∉ allowed →
      NewAuthenUnaryServerInterceptor HealthCheckPrefix ToLower clients methodClients ctx req
          info handler =
        { outcome := .returned none
            (some (.Status { Code := codes.Unauthenticated,
                             Message := bytes "client-id not allowed", Details := [] })),
          calls := [] }) ∧
    (∀ allowed, methodClients (ToLower info.FullMethod) = some allowed → id ∈ allowed →
      NewAuthenUnaryServerInterceptor HealthCheckPrefix ToLower clients methodClients ctx req
          info handler = { outcome := handler ctx req, calls := [(ctx, req)] }) ∧
    (methodClients (ToLower info.FullMethod) = none →
      NewAuthenUnaryServerInterceptor HealthCheckPrefix ToLower clients methodClients ctx req
          info handler = { outcome := handler ctx req, calls := [(ctx, req)] }) := by
  have hbase : NewAuthenUnaryServerInterceptor HealthCheckPrefix ToLower clients methodClients
      ctx req info handler =
      match methodClients (ToLower info.FullMethod) with
      | some allowedClients =>
        if !contains allowedClients id then unauthenticated "client-id not allowed"
        else { outcome := handler ctx req, calls := [(ctx, req)] }
      | none => { outcome := handler ctx req, calls := [(ctx, req)] } := by
    simp only [NewAuthenUnaryServerInterceptor, hh, Bool.false_eq_true, if_false, hid, hkey,
      List.length_cons, Nat.le_zero_eq, Nat.add_one_ne_zero, or_self, List.headD_cons, hc,
      ne_eq, not_true_eq_false] <;> rfl
  refine ⟨?_, ?_, ?_⟩
  · intro allowed ha hn
    have hcn : contains allowed id = false := by
      cases hx : contains allowed id with
      | false => rfl
      | true => exact absurd (contains_iff.mp hx) hn
    rw [hbase, ha]
    simp only [hcn, Bool.not_false, if_true]
    exact unauthenticated_eq _
  · intro allowed ha hm
    rw [hbase, ha]
    simp [contains_iff.mpr hm]
  · intro hn
    rw [hbase, hn]

/-- C26 witness: with the allow-list under the method name in lower case, `guest` is rejected
for `/pkg.Service/Get`. -/
theorem allow_list_lower_case_witness :
    NewAuthenUnaryServerInterceptor scenarioHealthCheckPrefix strings.ToLowerASCII
      scenarioClients scenarioMethodClientsLower
      (scenarioContext (bytes "guest") (bytes "secret")) (bytes "ping")
      { FullMethod := bytes "/pkg.Service/Get" } scenarioHandler =
      { outcome := .returned none
          (some (.Status { Code := codes.Unauthenticated,
                           Message := bytes "client-id not allowed", Details := [] })),
        calls := [] } :=
  (allow_list_lower_case scenarioHealthCheckPrefix strings.ToLowerASCII scenarioClients
    scenarioMethodClientsLower (scenarioContext (bytes "guest") (bytes "secret")) (bytes "ping")
    { FullMethod := bytes "/pkg.Service/Get" } scenarioHandler (bytes "guest") (bytes "secret")
    [] [] (by decide) (by decide) (by decide) (by decide)).1 [bytes "admin"] (by decide)
    (by decide)

/-- C26 as stated fails.  The allow-list has an entry for the full method name
`/pkg.Service/Get` of the request, the list of the entry is `admin` alone, and the
authenticated client `guest`, who is not in the list, reaches the handler: the interceptor
looks the method up in lower case and finds no entry.  And a method without an entry under its
full method name is closed to `guest` when there is an entry under the name in lower case. -/
theorem allow_list_misses_mixed_case :
    strings.HasPrefix (bytes "/pkg.Service/Get") scenarioHealthCheckPrefix = false ∧
    scenarioClients (bytes "guest") = some (bytes "secret") ∧
    scenarioMethodClients (bytes "/pkg.Service/Get") = some [bytes "admin"] ∧
    bytes "guest" ∉ [bytes "admin"] ∧
    NewAuthenUnaryServerInterceptor scenarioHealthCheckPrefix strings.ToLowerASCII
      scenarioClients scenarioMethodClients (scenarioContext (bytes "guest") (bytes "secret"))
      (bytes "ping") { FullMethod := bytes "/pkg.Service/Get" } scenarioHandler =
      { outcome := .returned (some (bytes "ping")) none,
        calls := [(scenarioContext (bytes "guest") (bytes "secret"), bytes "ping")] } ∧
    scenarioMethodClientsLower (bytes "/pkg.Service/Get") = none ∧
    (NewAuthenUnaryServerInterceptor scenarioHealthCheckPrefix strings.ToLowerASCII
      scenarioClients scenarioMethodClientsLower
      (scenarioContext (bytes "guest") (bytes "secret")) (bytes "ping")
      { FullMethod := bytes "/pkg.Service/Get" } scenarioHandler).calls = [] := by
  exact ⟨by decide, by decide, by decide, by decide, rfl, by decide, rfl⟩

/-! ## C28: recovery from a panic of the handler -/

/-- C28 (panic recovery).  The recover interceptor calls the handler once, with the context and
the request given.  If the handler returns, the call returns the response and the error of the
handler unchanged.  If the handler panics, the call returns no response and an error of the
package `status` with code `Internal` whose message is the text of the panic value, also for
`panic(nil)`.  The call never panics. -/
theorem recover_interceptor {Req Resp : Type} (ctx : Context) (req : Req)
    (info : UnaryServerInfo) (handler : UnaryHandler Req Resp) :
    (NewRecoverUnaryServerInterceptor ctx req info handler).calls = [(ctx, req)] ∧
    (∀ resp err, handler ctx req = .returned resp err →
      (NewRecoverUnaryServerInterceptor ctx req info handler).outcome = .returned resp err) ∧
    (∀ r, handler ctx req = .panicked r →
      (NewRecoverUnaryServerInterceptor ctx req info handler).outcome =
        .returned none
          (some (.Status { Code := codes.Internal, Message := r.format, Details := [] })) ∧
      ExtractCodeAndReasonFromError
          (some (.Status { Code := codes.Internal, Message := r.format, Details := [] })) =
        .ok (codes.Internal, bytes "rpc error: code = Internal desc = " ++ r.format)) ∧
    (∀ r, (NewRecoverUnaryServerInterceptor ctx req info handler).outcome ≠ .panicked r) := by
  refine ⟨?_, ?_, ?_, ?_⟩
  · simp only [NewRecoverUnaryServerInterceptor]
    split <;> rfl
  · intro resp err h
    simp [NewRecoverUnaryServerInterceptor, h, recoverDeferred]
  · intro r h
    refine ⟨?_, rfl⟩
    simp [NewRecoverUnaryServerInterceptor, h, recoverDeferred, status.Error, status.Err,
      status.New, codes.OK, codes.Internal]
  · intro r
    simp only [NewRecoverUnaryServerInterceptor, recoverDeferred]
    split <;> simp

/-- C28 witness: a handler that returns its request, and a handler that panics with the text of
its request. -/
theorem recover_interceptor_witness :
    (NewRecoverUnaryServerInterceptor (scenarioContext [] []) (bytes "ping")
      { FullMethod := bytes "/pkg.Service/Get" } scenarioHandler).outcome =
      .returned (some (bytes "ping")) none ∧
    (NewRecoverUnaryServerInterceptor (scenarioContext [] []) (bytes "boom")
      { FullMethod := bytes "/pkg.Service/Get" } scenarioPanicHandler).outcome =
      .returned none
        (some (.Status { Code := 13, Message := bytes "boom", Details := [] })) :=
  ⟨(recover_interceptor (scenarioContext [] []) (bytes "ping")
      { FullMethod := bytes "/pkg.Service/Get" } scenarioHandler).2.1 _ _ rfl,
   ((recover_interceptor (scenarioContext [] []) (bytes "boom")
      { FullMethod := bytes "/pkg.Service/Get" } scenarioPanicHandler).2.2.1 _ rfl).1⟩

end Grpc

/-! ## Properties of the error utilities -/

namespace Errorutils

open Grpc Tracing

theorem NewGrpcError_encoded {code : Nat} {message reason domain : List Nat}
    {metadata : List (List Nat × List Nat)} (hcode : code ≠ codes.OK)
    (hm : status.marshals { Reason := reason, Domain := domain, Metadata := metadata } = true) :
    NewGrpcError code message reason domain metadata =
      some (.Status { Code := code, Message := message,
                      Details := [.ErrorInfo { Reason := reason, Domain := domain,
                                               Metadata := metadata }] }) := by
  simp [NewGrpcError, status.WithDetails, status.New, status.Err, hcode, hm]

theorem NewGrpcError_plain {code : Nat} {message reason domain : List Nat}
    {metadata : List (List Nat × List Nat)} (hcode : code ≠ codes.OK)
    (hm : status.marshals { Reason := reason, Domain := domain, Metadata := metadata } = false) :
    NewGrpcError code message reason domain metadata =
      some (.Status { Code := code, Message := message, Details := [] }) := by
  simp [NewGrpcError, status.WithDetails, status.New, status.Err, hcode, hm]

/-! ## C27: the round trip of an error -/

/-- C27, as the code has it (error round trip for details that can be encoded).  For every code
other than `OK`: if the protobuf encoder accepts the error info, that is if reason, domain and
metadata are valid UTF-8, then for every default domain `ExtractReasonAndDomainFromError`
returns code, reason and domain of the error `NewGrpcError` has built, and
`ExtractCodeAndReasonFromError` returns code and reason.  If the encoder rejects the error
info, `NewGrpcError` returns the status without details, and both functions return the code,
the text of the error as the reason and, for the first, the default domain.  For an error that
is no gRPC status both return the code `Internal` and the text of the error, the first with the
default domain. -/
theorem grpc_error_round_trip (code : Nat) (message reason domain : List Nat)
    (metadata : List (List Nat × List Nat)) (d : List Nat) (hcode : code ≠ codes.OK) :
    (status.marshals { Reason := reason, Domain := domain, Metadata := metadata } = true →
      ExtractReasonAndDomainFromError (NewGrpcError code message reason domain metadata) d =
        .ok (code, reason, domain) ∧
      ExtractCodeAndReasonFromError (NewGrpcError code message reason domain metadata) =
        .ok (code, reason)) ∧
    (status.marshals { Reason := reason, Domain := domain, Metadata := metadata } = false →
      NewGrpcError code message reason domain metadata =
        some (.Status { Code := code, Message := message, Details := [] }) ∧
      ExtractReasonAndDomainFromError (NewGrpcError code message reason domain metadata) d =
        .ok (code, bytes "rpc error: code = " ++ codes.String code ++ bytes " desc = " ++ message,
          d) ∧
      ExtractCodeAndReasonFromError (NewGrpcError code message reason domain metadata) =
        .ok (code,
          bytes "rpc error: code = " ++ codes.String code ++ bytes " desc = " ++ message)) ∧
    (∀ text, ExtractReasonAndDomainFromError (some (.Other text)) d =
        .ok (codes.Internal, text, d) ∧
      ExtractCodeAndReasonFromError (some (.Other text)) = .ok (codes.Internal, text)) := by
  refine ⟨?_, ?_, fun text => ⟨rfl, rfl⟩⟩
  · intro hm
    rw [NewGrpcError_encoded hcode hm]
    exact ⟨rfl, rfl⟩
  · intro hm
    rw [NewGrpcError_plain hcode hm]
    exact ⟨rfl, rfl, rfl⟩

/-- C27 witness: the code `NotFound` with reason `USER_NOT_FOUND` and domain `users`. -/
theorem grpc_error_round_trip_witness :
    ExtractReasonAndDomainFromError
      (NewGrpcError 5 (bytes "no such user") (bytes "USER_NOT_FOUND") (bytes "users")
        [(bytes "id", bytes "42")]) (bytes "default") =
      .ok (5, bytes "USER_NOT_FOUND", bytes "users") ∧
    ExtractCodeAndReasonFromError
      (NewGrpcError 5 (bytes "no such user") (bytes "USER_NOT_FOUND") (bytes "users")
        [(bytes "id", bytes "42")]) = .ok (5, bytes "USER_NOT_FOUND") :=
  (grpc_error_round_trip 5 (bytes "no such user") (bytes "USER_NOT_FOUND") (bytes "users")
    [(bytes "id", bytes "42")] (bytes "default") (by decide)).1 (by decide)

/-- C27 as stated fails.  For the code `InvalidArgument` and a reason that is not valid UTF-8
(the one byte 255) the details cannot be encoded, `NewGrpcError` returns the status without
them, and the reason extracted is the text of the error, the domain the default domain. -/
theorem grpc_error_reason_lost :
    (3 : Nat) ≠ codes.OK ∧
    NewGrpcError 3 (bytes "bad") [255] (bytes "d") [] =
      some (.Status { Code := 3, Message := bytes "bad", Details := [] }) ∧
    ExtractReasonAndDomainFromError (NewGrpcError 3 (bytes "bad") [255] (bytes "d") [])
        (bytes "default") =
      .ok (3, bytes "rpc error: code = InvalidArgument desc = bad", bytes "default") ∧
    ExtractReasonAndDomainFromError (NewGrpcError 3 (bytes "bad") [255] (bytes "d") [])
        (bytes "default") ≠ .ok (3, [255], bytes "d") ∧
    ExtractCodeAndReasonFromError (NewGrpcError 3 (bytes "bad") [255] (bytes "d") []) ≠
      .ok (3, [255]) := by
  have h1 : ExtractReasonAndDomainFromError (NewGrpcError 3 (bytes "bad") [255] (bytes "d") [])
      (bytes "default") =
      .ok (3, bytes "rpc error: code = InvalidArgument desc = bad", bytes "default") := rfl
  have h2 : ExtractCodeAndReasonFromError (NewGrpcError 3 (bytes "bad") [255] (bytes "d") []) =
      .ok (3, bytes "rpc error: code = InvalidArgument desc = bad") := rfl
  refine ⟨by decide, by decide, h1, ?_, ?_⟩
  · rw [h1]
    intro e
    have h := Except.ok.inj e
    revert h
    decide
  · rw [h2]
    intro e
    have h := Except.ok.inj e
    revert h
    decide

end Errorutils
